import Mathlib

/-!
# Dynamic AI System (DAS): conditions, condition queries, action points, spots,
  path points, the coordinator component, the point registry

A shallow embedding of the coordination core of the DynamicAISystem plugin
(`Source/DynamicAISystem`), followed by theorems about it.

Conventions of the embedding
* Engine objects referenced through pointers (conditions, actors, components,
  delegates) are identified by natural numbers; a nullable pointer is an `Option`.
* The value a condition's overridable predicate
  (`UDASCondition::IsConditionFulfilled_Internal`) computes is given by an
  assignment `value : Nat → Bool`, fixed during one top-level call.
* Delegate broadcasts and blueprint hooks are recorded in an event log.
* A `float` value is the rational number it stands for; a sum or a difference of
  `float`s, and a number stored in a `float` variable, is rounded to single precision
  by `roundToFloat`.
-/

namespace DAS

/-! ## Objects/DASCondition.h, Utils/DASTypes.h : enumerations -/

/-- Cached condition result (`enum class ECachedConditionResult`). -/
inductive ECachedConditionResult where
  | Undefined
  | True
  | False
deriving DecidableEq, Repr

/-- Operator joining a condition with the conditions before it (`enum class EDASOperator`). -/
inductive EDASOperator where
  | AND
  | OR
deriving DecidableEq, Repr

/-- Result of an execution (`enum class EDASExecutionResult`). -/
inductive EDASExecutionResult where
  | Success
  | Failed
deriving DecidableEq, Repr

/-- What stops an evaluation short of a result: a call through a null pointer, or the
recursion budget of the embedding running out. -/
inductive Fault where
  | nullDereference
  | fuelExhausted
deriving DecidableEq, Repr

/-- Observable events: predicate calls, delegate broadcasts. -/
inductive DASEvent where
  /-- the predicate `IsConditionFulfilled_Internal` of condition `c` was called -/
  | conditionEvaluated (c : Nat)
  /-- condition `c` ran `ConditionResultChanged` and broadcast `OnConditionResultChanged` -/
  | conditionResultChanged (c : Nat) (bResult : Bool)
  /-- the query broadcast its own `OnConditionResultChanged` -/
  | queryResultChanged (bResult : Bool)
deriving DecidableEq, Repr

/-! ## Objects/DASCondition.{h,cpp} -/

/-- The value `SetCachedConditionResult( bNewValue )` stores. -/
def ECachedConditionResult.ofBool (bNewValue : Bool) : ECachedConditionResult :=
  if bNewValue then ECachedConditionResult.True else ECachedConditionResult.False

/-- The test guarding the change events in both `IsConditionFulfilled` functions:
`previousResult == Undefined || bResult && previousResult == False ||
 !bResult && previousResult == True`. -/
def resultReallyChanged (previousResult : ECachedConditionResult) (bResult : Bool) : Bool :=
  previousResult == ECachedConditionResult.Undefined ||
    (bResult && previousResult == ECachedConditionResult.False) ||
    (!bResult && previousResult == ECachedConditionResult.True)

/-- State of a `UDASCondition` object. `queryBound` tells whether the owning query's
`OnInnerConditionResultChanged` is in the invocation list of this condition's
`OnConditionResultChanged` delegate. -/
structure UDASCondition where
  CachedConditionResult : ECachedConditionResult
  bIsInitialized : Bool
  queryBound : Bool
deriving DecidableEq, Repr

/-- The constructor `UDASCondition::UDASCondition()`. -/
def UDASCondition.construct : UDASCondition :=
  { CachedConditionResult := ECachedConditionResult.Undefined
    bIsInitialized := false
    queryBound := false }

/-- Method `UDASCondition::SetCachedConditionResult`. -/
def UDASCondition.SetCachedConditionResult (self : UDASCondition) (bNewValue : Bool) :
    UDASCondition :=
  { self with CachedConditionResult := ECachedConditionResult.ofBool bNewValue }

/-- Method `UDASCondition::IsConditionFulfilled`, up to the delivery of the broadcast:
`bInternal` is what `IsConditionFulfilled_Internal()` computes. Returns `bResult`,
the updated object, and whether `ConditionResultChanged( bResult )` and
`OnConditionResultChanged.Broadcast( bResult )` are called. -/
def UDASCondition.IsConditionFulfilled (self : UDASCondition) (bInternal : Bool) :
    Bool × UDASCondition × Bool :=
  let previousResult := self.CachedConditionResult
  let bResult := bInternal
  let self1 := self.SetCachedConditionResult bResult
  (bResult, self1, resultReallyChanged previousResult bResult)

/-- Method `UDASCondition::Initialize` (`ValidateData` and `AddObservers` are empty hooks). -/
def UDASCondition.Initialize (self : UDASCondition) : UDASCondition :=
  if self.bIsInitialized = false then { self with bIsInitialized := true } else self

/-- Method `UDASCondition::Uninitialize`. -/
def UDASCondition.Uninitialize (self : UDASCondition) : UDASCondition :=
  if self.bIsInitialized then
    { self with bIsInitialized := false
                CachedConditionResult := ECachedConditionResult.Undefined }
  else self

/-- Successive calls of `IsConditionFulfilled` on one condition, the predicate computing
the listed values in turn; the result tells, per call, whether it emitted the change
notification. -/
def UDASCondition.evaluations : UDASCondition → List Bool → List Bool
  | _, [] => []
  | self, b :: bs =>
    let r := self.IsConditionFulfilled b
    r.2.2 :: UDASCondition.evaluations r.2.1 bs

/-! ## Objects/DASConditionQuery.{h,cpp} -/

/-- Entry of a query's chain (`struct FDASConditionWrapper`); `Instance` is nullable. -/
structure FDASConditionWrapper where
  Instance : Option Nat
  Operator : EDASOperator
deriving DecidableEq, Repr

/-- The range-for loop of `UDASConditionQuery::IsConditionFulfilled_Internal`, run on the
remaining entries with the locals `bFinalResult` and `bHasCheckedFirstCondition`.
`evalInstance c` stands for the call `condWrapper.Instance->IsConditionFulfilled()` on
the condition object `c`, acting on a state `σ`. -/
def IsConditionFulfilled_Internal_loop {σ : Type}
    (evalInstance : Nat → σ → Except Fault (Bool × σ)) :
    List FDASConditionWrapper → Bool → Bool → σ → Except Fault (Bool × σ)
  | [], bFinalResult, _, s => Except.ok (bFinalResult, s)
  | condWrapper :: rest, bFinalResult, bHasCheckedFirstCondition, s =>
    if bHasCheckedFirstCondition = false then
      -- bHasCheckedFirstCondition = true; then the assignment below the chain of ifs
      match condWrapper.Instance with
      | none => Except.error Fault.nullDereference
      | some c =>
        match evalInstance c s with
        | Except.error e => Except.error e
        | Except.ok (b, s1) => IsConditionFulfilled_Internal_loop evalInstance rest b true s1
    else if bFinalResult = false ∧ condWrapper.Operator = EDASOperator.AND then
      -- break
      Except.ok (bFinalResult, s)
    else if bFinalResult = true ∧ condWrapper.Operator = EDASOperator.OR then
      -- continue
      IsConditionFulfilled_Internal_loop evalInstance rest bFinalResult true s
    else
      -- bFinalResult = condWrapper.Instance->IsConditionFulfilled();
      match condWrapper.Instance with
      | none => Except.error Fault.nullDereference
      | some c =>
        match evalInstance c s with
        | Except.error e => Except.error e
        | Except.ok (b, s1) => IsConditionFulfilled_Internal_loop evalInstance rest b true s1

/-- Method `UDASConditionQuery::IsConditionFulfilled_Internal`: the loop started with
`bFinalResult = true` and `bHasCheckedFirstCondition = false`. -/
def IsConditionFulfilled_Internal {σ : Type}
    (evalInstance : Nat → σ → Except Fault (Bool × σ))
    (Conditions : List FDASConditionWrapper) (s : σ) : Except Fault (Bool × σ) :=
  IsConditionFulfilled_Internal_loop evalInstance Conditions true false s

/-- Evaluation of a condition that only records which condition objects the loop calls,
in call order, and returns the assigned predicate value. -/
def traceEval (value : Nat → Bool) (c : Nat) (calls : List Nat) :
    Except Fault (Bool × List Nat) :=
  Except.ok (value c, calls ++ [c])

/-- A chain entry with a non-null instance. -/
def wrap (e : Nat × EDASOperator) : FDASConditionWrapper :=
  { Instance := some e.1, Operator := e.2 }

/-- The fold of the specification on the entries after the first, with running result
`result`: a later entry ends the loop when the running result is false and its operator
is AND, is skipped when the running result is true and its operator is OR, and otherwise
its value replaces the running result. Returns the result and the conditions evaluated. -/
def specFoldLater (value : Nat → Bool) : List (Nat × EDASOperator) → Bool → Bool × List Nat
  | [], result => (result, [])
  | (c, op) :: rest, result =>
    if result = false ∧ op = EDASOperator.AND then (result, [])
    else if result = true ∧ op = EDASOperator.OR then specFoldLater value rest result
    else
      let r := specFoldLater value rest (value c)
      (r.1, c :: r.2)

/-- The fold of the specification: the running result starts as true and the first
entry is always evaluated, whatever its operator. -/
def specFold (value : Nat → Bool) : List (Nat × EDASOperator) → Bool × List Nat
  | [] => (true, [])
  | (c, _) :: rest =>
    let r := specFoldLater value rest (value c)
    (r.1, c :: r.2)

/-- State of a `UDASConditionQuery` object. -/
structure UDASConditionQuery where
  Conditions : List FDASConditionWrapper
  bIsInitialized : Bool
  CachedConditionResult : ECachedConditionResult
deriving DecidableEq, Repr

/-- The constructor `UDASConditionQuery::UDASConditionQuery()`, for an authored chain. -/
def UDASConditionQuery.construct (Conditions : List FDASConditionWrapper) :
    UDASConditionQuery :=
  { Conditions := Conditions
    bIsInitialized := false
    CachedConditionResult := ECachedConditionResult.Undefined }

/-- Method `UDASConditionQuery::SetCachedConditionResult`. -/
def UDASConditionQuery.SetCachedConditionResult (self : UDASConditionQuery)
    (bNewValue : Bool) : UDASConditionQuery :=
  { self with CachedConditionResult := ECachedConditionResult.ofBool bNewValue }

/-- The memory a query works on: the query object, the condition objects by identity,
and the log of events so far. -/
structure QueryMem where
  query : UDASConditionQuery
  conds : Nat → UDASCondition
  log : List DASEvent

/-- The call `Instance->IsConditionFulfilled()` on the condition object `c` in memory:
the predicate is called, the cache written, and on a change the notification is
delivered. When the query is bound to the condition's delegate the broadcast runs
`onInner`, which stands for `UDASConditionQuery::OnInnerConditionResultChanged`. -/
def conditionCall (value : Nat → Bool) (onInner : QueryMem → Except Fault QueryMem)
    (c : Nat) (m : QueryMem) : Except Fault (Bool × QueryMem) :=
  let r := (m.conds c).IsConditionFulfilled (value c)
  let m1 : QueryMem :=
    { m with conds := Function.update m.conds c r.2.1
             log := m.log ++ [DASEvent.conditionEvaluated c] }
  if r.2.2 = true then
    let m2 : QueryMem := { m1 with log := m1.log ++ [DASEvent.conditionResultChanged c r.1] }
    if (m.conds c).queryBound = true then
      match onInner m2 with
      | Except.error e => Except.error e
      | Except.ok m3 => Except.ok (r.1, m3)
    else Except.ok (r.1, m2)
  else Except.ok (r.1, m1)

/-- Method `UDASConditionQuery::IsConditionFulfilled`. The first argument bounds the depth
of the calls back into the query made from `OnInnerConditionResultChanged`, whose body
is `IsConditionFulfilled();`. -/
def UDASConditionQuery.IsConditionFulfilled (value : Nat → Bool) :
    Nat → QueryMem → Except Fault (Bool × QueryMem)
  | 0, _ => Except.error Fault.fuelExhausted
  | fuel + 1, m =>
    let previousResult := m.query.CachedConditionResult
    match IsConditionFulfilled_Internal
        (conditionCall value (fun m0 =>
          match UDASConditionQuery.IsConditionFulfilled value fuel m0 with
          | Except.error e => Except.error e
          | Except.ok r => Except.ok r.2))
        m.query.Conditions m with
    | Except.error e => Except.error e
    | Except.ok (bResult, m1) =>
      let m2 : QueryMem := { m1 with query := m1.query.SetCachedConditionResult bResult }
      if resultReallyChanged previousResult bResult = true then
        Except.ok (bResult, { m2 with log := m2.log ++ [DASEvent.queryResultChanged bResult] })
      else Except.ok (bResult, m2)

/-- The loop `for( int32 i = Conditions.Num() - 1; i >= 0; i-- )` of
`UDASConditionQuery::Initialize`; the first argument is `i + 1`. -/
def UDASConditionQuery.Initialize_loop : Nat → QueryMem → QueryMem
  | 0, m => m
  | i + 1, m =>
    match m.query.Conditions[i]? with
    | none => UDASConditionQuery.Initialize_loop i m
    | some condWrapper =>
      match condWrapper.Instance with
      | some c =>
        UDASConditionQuery.Initialize_loop i
          { m with conds := Function.update m.conds c
                     { (m.conds c).Initialize with queryBound := true } }
      | none =>
        UDASConditionQuery.Initialize_loop i
          { m with query := { m.query with Conditions := m.query.Conditions.eraseIdx i } }

/-- Method `UDASConditionQuery::Initialize`. -/
def UDASConditionQuery.Initialize (value : Nat → Bool) (fuel : Nat) (m : QueryMem) :
    Except Fault QueryMem :=
  if m.query.bIsInitialized = false then
    let m1 : QueryMem := { m with query := { m.query with bIsInitialized := true } }
    let m2 := UDASConditionQuery.Initialize_loop m1.query.Conditions.length m1
    match UDASConditionQuery.IsConditionFulfilled value fuel m2 with
    | Except.error e => Except.error e
    | Except.ok r => Except.ok r.2
  else Except.ok m

/-- The loop of `UDASConditionQuery::Uninitialize`; the first argument is `i + 1`. -/
def UDASConditionQuery.Uninitialize_loop : Nat → QueryMem → QueryMem
  | 0, m => m
  | i + 1, m =>
    match m.query.Conditions[i]? with
    | none => UDASConditionQuery.Uninitialize_loop i m
    | some condWrapper =>
      match condWrapper.Instance with
      | some c =>
        UDASConditionQuery.Uninitialize_loop i
          { m with conds := Function.update m.conds c
                     { UDASCondition.Uninitialize (m.conds c) with queryBound := false } }
      | none =>
        UDASConditionQuery.Uninitialize_loop i
          { m with query := { m.query with Conditions := m.query.Conditions.eraseIdx i } }

/-- Method `UDASConditionQuery::Uninitialize`. -/
def UDASConditionQuery.Uninitialize (m : QueryMem) : QueryMem :=
  if m.query.bIsInitialized = true then
    let m1 : QueryMem :=
      { m with query := { m.query with bIsInitialized := false
                                       CachedConditionResult :=
                                         ECachedConditionResult.Undefined } }
    UDASConditionQuery.Uninitialize_loop m1.query.Conditions.length m1
  else m

/-- Several calls of `UDASConditionQuery::IsConditionFulfilled` in a row, each with its
own assignment of predicate values. -/
def UDASConditionQuery.calls (fuel : Nat) : List (Nat → Bool) → QueryMem →
    Except Fault QueryMem
  | [], m => Except.ok m
  | value :: rest, m =>
    match UDASConditionQuery.IsConditionFulfilled value fuel m with
    | Except.error e => Except.error e
    | Except.ok r => UDASConditionQuery.calls fuel rest r.2

/-- The values the query broadcast through its `OnConditionResultChanged`, in order. -/
def queryBroadcasts : List DASEvent → List Bool
  | [] => []
  | DASEvent.queryResultChanged b :: rest => b :: queryBroadcasts rest
  | _ :: rest => queryBroadcasts rest

/-- The conditions whose predicate was called, in call order. -/
def predicateCalls : List DASEvent → List Nat
  | [] => []
  | DASEvent.conditionEvaluated c :: rest => c :: predicateCalls rest
  | _ :: rest => predicateCalls rest

/-- Condition `c` caches the value its predicate has under `value`. -/
def matched (value : Nat → Bool) (m : QueryMem) (c : Nat) : Prop :=
  (m.conds c).CachedConditionResult = ECachedConditionResult.ofBool (value c)

/-- The number of listed conditions whose cache is not the value of their predicate. -/
def mismatch (value : Nat → Bool) (ids : List Nat) (m : QueryMem) : Nat :=
  ids.countP (fun c =>
    decide ((m.conds c).CachedConditionResult ≠ ECachedConditionResult.ofBool (value c)))

/-- What every evaluation step keeps: the chain of the query, the conditions whose cache
is up to date, and the predicate calls already logged. -/
def Evolves (value : Nat → Bool) (m t : QueryMem) : Prop :=
  t.query.Conditions = m.query.Conditions ∧
    (∀ d, matched value m d → matched value t d) ∧
    (∀ d, d ∈ predicateCalls m.log → d ∈ predicateCalls t.log)

/-- The memory after condition `c` was evaluated, with its change notification logged
when `changed` holds. -/
def afterCall (value : Nat → Bool) (c : Nat) (changed : Bool) (s : QueryMem) : QueryMem :=
  { query := s.query
    conds := Function.update s.conds c ((s.conds c).SetCachedConditionResult (value c))
    log := if changed then
        (s.log ++ [DASEvent.conditionEvaluated c]) ++
          [DASEvent.conditionResultChanged c (value c)]
      else s.log ++ [DASEvent.conditionEvaluated c] }

/-- A query as authored, before `Initialize`: the constructed query object with the given
chain, freshly constructed condition objects, and an empty log. -/
def freshMem (Conditions : List FDASConditionWrapper) : QueryMem :=
  { query := UDASConditionQuery.construct Conditions
    conds := fun _ => UDASCondition.construct
    log := [] }

/-- Wrapper of a query instance (`struct FDASConditionQueryWrapper`). -/
structure FDASConditionQueryWrapper where
  Instance : Option UDASConditionQuery
deriving DecidableEq, Repr

/-- The memory a point's `CanRun` works on: its `ConditionQuery` member, the condition
objects, and the event log. -/
structure PointMem where
  ConditionQuery : FDASConditionQueryWrapper
  conds : Nat → UDASCondition
  log : List DASEvent

/-- Method `FDASConditionQueryWrapper::IsConditionFulfilled`. -/
def FDASConditionQueryWrapper.IsConditionFulfilled (value : Nat → Bool) (fuel : Nat)
    (pm : PointMem) : Except Fault (Bool × PointMem) :=
  match pm.ConditionQuery.Instance with
  | some q =>
    match UDASConditionQuery.IsConditionFulfilled value fuel
        { query := q, conds := pm.conds, log := pm.log } with
    | Except.error e => Except.error e
    | Except.ok r =>
      Except.ok (r.1, { ConditionQuery := { Instance := some r.2.query }
                        conds := r.2.conds
                        log := r.2.log })
  | none => Except.ok (true, pm)

/-- Method `ADASBasePoint::CanRun_Implementation`. -/
def ADASBasePoint.CanRun_Implementation (value : Nat → Bool) (fuel : Nat) (pm : PointMem) :
    Except Fault (Bool × PointMem) :=
  FDASConditionQueryWrapper.IsConditionFulfilled value fuel pm

/-! ## Single-precision numbers (`float`) -/

/-- The number of binary digits of `n`; `fuel` bounds the recursion, and `n` itself is
always enough fuel. -/
def bitLength : ℕ → ℕ → ℕ
  | 0, _ => 0
  | fuel + 1, n => if n = 0 then 0 else bitLength fuel (n / 2) + 1

/-- The quotient `n / d` rounded to the nearest whole number, a tie to the even one. -/
def roundHalfEven (n d : ℕ) : ℕ :=
  let f := n / d
  let r := n % d
  if 2 * r < d then f else if d < 2 * r then f + 1 else if f % 2 = 0 then f else f + 1

/-- The exponent `E` for which `2 ^ E` units of `2 ^ (-149)` is the spacing of the
`float`s around `n / d`: with `2 ^ k ≤ (n / d) * 2 ^ 149 < 2 ^ (k + 1)` the 24-digit
significand leaves `E = k - 23`, and `E = 0` in the subnormal range. -/
def floatExponent (n d : ℕ) : ℕ :=
  let k := 149 + bitLength n n - bitLength d d
  (if d * 2 ^ k ≤ n * 2 ^ 149 then k else k - 1) - 23

/-- The `float` nearest to `n / d`, counted in units of `2 ^ (-149)`. -/
def floatUnits (n d : ℕ) : ℕ :=
  let E := floatExponent n d
  roundHalfEven (n * 2 ^ 149) (d * 2 ^ E) * 2 ^ E

/-- The value a `float` variable holds after a number is stored in it or after an
operation on `float`s whose exact result is that number: IEEE 754 binary32, rounded to
the nearest representable value, a tie to the even significand. A magnitude that rounds
to `2 ^ 128` or more becomes an infinity, which is represented here by `2 ^ 128` with its
sign (it compares with every `float` as the infinity does). -/
def roundToFloat (q : ℚ) : ℚ :=
  let units := floatUnits q.num.natAbs q.den
  let r : ℚ := (units : ℚ) / 2 ^ 149
  let a : ℚ := if 2 ^ 128 ≤ r then 2 ^ 128 else r
  if q < 0 then -a else a

/-! ## Points/DASActionPoint.{h,cpp} -/

/-- Events an action point raises: blueprint hooks, delegate broadcasts, delegate calls. -/
inductive APEvent where
  /-- the hook `ReceiveExecute( ActiveDASComponent )`: execution started -/
  | ReceiveExecute (DASComponent : Option Nat)
  /-- the call `OnRep_IsExecuting()`: `IsExecutingValueChanged` and `OnIsExecutingChanged` -/
  | OnRep_IsExecuting (bIsExecuting : Bool)
  /-- the call `UDASBPLibrary::ClearTimersAndDelays( this )` -/
  | ClearTimersAndDelays
  /-- the hook `ReceiveFinishExecute( result )` -/
  | ReceiveFinishExecute (Result : EDASExecutionResult)
  /-- a completion delegate was run with a result -/
  | FinishExecutionDelegate (Delegate : Nat) (Result : EDASExecutionResult)
  /-- the call `OnRep_IsTaken()`: `IsTakenChanged` and `OnIsTakenChanged` -/
  | OnRep_IsTaken (bIsTaken : Bool)
deriving DecidableEq, Repr

/-- State of an `ADASActionPoint`. A delegate that is not bound is `none`; `HasAuthority`
is the engine's answer to `HasAuthority()`; `events` logs what the point raised. -/
structure ADASActionPoint where
  bIsExecuting : Bool
  bIsTaken : Bool
  ActiveDASComponent : Option Nat
  ActiveFinishExecutionDelegate : Option Nat
  Cooldown : ℚ
  CooldownEndWorldTime : ℚ
  HasAuthority : Bool
  events : List APEvent
deriving DecidableEq

/-- The constructor `ADASActionPoint::ADASActionPoint()` with the member initialisers of
the header, for a point with the given authority and authored `Cooldown`. -/
def ADASActionPoint.construct (HasAuthority : Bool) (Cooldown : ℚ) : ADASActionPoint :=
  { bIsExecuting := false
    bIsTaken := false
    ActiveDASComponent := none
    ActiveFinishExecutionDelegate := none
    Cooldown := Cooldown
    CooldownEndWorldTime := 0
    HasAuthority := HasAuthority
    events := [] }

/-- Method `ADASActionPoint::IsExecuting`. -/
def ADASActionPoint.IsExecuting (self : ADASActionPoint) : Bool := self.bIsExecuting

/-- Method `ADASActionPoint::IsTaken`. -/
def ADASActionPoint.IsTaken (self : ADASActionPoint) : Bool := self.bIsTaken

/-- Method `ADASActionPoint::SetIsExecuting` (the replication calls are not modelled). -/
def ADASActionPoint.SetIsExecuting (self : ADASActionPoint) (bNewExecuting : Bool) :
    ADASActionPoint :=
  if self.bIsExecuting ≠ bNewExecuting then { self with bIsExecuting := bNewExecuting }
  else self

/-- Method `ADASActionPoint::OnRep_IsExecuting`. -/
def ADASActionPoint.OnRep_IsExecuting (self : ADASActionPoint) : ADASActionPoint :=
  { self with events := self.events ++ [APEvent.OnRep_IsExecuting self.bIsExecuting] }

/-- Method `ADASActionPoint::Execute`. -/
def ADASActionPoint.Execute (self : ADASActionPoint) (DASComponent : Option Nat) :
    ADASActionPoint :=
  if self.IsExecuting = false ∧ self.HasAuthority = true then
    let p1 := { self with ActiveDASComponent := DASComponent }
    let p2 := p1.SetIsExecuting true
    let p3 := p2.OnRep_IsExecuting
    { p3 with events := p3.events ++ [APEvent.ReceiveExecute p3.ActiveDASComponent] }
  else self

/-- Method `ADASActionPoint::AsyncExecute`. -/
def ADASActionPoint.AsyncExecute (self : ADASActionPoint) (DASComponent : Option Nat)
    (FinishExecutionDelegate : Option Nat) : ADASActionPoint :=
  if self.IsExecuting = false ∧ self.HasAuthority = true then
    let p1 := { self with ActiveFinishExecutionDelegate := FinishExecutionDelegate }
    p1.Execute DASComponent
  else
    match FinishExecutionDelegate with
    | some d =>
      { self with events := self.events ++
          [APEvent.FinishExecutionDelegate d EDASExecutionResult.Failed] }
    | none => self

/-- Method `ADASActionPoint::ApplyCooldown`; `world` is the value of the local
`float currentTime`, the time `GetTimeSeconds()` of the world the point is in, if
`GetWorld()` is not null. The sum is a sum of `float`s. -/
def ADASActionPoint.ApplyCooldown (self : ADASActionPoint) (world : Option ℚ) :
    ADASActionPoint :=
  if self.Cooldown > 0 then
    match world with
    | some currentTime =>
      { self with CooldownEndWorldTime := roundToFloat (currentTime + self.Cooldown) }
    | none => self
  else self

/-- Method `ADASActionPoint::ApplyCustomCooldown`. -/
def ADASActionPoint.ApplyCustomCooldown (self : ADASActionPoint) (world : Option ℚ)
    (CooldownToApply : ℚ) : ADASActionPoint :=
  if CooldownToApply > 0 then
    match world with
    | some currentTime =>
      { self with CooldownEndWorldTime := roundToFloat (currentTime + CooldownToApply) }
    | none => self
  else self

/-- Method `ADASActionPoint::ResetCooldown`. -/
def ADASActionPoint.ResetCooldown (self : ADASActionPoint) : ADASActionPoint :=
  { self with CooldownEndWorldTime := 0 }

/-- Method `ADASActionPoint::FinishExecute`. -/
def ADASActionPoint.FinishExecute (self : ADASActionPoint) (world : Option ℚ)
    (bSuccess : Bool) : ADASActionPoint :=
  if self.IsExecuting = true then
    let result :=
      if bSuccess then EDASExecutionResult.Success else EDASExecutionResult.Failed
    let p1 := { self with events := self.events ++ [APEvent.ClearTimersAndDelays] }
    let p2 := p1.SetIsExecuting false
    let p3 := { p2 with events := p2.events ++ [APEvent.ReceiveFinishExecute result] }
    let p4 := if bSuccess then p3.ApplyCooldown world else p3
    let p5 := { p4 with ActiveDASComponent := none }
    let p6 := p5.OnRep_IsExecuting
    match p6.ActiveFinishExecutionDelegate with
    | some d => { p6 with events := p6.events ++ [APEvent.FinishExecutionDelegate d result] }
    | none => p6
  else self

/-- Method `ADASActionPoint::IsOnCooldown`. -/
def ADASActionPoint.IsOnCooldown (self : ADASActionPoint) (world : Option ℚ) : Bool :=
  match world with
  | some currentTime => decide (currentTime < self.CooldownEndWorldTime)
  | none => false

/-- Method `ADASActionPoint::GetCooldownRemainingTime`; the difference is a difference
of `float`s. -/
def ADASActionPoint.GetCooldownRemainingTime (self : ADASActionPoint) (world : Option ℚ) :
    ℚ :=
  match world with
  | some currentTime =>
    if self.CooldownEndWorldTime > currentTime then
      roundToFloat (self.CooldownEndWorldTime - currentTime)
    else 0
  | none => 0

/-- Method `ADASActionPoint::OnRep_IsTaken`. -/
def ADASActionPoint.OnRep_IsTaken (self : ADASActionPoint) : ADASActionPoint :=
  { self with events := self.events ++ [APEvent.OnRep_IsTaken self.bIsTaken] }

/-- Method `ADASActionPoint::SetIsTaken` (the replication calls are not modelled). -/
def ADASActionPoint.SetIsTaken (self : ADASActionPoint) (bNewIsTaken : Bool) :
    ADASActionPoint :=
  if self.bIsTaken ≠ bNewIsTaken then
    ({ self with bIsTaken := bNewIsTaken } : ADASActionPoint).OnRep_IsTaken
  else self

/-- Method `ADASActionPoint::CanRun_Implementation`: the cooldown test, then the parent
implementation on the memory of the point's condition query. -/
def ADASActionPoint.CanRun_Implementation (self : ADASActionPoint) (world : Option ℚ)
    (value : Nat → Bool) (fuel : Nat) (pm : PointMem) : Except Fault (Bool × PointMem) :=
  if self.IsOnCooldown world = true then Except.ok (false, pm)
  else ADASBasePoint.CanRun_Implementation value fuel pm

/-- A call of one of the four state-changing operations of an action point. -/
inductive APCall where
  | Execute (DASComponent : Option Nat)
  | AsyncExecute (DASComponent : Option Nat) (FinishExecutionDelegate : Option Nat)
  | FinishExecute (world : Option ℚ) (bSuccess : Bool)
  | SetIsTaken (bNewIsTaken : Bool)

/-- The effect of one call. -/
def ADASActionPoint.call (self : ADASActionPoint) : APCall → ADASActionPoint
  | APCall.Execute c => self.Execute c
  | APCall.AsyncExecute c d => self.AsyncExecute c d
  | APCall.FinishExecute world bSuccess => self.FinishExecute world bSuccess
  | APCall.SetIsTaken b => self.SetIsTaken b

/-- The effect of a sequence of calls, first to last. -/
def ADASActionPoint.calls (self : ADASActionPoint) : List APCall → ADASActionPoint
  | [] => self
  | c :: rest => ADASActionPoint.calls (self.call c) rest

/-- The discipline of the callers of an action point: execution is requested only on a
point that is taken, and the taken flag is cleared only on a point that is not
executing. -/
def ADASActionPoint.callAllowed (self : ADASActionPoint) : APCall → Bool
  | APCall.Execute _ => self.bIsTaken
  | APCall.AsyncExecute _ _ => self.bIsTaken
  | APCall.FinishExecute _ _ => true
  | APCall.SetIsTaken b => b || !self.bIsExecuting

/-- Every call of the sequence is allowed in the state it is made in. -/
def ADASActionPoint.callsAllowed (self : ADASActionPoint) : List APCall → Bool
  | [] => true
  | c :: rest => self.callAllowed c && ADASActionPoint.callsAllowed (self.call c) rest

/-! ## Utils/DASTypes.{h,cpp}, Points/DASPathPoint.cpp : spots -/

/-- A location (`FVector`). -/
structure FVector where
  X : ℚ
  Y : ℚ
  Z : ℚ
deriving DecidableEq

/-- The part of `FTransform` the reservation of spots reads: its location. -/
structure FTransform where
  Location : FVector
deriving DecidableEq

/-- A spot of a path point (`struct FDASSpot`). -/
structure FDASSpot where
  Transform : FTransform
  SpotOwner : Option Nat
deriving DecidableEq

/-- What `RequestSpot` reads from the engine and the point: which actor objects are valid
(`IsValid`), where actors are (`GetActorLocation`), where the point is, the point's
`GetActorTransform().TransformPosition`, and the value the engine's
`UKismetMathLibrary::Vector_DistanceSquared` returns. -/
structure SpotEnv where
  IsValid : Nat → Bool
  GetActorLocation : Nat → FVector
  PointLocation : FVector
  TransformPosition : FVector → FVector
  Vector_DistanceSquared : FVector → FVector → ℚ

/-- The constant `FLT_MAX` of `<cfloat>`, the largest finite `float`. -/
def FLT_MAX : ℚ := 340282346638528859811704183484516925440

/-- The engine's `IsValid( Actor )` on a nullable pointer. -/
def SpotEnv.IsValidActor (env : SpotEnv) : Option Nat → Bool
  | some a => env.IsValid a
  | none => false

/-- Method `FDASSpot::IsTaken`. -/
def FDASSpot.IsTaken (self : FDASSpot) (env : SpotEnv) : Bool :=
  env.IsValidActor self.SpotOwner

/-- Method `FDASSpot::IsFree`. -/
def FDASSpot.IsFree (self : FDASSpot) (env : SpotEnv) : Bool := !self.IsTaken env

/-- Method `FDASSpot::TakeSpot`. -/
def FDASSpot.TakeSpot (self : FDASSpot) (env : SpotEnv) (Owner : Option Nat) : FDASSpot :=
  if self.IsFree env = true then { self with SpotOwner := Owner } else self

/-- Method `FDASSpot::FreeSpot`. -/
def FDASSpot.FreeSpot (self : FDASSpot) : FDASSpot := { self with SpotOwner := none }

/-- Method `ADASPathPoint::ReleaseSpot`: `Spots.FindByKey( Querier )` finds the first spot
whose `SpotOwner == Querier`, and that spot is freed. -/
def ADASPathPoint.ReleaseSpot : List FDASSpot → Option Nat → List FDASSpot
  | [], _ => []
  | spot :: rest, Querier =>
    if spot.SpotOwner = Querier then spot.FreeSpot :: rest
    else spot :: ADASPathPoint.ReleaseSpot rest Querier

/-- The value of the local `float currentDistance` of `RequestSpot` for a spot: the
squared distance the engine returns for the spot, in world space, and the querier's
location, stored in a `float`. -/
def spotDistance (env : SpotEnv) (querierLocation : FVector) (spot : FDASSpot) : ℚ :=
  roundToFloat
    (env.Vector_DistanceSquared (env.TransformPosition spot.Transform.Location)
      querierLocation)

/-- The loop `for( FDASSpot& spot : Spots )` of `ADASPathPoint::RequestSpot` on the
remaining spots; `i` is the index of the first of them, and the locals are
`closestFreeSpot` (as an index into `Spots`) and `closestDistance`. -/
def ADASPathPoint.RequestSpot_loop (env : SpotEnv) (querierLocation : FVector) :
    List FDASSpot → Nat → Option Nat → ℚ → Option Nat × ℚ
  | [], _, closestFreeSpot, closestDistance => (closestFreeSpot, closestDistance)
  | spot :: rest, i, closestFreeSpot, closestDistance =>
    if spot.IsFree env = true then
      let currentDistance := spotDistance env querierLocation spot
      if currentDistance < closestDistance then
        ADASPathPoint.RequestSpot_loop env querierLocation rest (i + 1) (some i)
          currentDistance
      else
        ADASPathPoint.RequestSpot_loop env querierLocation rest (i + 1) closestFreeSpot
          closestDistance
    else
      ADASPathPoint.RequestSpot_loop env querierLocation rest (i + 1) closestFreeSpot
        closestDistance

/-- Method `ADASPathPoint::RequestSpot`: returns `OutSpot` and the new `Spots`. -/
def ADASPathPoint.RequestSpot (env : SpotEnv) (Spots : List FDASSpot) (OutSpot : FDASSpot)
    (Querier : Option Nat) : FDASSpot × List FDASSpot :=
  match Spots with
  | [] => (OutSpot, Spots)
  | _ :: _ =>
    let Spots1 := ADASPathPoint.ReleaseSpot Spots Querier
    let querierLocation :=
      match Querier with
      | some q => if env.IsValid q = true then env.GetActorLocation q else env.PointLocation
      | none => env.PointLocation
    match (ADASPathPoint.RequestSpot_loop env querierLocation Spots1 0 none FLT_MAX).1 with
    | some i =>
      let Spots2 := Spots1.modify (fun spot => spot.TakeSpot env Querier) i
      (Spots2.getD i OutSpot, Spots2)
    | none => (Spots1.getD 0 OutSpot, Spots1)

/-- A call of one of the two spot operations of a path point; a request carries the
engine state it is made in. -/
inductive SpotCall where
  | RequestSpot (env : SpotEnv) (OutSpot : FDASSpot) (Querier : Option Nat)
  | ReleaseSpot (Querier : Option Nat)

/-- The spot list after one call. -/
def ADASPathPoint.spotCall (Spots : List FDASSpot) : SpotCall → List FDASSpot
  | SpotCall.RequestSpot env OutSpot Querier =>
    (ADASPathPoint.RequestSpot env Spots OutSpot Querier).2
  | SpotCall.ReleaseSpot Querier => ADASPathPoint.ReleaseSpot Spots Querier

/-- The spot list after a sequence of calls, first to last. -/
def ADASPathPoint.spotCalls : List FDASSpot → List SpotCall → List FDASSpot
  | Spots, [] => Spots
  | Spots, c :: rest => ADASPathPoint.spotCalls (ADASPathPoint.spotCall Spots c) rest

/-- The number of spots whose `SpotOwner` is the actor `a`. -/
def spotsOwnedBy (Spots : List FDASSpot) (a : Nat) : Nat :=
  Spots.countP (fun s => decide (s.SpotOwner = some a))

/-- The distinct actors that own a spot of the list. -/
def spotOwners (Spots : List FDASSpot) : List Nat :=
  (Spots.filterMap (fun s => s.SpotOwner)).dedup

/-! ## Objects/DASAction.{h,cpp} -/

/-- Events an action raises: blueprint hooks and delegate calls. -/
inductive ActionEvent where
  /-- the hook `ReceiveExecute( DASComponent )`: the action started -/
  | ReceiveExecute (DASComponent : Option Nat)
  /-- the call `UDASBPLibrary::ClearTimersAndDelays( this )` -/
  | ClearTimersAndDelays
  /-- the hook `ReceiveFinishExecute( ActiveDASComponent, result )` -/
  | ReceiveFinishExecute (DASComponent : Option Nat) (Result : EDASExecutionResult)
  /-- a completion delegate was run with a result -/
  | FinishExecutionDelegate (Delegate : Nat) (Result : EDASExecutionResult)
deriving DecidableEq, Repr

/-- State of a `UDASAction`. A delegate that is not bound is `none`; `events` logs what
the action raised. -/
structure UDASAction where
  bIsExecuting : Bool
  ActiveDASComponent : Option Nat
  ActiveFinishExecutionDelegate : Option Nat
  events : List ActionEvent
deriving DecidableEq, Repr

/-- The constructor `UDASAction::UDASAction()` with the member initialisers of the
header. -/
def UDASAction.construct : UDASAction :=
  { bIsExecuting := false
    ActiveDASComponent := none
    ActiveFinishExecutionDelegate := none
    events := [] }

/-- Method `UDASAction::Execute`. -/
def UDASAction.Execute (self : UDASAction) (DASComponent : Option Nat) : UDASAction :=
  if self.bIsExecuting = false then
    { self with ActiveDASComponent := DASComponent
                bIsExecuting := true
                events := self.events ++ [ActionEvent.ReceiveExecute DASComponent] }
  else self

/-- Method `UDASAction::AsyncExecute`. -/
def UDASAction.AsyncExecute (self : UDASAction) (DASComponent : Option Nat)
    (FinishExecutionDelegate : Option Nat) : UDASAction :=
  if self.bIsExecuting = true then
    match FinishExecutionDelegate with
    | some d =>
      { self with events := self.events ++
          [ActionEvent.FinishExecutionDelegate d EDASExecutionResult.Failed] }
    | none => self
  else
    UDASAction.Execute { self with ActiveFinishExecutionDelegate := FinishExecutionDelegate }
      DASComponent

/-- Method `UDASAction::FinishExecute`. -/
def UDASAction.FinishExecute (self : UDASAction) (bSuccess : Bool) : UDASAction :=
  if self.bIsExecuting = true then
    let a1 := { self with bIsExecuting := false }
    let result :=
      if bSuccess then EDASExecutionResult.Success else EDASExecutionResult.Failed
    let a2 := { a1 with events := a1.events ++ [ActionEvent.ClearTimersAndDelays] }
    let a3 := { a2 with events := a2.events ++
      [ActionEvent.ReceiveFinishExecute a2.ActiveDASComponent result] }
    let a4 := { a3 with ActiveDASComponent := none }
    match a4.ActiveFinishExecutionDelegate with
    | some d => { a4 with events := a4.events ++ [ActionEvent.FinishExecutionDelegate d result] }
    | none => a4
  else self

/-! ## Utils/DASTypes.h : enumerations and snapshot of the coordinator -/

/-- A point identifier (`FGuid`); the default-constructed, invalid `FGuid()` is `0`. -/
abbrev FGuid := Nat

/-- Running mode of the coordinator (`enum class EDASRunMode`). -/
inductive EDASRunMode where
  | Undefined
  | ExecutePathPoints
  | ExecuteActionsFromSelector
deriving DecidableEq, Repr

/-- What the agent is doing (`enum class EDASPathBehavior`). -/
inductive EDASPathBehavior where
  | Undefined
  | MovingToPathPoint
  | ReturningToPathPoint
  | MovingToActionPoint
  | ExecutingActionPoint
deriving DecidableEq, Repr

/-- When the action points of a path point are executed
(`enum class EDASPathExecuteMethod`). -/
inductive EDASPathExecuteMethod where
  | None
  | BothWays
  | Forward
  | Backward
deriving DecidableEq, Repr

/-- A rotation (`FRotator`). -/
structure FRotator where
  Pitch : ℚ
  Yaw : ℚ
  Roll : ℚ
deriving DecidableEq

/-- Snapshot of the coordinator (`struct FDASComponentSnapshot`); the class and the
serialised data of the action selector are kept as an identifier and a byte list. -/
structure FDASComponentSnapshot where
  ActivePathPointId : FGuid
  ActionPointsIdQueue : List FGuid
  bWasMovingForward : Bool
  bWasReturningToPathPoint : Bool
  RunMode : EDASRunMode
  ActionSelectorClass : Option Nat
  ActionSelectorData : List Nat
  OwnerLocation : FVector
  OwnerRotation : FRotator
  bHasNewPathPoint : Bool
deriving DecidableEq

/-! ## Points/DASPathPoint.{h,cpp} : links -/

/-- State of an `ADASPathPoint`: its identifier, its links in both directions with their
enabling flags and solver objects, its action selector and execution method, whether its
`ConditionQuery` has an instance, and its spots. Pointers are object identifiers. -/
structure ADASPathPoint where
  PointId : FGuid
  bCanMoveForward : Bool
  NextPathPoints : List (Option Nat)
  NextPathPointSolver : Option Nat
  bCanMoveBackward : Bool
  PreviousPathPoints : List (Option Nat)
  PreviousPathPointSolver : Option Nat
  PathActionExecutionMethod : EDASPathExecuteMethod
  ActionSelector : Option Nat
  ConditionQueryIsValid : Bool
  Spots : List FDASSpot

/-- What the coordinator and the path points reach through the engine and through
overridable calls on other objects. The calls that may run blueprint code act on a
state `σ` of the rest of the game and return a value together with the new state.
* `CanRunPathPoint p`, `CanRunActionPoint a`: the call `CanRun()` on a point;
* `SelectPathPoint solver component links`: the call `SelectPathPoint` on a solver;
* `RandomIntegerInRange lo hi`: the call `UKismetMathLibrary::RandomIntegerInRange`;
* `GetActionPointsToExecute selector component`: the array an action selector fills;
* `PathPointQuery p`, `ActionPointQuery a`: the call
  `ConditionQuery.Instance->IsConditionFulfilled()` on a point;
* `NewSelector class data`: `NewObject` of the class followed by `Serialize` from data.

A delegate that such a call broadcasts is not delivered to the coordinator inside the
call: the event log of the coordinator holds what its own methods do, not the writes of
a handler that a query runs while it is evaluated. -/
structure DASEnv (σ : Type) where
  IsValidPathPoint : Nat → Bool
  IsValidActionPoint : Nat → Bool
  IsValidController : Nat → Bool
  GetAIController : Option Nat → Option Nat
  HasBlackboard : Nat → Bool
  HasBrainComponent : Nat → Bool
  CanRunPathPoint : Nat → σ → Bool × σ
  CanRunActionPoint : Nat → σ → Bool × σ
  SelectPathPoint : Nat → Option Nat → List (Option Nat) → σ → Option Nat × σ
  RandomIntegerInRange : Int → Int → σ → Int × σ
  GetActionPointsToExecute : Nat → Option Nat → σ → List (Option Nat) × σ
  PathPointQuery : Nat → σ → Bool × σ
  ActionPointQuery : Nat → σ → Bool × σ
  ActionPointQueryIsValid : Nat → Bool
  ActionPointId : Nat → FGuid
  GetActorLocation : Nat → σ → FVector
  GetActorRotation : Nat → σ → FRotator
  SelectorClass : Nat → Nat
  SerializeSelector : Nat → σ → List Nat
  NewSelector : Nat → List Nat → σ → Nat × σ

/-- The loop of `GetNextPathPoint` and `GetPreviousPathPoint` that fills
`availablePathPoints`: the non-null links whose `CanRun()` returns true, in link order. -/
def availablePathPoints {σ : Type} (env : DASEnv σ) : List (Option Nat) → σ → List Nat × σ
  | [], s => ([], s)
  | none :: rest, s => availablePathPoints env rest s
  | some pathPoint :: rest, s =>
    let r := env.CanRunPathPoint pathPoint s
    let t := availablePathPoints env rest r.2
    if r.1 = true then (pathPoint :: t.1, t.2) else t

/-- The common body of `ADASPathPoint::GetNextPathPoint` and `GetPreviousPathPoint`, on
the flag, the links and the solver of one direction. An index outside
`availablePathPoints`, which the range passed to `RandomIntegerInRange` excludes, reads
as no point. -/
def ADASPathPoint.GetLinkedPathPoint {σ : Type} (env : DASEnv σ) (bCanMove : Bool)
    (Links : List (Option Nat)) (Solver : Option Nat) (DASComponent : Option Nat) (s : σ) :
    Option Nat × σ :=
  if bCanMove = true ∧ Links.length > 0 then
    match Solver with
    | some solver => env.SelectPathPoint solver DASComponent Links s
    | none =>
      let r := availablePathPoints env Links s
      if r.1.length > 0 then
        let randomIdx := env.RandomIntegerInRange 0 ((r.1.length : Int) - 1) r.2
        (if 0 ≤ randomIdx.1 then r.1[randomIdx.1.toNat]? else none, randomIdx.2)
      else (none, r.2)
  else (none, s)

/-- Method `ADASPathPoint::GetNextPathPoint`. -/
def ADASPathPoint.GetNextPathPoint {σ : Type} (env : DASEnv σ) (self : ADASPathPoint)
    (DASComponent : Option Nat) (s : σ) : Option Nat × σ :=
  ADASPathPoint.GetLinkedPathPoint env self.bCanMoveForward self.NextPathPoints
    self.NextPathPointSolver DASComponent s

/-- Method `ADASPathPoint::GetPreviousPathPoint`. -/
def ADASPathPoint.GetPreviousPathPoint {σ : Type} (env : DASEnv σ) (self : ADASPathPoint)
    (DASComponent : Option Nat) (s : σ) : Option Nat × σ :=
  ADASPathPoint.GetLinkedPathPoint env self.bCanMoveBackward self.PreviousPathPoints
    self.PreviousPathPointSolver DASComponent s

/-- The call `bForward ? GetNextPathPoint( c ) : GetPreviousPathPoint( c )` on a point. -/
def ADASPathPoint.GetNextOrPrevious {σ : Type} (env : DASEnv σ) (self : ADASPathPoint)
    (bForward : Bool) (DASComponent : Option Nat) (s : σ) : Option Nat × σ :=
  if bForward = true then self.GetNextPathPoint env DASComponent s
  else self.GetPreviousPathPoint env DASComponent s

/-- The enabling flag of a direction: `bCanMoveForward` or `bCanMoveBackward`. -/
def ADASPathPoint.canMove (self : ADASPathPoint) (bForward : Bool) : Bool :=
  if bForward = true then self.bCanMoveForward else self.bCanMoveBackward

/-- The links of a direction: `NextPathPoints` or `PreviousPathPoints`. -/
def ADASPathPoint.links (self : ADASPathPoint) (bForward : Bool) : List (Option Nat) :=
  if bForward = true then self.NextPathPoints else self.PreviousPathPoints

/-- The solver of a direction: `NextPathPointSolver` or `PreviousPathPointSolver`. -/
def ADASPathPoint.solver (self : ADASPathPoint) (bForward : Bool) : Option Nat :=
  if bForward = true then self.NextPathPointSolver else self.PreviousPathPointSolver

/-- The non-null entries of a list of pointers, in order. -/
def nonNull : List (Option Nat) → List Nat
  | [] => []
  | none :: rest => nonNull rest
  | some p :: rest => p :: nonNull rest

/-! ## Utils/DASWorldSubsystem.{h,cpp} : the point registry -/

/-- State of the `UDASWorldSubsystem`: the registered points, as pointers. -/
structure UDASWorldSubsystem where
  PathPoints : List (Option Nat)
  ActionPoints : List (Option Nat)
deriving DecidableEq, Repr

/-- The search `FindByPredicate` with the predicate `point && point->PointId == Id`:
the first registered non-null point with the identifier. -/
def FindPointById (PointId : Nat → FGuid) : List (Option Nat) → FGuid → Option Nat
  | [], _ => none
  | none :: rest, Id => FindPointById PointId rest Id
  | some point :: rest, Id =>
    if PointId point = Id then some point else FindPointById PointId rest Id

/-! ## Components/DASComponent.{h,cpp} -/

/-- Keys of the blackboard the coordinator writes to. -/
inductive BBKey where
  | PathPoint
  | ActionPoint
  | RunMode
  | ActionSelector
  | CanRunActionPoint
  | CanRunPathPoint
  | IsActionPointTaken
deriving DecidableEq, Repr

/-- Values written to the blackboard. -/
inductive BBValue where
  | object (o : Option Nat)
  | bool (b : Bool)
  | runMode (m : EDASRunMode)
deriving DecidableEq, Repr

/-- The delegates of other objects the coordinator binds to and unbinds from. -/
inductive DelegateOf where
  /-- the delegate `ConditionQuery.Instance->OnConditionResultChanged` of a path point -/
  | pathPointCondition (p : Nat)
  /-- the delegate `ConditionQuery.Instance->OnConditionResultChanged` of an action point -/
  | actionPointCondition (a : Nat)
  /-- the delegate `OnIsTakenChanged` of an action point -/
  | actionPointIsTaken (a : Nat)
deriving DecidableEq, Repr

/-- Events the coordinator raises: blackboard writes, bindings, blueprint hooks with the
broadcast of the matching delegate, and calls into the owner. -/
inductive CompEvent where
  | SetBlackboardValue (key : BBKey) (value : BBValue)
  | RemoveDynamic (target : DelegateOf)
  | AddUniqueDynamic (target : DelegateOf)
  | PathPointChanged (previous current : Option Nat)
  | ActionPointChanged (previous current : Option Nat)
  | RunModeChanged (previous current : EDASRunMode)
  | ActionSelectorChanged (selector : Option Nat)
  | SetActorLocationAndRotation (location : FVector) (rotation : FRotator)
  | RestartLogic
  /-- the hook `ReceiveInit()` followed by `OnInitialized.Broadcast()` -/
  | ReceiveInit
  | PathBehaviorChanged (previous current : EDASPathBehavior)
  /-- the calls `Clear()` on the five event delegates at the end of `Reset` -/
  | ClearDelegates
deriving DecidableEq

/-- State of a `UDASComponent`. `Id` is the identity of the object (`this`), `Owner` is
`GetOwner()`, and `events` logs what the component raised. -/
structure UDASComponent where
  Id : Nat
  Owner : Option Nat
  OwnerAIController : Option Nat
  bIsInitialized : Bool
  RunMode : EDASRunMode
  InitialPathPoint : Option Nat
  ActionSelector : Option Nat
  PathBehavior : EDASPathBehavior
  CurrentGoalLocation : FVector
  CurrentGoalRotation : FRotator
  ActivePathPoint : Option Nat
  bIsMovingForwardAlongPath : Bool
  bIsReturningToPathPoint : Bool
  bHasNewPathPoint : Bool
  ActiveActionPoint : Option Nat
  ActionPointsQueue : List (Option Nat)
  events : List CompEvent
deriving DecidableEq

/-- The coordinator with the objects it works on: the path points and action points by
identity, the point registry when the world has one, and the state `ext` of everything
reached through the calls of `DASEnv`. -/
structure DASWorld (σ : Type) where
  comp : UDASComponent
  pathPoints : Nat → ADASPathPoint
  actionPoints : Nat → ADASActionPoint
  DASSubsystem : Option UDASWorldSubsystem
  ext : σ

/-- The engine's `IsValid` on a nullable pointer to a path point. -/
def DASEnv.IsValidPath {σ : Type} (env : DASEnv σ) : Option Nat → Bool
  | some p => env.IsValidPathPoint p
  | none => false

/-- The engine's `IsValid` on a nullable pointer to an action point. -/
def DASEnv.IsValidAction {σ : Type} (env : DASEnv σ) : Option Nat → Bool
  | some a => env.IsValidActionPoint a
  | none => false

/-- The body shared by the `Update...BBKey` functions: the value is written when
`OwnerAIController` is not null and has a blackboard component. -/
def UDASComponent.UpdateBBKey {σ : Type} (env : DASEnv σ) (self : UDASComponent)
    (key : BBKey) (value : BBValue) : UDASComponent :=
  match self.OwnerAIController with
  | some controller =>
    if env.HasBlackboard controller = true then
      { self with events := self.events ++ [CompEvent.SetBlackboardValue key value] }
    else self
  | none => self

/-- Appends an event to the log of the component. -/
def UDASComponent.raise (self : UDASComponent) (e : CompEvent) : UDASComponent :=
  { self with events := self.events ++ [e] }

/-- Method `UDASComponent::ClearActionPointsQueue`. -/
def UDASComponent.ClearActionPointsQueue (self : UDASComponent) : UDASComponent :=
  { self with ActionPointsQueue := [] }

/-- Method `UDASComponent::SetActionPointsQueue`. -/
def UDASComponent.SetActionPointsQueue (self : UDASComponent)
    (NewActionPointsQueue : List (Option Nat)) : UDASComponent :=
  { self with ActionPointsQueue := NewActionPointsQueue }

/-- Method `UDASComponent::SetIsReturningToPathPoint`. -/
def UDASComponent.SetIsReturningToPathPoint (self : UDASComponent) (bNewValue : Bool) :
    UDASComponent :=
  { self with bIsReturningToPathPoint := bNewValue }

/-- Method `UDASComponent::SetIsMovingForwardAlongPath`. -/
def UDASComponent.SetIsMovingForwardAlongPath (self : UDASComponent) (bNewValue : Bool) :
    UDASComponent :=
  { self with bIsMovingForwardAlongPath := bNewValue }

/-- Method `UDASComponent::SetHasNewPathPoint`. -/
def UDASComponent.SetHasNewPathPoint (self : UDASComponent) (bNewValue : Bool) :
    UDASComponent :=
  { self with bHasNewPathPoint := bNewValue }

/-- The component with its event log replaced. -/
def UDASComponent.withEvents (self : UDASComponent) (ev : List CompEvent) : UDASComponent :=
  { self with events := ev }

/-- Two component states agree on every field but the event log. -/
def UDASComponent.SameButEvents (c d : UDASComponent) : Prop :=
  c.withEvents [] = d.withEvents []

/-- The part of `SetActionPoint` under the comment "clear connections to previous
point". -/
def UDASComponent.disconnectActionPoint {σ : Type} (env : DASEnv σ) (self : UDASComponent)
    (previousActionPoint : Option Nat) : UDASComponent :=
  match previousActionPoint with
  | some prev =>
    if env.IsValidActionPoint prev = true then
      -- stop observing is taken flag of previous point
      let d1 := self.raise (CompEvent.RemoveDynamic (DelegateOf.actionPointIsTaken prev))
      -- stop observing condition of previous point
      if env.ActionPointQueryIsValid prev = true then
        d1.raise (CompEvent.RemoveDynamic (DelegateOf.actionPointCondition prev))
      else d1
    else self
  | none => self

/-- The part of `SetActionPoint` under the comment "make connections to new point if its
valid", with its `else` branch: returns the component and the state after the call of
`IsConditionFulfilled()` on the new point's query. -/
def UDASComponent.connectActionPoint {σ : Type} (env : DASEnv σ) (w : DASWorld σ)
    (self : UDASComponent) (NewActionPoint : Option Nat) : UDASComponent × σ :=
  if env.IsValidAction NewActionPoint = true then
    match NewActionPoint with
    | some a =>
      -- start observing is taken flag of new point
      let d1 := self.raise (CompEvent.AddUniqueDynamic (DelegateOf.actionPointIsTaken a))
      let d2 := d1.UpdateBBKey env BBKey.IsActionPointTaken
        (BBValue.bool (w.actionPoints a).IsTaken)
      -- start observing condition of new point
      if env.ActionPointQueryIsValid a = true then
        let d3 := d2.raise (CompEvent.AddUniqueDynamic (DelegateOf.actionPointCondition a))
        let r := env.ActionPointQuery a w.ext
        (d3.UpdateBBKey env BBKey.CanRunActionPoint (BBValue.bool r.1), r.2)
      else (d2.UpdateBBKey env BBKey.CanRunActionPoint (BBValue.bool true), w.ext)
    | none => (self, w.ext)
  else
    let d1 := self.UpdateBBKey env BBKey.CanRunActionPoint (BBValue.bool false)
    (d1.UpdateBBKey env BBKey.IsActionPointTaken (BBValue.bool false), w.ext)

/-- Method `UDASComponent::SetActionPoint`. -/
def UDASComponent.SetActionPoint {σ : Type} (env : DASEnv σ) (w : DASWorld σ)
    (NewActionPoint : Option Nat) : DASWorld σ :=
  if w.comp.ActiveActionPoint ≠ NewActionPoint then
    let previousActionPoint := w.comp.ActiveActionPoint
    let c1 : UDASComponent := { w.comp with ActiveActionPoint := NewActionPoint }
    let c2 := c1.UpdateBBKey env BBKey.ActionPoint (BBValue.object c1.ActiveActionPoint)
    let c3 := c2.disconnectActionPoint env previousActionPoint
    let r := c3.connectActionPoint env w NewActionPoint
    let c5 := r.1.raise (CompEvent.ActionPointChanged previousActionPoint NewActionPoint)
    { w with comp := c5, ext := r.2 }
  else w

/-- Method `UDASComponent::ReleasePathPointSpot`. -/
def UDASComponent.ReleasePathPointSpot {σ : Type} (env : DASEnv σ) (w : DASWorld σ) :
    DASWorld σ :=
  match w.comp.ActivePathPoint with
  | some p =>
    if env.IsValidPathPoint p = true then
      let Spots1 := ADASPathPoint.ReleaseSpot (w.pathPoints p).Spots w.comp.Owner
      let point1 : ADASPathPoint := { w.pathPoints p with Spots := Spots1 }
      { w with pathPoints := Function.update w.pathPoints p point1 }
    else w
  | none => w

/-- The part of `SetPathPoint` under the comment "clear connections to previous point". -/
def UDASComponent.disconnectPathPoint {σ : Type} (env : DASEnv σ) (w : DASWorld σ)
    (self : UDASComponent) (previousPathPoint : Option Nat) : UDASComponent :=
  match previousPathPoint with
  | some prev =>
    if env.IsValidPathPoint prev = true ∧ (w.pathPoints prev).ConditionQueryIsValid = true then
      -- stop observing condition of previous point
      self.raise (CompEvent.RemoveDynamic (DelegateOf.pathPointCondition prev))
    else self
  | none => self

/-- The part of `SetPathPoint` under the comment "make connections to new point if its
valid", with its `else` branch: returns the component and the state after the call of
`IsConditionFulfilled()` on the new point's query. -/
def UDASComponent.connectPathPoint {σ : Type} (env : DASEnv σ) (w : DASWorld σ)
    (self : UDASComponent) (NewPathPoint : Option Nat) : UDASComponent × σ :=
  if env.IsValidPath NewPathPoint = true then
    match NewPathPoint with
    | some p =>
      -- start observing condition of new point
      if (w.pathPoints p).ConditionQueryIsValid = true then
        let d1 := self.raise (CompEvent.AddUniqueDynamic (DelegateOf.pathPointCondition p))
        let r := env.PathPointQuery p w.ext
        (d1.UpdateBBKey env BBKey.CanRunPathPoint (BBValue.bool r.1), r.2)
      -- if new point doesn't have any condition then set can run bb key to true
      else (self.UpdateBBKey env BBKey.CanRunPathPoint (BBValue.bool true), w.ext)
    | none => (self, w.ext)
  else
    -- reset bb key of can run point, because its not valid
    (self.UpdateBBKey env BBKey.CanRunPathPoint (BBValue.bool false), w.ext)

/-- Method `UDASComponent::SetPathPoint`. -/
def UDASComponent.SetPathPoint {σ : Type} (env : DASEnv σ) (w : DASWorld σ)
    (NewPathPoint : Option Nat) : DASWorld σ :=
  if NewPathPoint ≠ w.comp.ActivePathPoint then
    -- release path point spot for previous path point before we update it
    let w1 := UDASComponent.ReleasePathPointSpot env w
    -- cache previous path point and set new one
    let previousPathPoint := w1.comp.ActivePathPoint
    let w2 : DASWorld σ := { w1 with comp := { w1.comp with ActivePathPoint := NewPathPoint } }
    -- reset action points on starting new path point
    let w3 : DASWorld σ :=
      if w2.comp.RunMode = EDASRunMode.ExecutePathPoints then
        UDASComponent.SetActionPoint env
          { w2 with comp := w2.comp.ClearActionPointsQueue } none
      else w2
    let c4 := (w3.comp.SetIsReturningToPathPoint false).SetHasNewPathPoint true
    let c5 := c4.UpdateBBKey env BBKey.PathPoint (BBValue.object c4.ActivePathPoint)
    let c6 := c5.disconnectPathPoint env w3 previousPathPoint
    let r := c6.connectPathPoint env w3 NewPathPoint
    let c8 := r.1.raise (CompEvent.PathPointChanged previousPathPoint NewPathPoint)
    { w3 with comp := c8, ext := r.2 }
  else w

/-- Method `UDASComponent::SetRunMode`. -/
def UDASComponent.SetRunMode {σ : Type} (env : DASEnv σ) (w : DASWorld σ)
    (NewRunMode : EDASRunMode) : DASWorld σ :=
  if w.comp.RunMode ≠ NewRunMode then
    let previousMode := w.comp.RunMode
    let w1 : DASWorld σ := { w with comp := { w.comp with RunMode := NewRunMode } }
    -- reset action points
    let w2 : DASWorld σ :=
      if previousMode = EDASRunMode.ExecuteActionsFromSelector ∨
          previousMode = EDASRunMode.ExecutePathPoints then
        UDASComponent.SetActionPoint env
          { w1 with comp := w1.comp.ClearActionPointsQueue } none
      else w1
    let c3 := w2.comp.UpdateBBKey env BBKey.RunMode (BBValue.runMode w2.comp.RunMode)
    let c4 := c3.raise (CompEvent.RunModeChanged previousMode c3.RunMode)
    { w2 with comp := c4 }
  else w

/-- Method `UDASComponent::SetActionSelector`. -/
def UDASComponent.SetActionSelector {σ : Type} (env : DASEnv σ) (w : DASWorld σ)
    (NewActionSelector : Option Nat) : DASWorld σ :=
  if w.comp.ActionSelector ≠ NewActionSelector then
    let w1 : DASWorld σ :=
      { w with comp := { w.comp with ActionSelector := NewActionSelector } }
    let w2 : DASWorld σ :=
      if w1.comp.RunMode = EDASRunMode.ExecuteActionsFromSelector then
        UDASComponent.SetActionPoint env
          { w1 with comp := w1.comp.ClearActionPointsQueue } none
      else w1
    let c3 := w2.comp.UpdateBBKey env BBKey.ActionSelector
      (BBValue.object w2.comp.ActionSelector)
    let c4 := c3.raise (CompEvent.ActionSelectorChanged c3.ActionSelector)
    { w2 with comp := c4 }
  else w

/-- Method `UDASComponent::UpdatePathPoint`. -/
def UDASComponent.UpdatePathPoint {σ : Type} (env : DASEnv σ) (w : DASWorld σ) :
    Bool × DASWorld σ :=
  match w.comp.ActivePathPoint with
  | some active =>
    if env.IsValidPathPoint active = true then
      -- get next path point for current moving direction
      let r1 :=
        if w.comp.bIsMovingForwardAlongPath = true then
          (w.pathPoints active).GetNextPathPoint env (some w.comp.Id) w.ext
        else (w.pathPoints active).GetPreviousPathPoint env (some w.comp.Id) w.ext
      let w1 : DASWorld σ := { w with ext := r1.2 }
      match r1.1 with
      | some newPathPoint => (true, UDASComponent.SetPathPoint env w1 (some newPathPoint))
      | none =>
        -- otherwise get next path point for reversed direction
        let r2 :=
          if (!w1.comp.bIsMovingForwardAlongPath) = true then
            (w1.pathPoints active).GetNextPathPoint env (some w1.comp.Id) w1.ext
          else (w1.pathPoints active).GetPreviousPathPoint env (some w1.comp.Id) w1.ext
        let w2 : DASWorld σ := { w1 with ext := r2.2 }
        match r2.1 with
        | some newPathPoint =>
          let c3 := w2.comp.SetIsMovingForwardAlongPath (!w2.comp.bIsMovingForwardAlongPath)
          (true, UDASComponent.SetPathPoint env { w2 with comp := c3 } (some newPathPoint))
        | none => (false, w2)
    else (false, w)
  | none => (false, w)

/-- The test of `FetchPathActionPoints` on the execution method of the active path point
and the travel direction. -/
def executionMethodAllows (method : EDASPathExecuteMethod) (bIsMovingForwardAlongPath : Bool) :
    Bool :=
  method == EDASPathExecuteMethod.BothWays ||
    (method == EDASPathExecuteMethod.Forward && bIsMovingForwardAlongPath) ||
    (method == EDASPathExecuteMethod.Backward && !bIsMovingForwardAlongPath)

/-- Method `UDASComponent::FetchPathActionPoints`. -/
def UDASComponent.FetchPathActionPoints {σ : Type} (env : DASEnv σ) (w : DASWorld σ) :
    Bool × DASWorld σ :=
  let failed : Bool × DASWorld σ := (false, { w with comp := w.comp.ClearActionPointsQueue })
  match w.comp.ActivePathPoint with
  | some active =>
    if env.IsValidPathPoint active = true then
      match (w.pathPoints active).ActionSelector with
      | some selector =>
        if executionMethodAllows (w.pathPoints active).PathActionExecutionMethod
            w.comp.bIsMovingForwardAlongPath = true then
          let r := env.GetActionPointsToExecute selector (some w.comp.Id) w.ext
          (decide (r.1.length > 0), { w with comp := w.comp.SetActionPointsQueue r.1, ext := r.2 })
        else failed
      | none => failed
    else failed
  | none => failed

/-- The loop `while( selectedActionPoint == nullptr && ActionPointsQueue.Num() > 0 )` of
`SetFirstActionPointFromQueue`: returns `selectedActionPoint`, the queue left, and the
state after the calls of `CanRun()`. -/
def SetFirstActionPointFromQueue_loop {σ : Type} (env : DASEnv σ)
    (actionPoints : Nat → ADASActionPoint) :
    List (Option Nat) → σ → Option Nat × List (Option Nat) × σ
  | [], s => (none, [], s)
  | none :: rest, s => SetFirstActionPointFromQueue_loop env actionPoints rest s
  | some checkedActionPoint :: rest, s =>
    let r := env.CanRunActionPoint checkedActionPoint s
    if r.1 = true ∧ (actionPoints checkedActionPoint).IsTaken = false then
      (some checkedActionPoint, some checkedActionPoint :: rest, r.2)
    else SetFirstActionPointFromQueue_loop env actionPoints rest r.2

/-- Method `UDASComponent::SetFirstActionPointFromQueue`. -/
def UDASComponent.SetFirstActionPointFromQueue {σ : Type} (env : DASEnv σ)
    (w : DASWorld σ) : Option Nat × DASWorld σ :=
  let r := SetFirstActionPointFromQueue_loop env w.actionPoints w.comp.ActionPointsQueue w.ext
  let w1 : DASWorld σ := { w with comp := { w.comp with ActionPointsQueue := r.2.1 }, ext := r.2.2 }
  (r.1, UDASComponent.SetActionPoint env w1 r.1)

/-- The loop of `GetSnapshot` over `ActionPointsQueue`: the identifiers of the non-null
entries, in order. -/
def snapshotQueueIds (PointId : Nat → FGuid) : List (Option Nat) → List FGuid
  | [] => []
  | none :: rest => snapshotQueueIds PointId rest
  | some actionPoint :: rest => PointId actionPoint :: snapshotQueueIds PointId rest

/-- Method `UDASComponent::GetSnapshot`; the owner is dereferenced without a test. -/
def UDASComponent.GetSnapshot {σ : Type} (env : DASEnv σ) (w : DASWorld σ) :
    Except Fault FDASComponentSnapshot :=
  match w.comp.Owner with
  | none => Except.error Fault.nullDereference
  | some owner =>
    Except.ok
      { bWasMovingForward := w.comp.bIsMovingForwardAlongPath
        bHasNewPathPoint := w.comp.bHasNewPathPoint
        bWasReturningToPathPoint := w.comp.bIsReturningToPathPoint
        RunMode := w.comp.RunMode
        OwnerLocation := env.GetActorLocation owner w.ext
        OwnerRotation := env.GetActorRotation owner w.ext
        ActionPointsIdQueue := snapshotQueueIds env.ActionPointId w.comp.ActionPointsQueue
        ActivePathPointId :=
          match w.comp.ActivePathPoint with
          | some p => (w.pathPoints p).PointId
          | none => 0
        ActionSelectorClass := w.comp.ActionSelector.map env.SelectorClass
        ActionSelectorData :=
          match w.comp.ActionSelector with
          | some selector => env.SerializeSelector selector w.ext
          | none => [] }

/-- Method `UDASWorldSubsystem::FindPathPointById`. -/
def UDASWorldSubsystem.FindPathPointById (self : UDASWorldSubsystem)
    (pathPoints : Nat → ADASPathPoint) (Id : FGuid) : Option Nat :=
  FindPointById (fun p => (pathPoints p).PointId) self.PathPoints Id

/-- Method `UDASWorldSubsystem::FindActionPointById`. -/
def UDASWorldSubsystem.FindActionPointById {σ : Type} (self : UDASWorldSubsystem)
    (env : DASEnv σ) (Id : FGuid) : Option Nat :=
  FindPointById env.ActionPointId self.ActionPoints Id

/-- Method `UDASComponent::GetOwnerAIController`, which caches the controller it finds. -/
def UDASComponent.GetOwnerAIController {σ : Type} (env : DASEnv σ) (self : UDASComponent) :
    Option Nat × UDASComponent :=
  match self.OwnerAIController with
  | some controller =>
    if env.IsValidController controller = true then (some controller, self)
    else (env.GetAIController self.Owner,
      { self with OwnerAIController := env.GetAIController self.Owner })
  | none => (env.GetAIController self.Owner,
      { self with OwnerAIController := env.GetAIController self.Owner })

/-- Method `UDASComponent::LoadFromSnapshot`; nothing is done when the world or its
`UDASWorldSubsystem` is missing. -/
def UDASComponent.LoadFromSnapshot {σ : Type} (env : DASEnv σ) (w : DASWorld σ)
    (Snapshot : FDASComponentSnapshot) (bLoadOwnerTransform : Bool) : DASWorld σ :=
  match w.DASSubsystem with
  | none => w
  | some DASSubsystem =>
    -- Load mode
    let w1 := UDASComponent.SetRunMode env w Snapshot.RunMode
    -- Recreate action selector
    let made : Option Nat × σ :=
      match Snapshot.ActionSelectorClass with
      | some cls =>
        let r := env.NewSelector cls Snapshot.ActionSelectorData w1.ext
        (some r.1, r.2)
      | none => (none, w1.ext)
    let w2 := UDASComponent.SetActionSelector env { w1 with ext := made.2 } made.1
    -- Load active path point
    let activePathPoint :=
      DASSubsystem.FindPathPointById w2.pathPoints Snapshot.ActivePathPointId
    let w3 := UDASComponent.SetPathPoint env w2 activePathPoint
    -- Reset action point, it will be taken from ActionPointsQueue
    let w4 := UDASComponent.SetActionPoint env w3 none
    let c5 : UDASComponent := { w4.comp with InitialPathPoint := none }
    -- Load actions queue
    let loadedQueue :=
      Snapshot.ActionPointsIdQueue.map (fun Id => DASSubsystem.FindActionPointById env Id)
    let c6 := c5.SetActionPointsQueue loadedQueue
    let c7 := c6.SetIsMovingForwardAlongPath Snapshot.bWasMovingForward
    let c8 := c7.SetIsReturningToPathPoint Snapshot.bWasReturningToPathPoint
    let c9 := c8.SetHasNewPathPoint Snapshot.bHasNewPathPoint
    -- load transform
    let c10 :=
      if bLoadOwnerTransform = true ∧ c9.Owner.isSome = true then
        c9.raise (CompEvent.SetActorLocationAndRotation Snapshot.OwnerLocation
          Snapshot.OwnerRotation)
      else c9
    -- restart logic if is already running ( behavior tree )
    let got := c10.GetOwnerAIController env
    let c11 :=
      match got.1 with
      | some controller =>
        if env.HasBrainComponent controller = true then got.2.raise CompEvent.RestartLogic
        else got.2
      | none => got.2
    { w4 with comp := c11 }

/-- The identifier of the active path point of a state: its `PointId`, or the default
`FGuid` when there is no active path point. -/
def DASWorld.activePathPointId {σ : Type} (w : DASWorld σ) : FGuid :=
  match w.comp.ActivePathPoint with
  | some p => (w.pathPoints p).PointId
  | none => 0

/-- An entry of the action-point queue passes the test of `SetFirstActionPointFromQueue`
when it is not null, `canRun` holds of it and it is not taken. -/
def queueEntryPasses (canRun : Nat → Bool) (actionPoints : Nat → ADASActionPoint) :
    Option Nat → Bool
  | some a => canRun a && !(actionPoints a).IsTaken
  | none => false

/-- What the travel direction of the coordinator yields at the active path point
`active`: the call of `GetNextPathPoint` or `GetPreviousPathPoint` that `UpdatePathPoint`
makes first. -/
def UDASComponent.firstYield {σ : Type} (env : DASEnv σ) (w : DASWorld σ) (active : Nat) :
    Option Nat × σ :=
  (w.pathPoints active).GetNextOrPrevious env w.comp.bIsMovingForwardAlongPath
    (some w.comp.Id) w.ext

/-- What the opposite direction yields, in the state the first call left: the call that
`UpdatePathPoint` makes second. -/
def UDASComponent.secondYield {σ : Type} (env : DASEnv σ) (w : DASWorld σ) (active : Nat) :
    Option Nat × σ :=
  (w.pathPoints active).GetNextOrPrevious env (!w.comp.bIsMovingForwardAlongPath)
    (some w.comp.Id) (UDASComponent.firstYield env w active).2

/-! ## Components/DASComponent.cpp : initialisation and reset -/

/-- What `Init` and `Reset` read from the engine about the owner of the component:
`HasAuthority()`, whether the owner is a pawn (`Cast<APawn>`), whether its class
implements `UDASInterface`, the result of `RunBehaviorTree` on a controller, and the
component `UDASBPLibrary::FindDefaultComponentByClass` finds for the class of the owner
(the class-default component), if any. -/
structure OwnerEnv (σ : Type) where
  HasAuthority : Nat → Bool
  IsPawn : Nat → Bool
  ImplementsDASInterface : Nat → Bool
  RunBehaviorTree : Nat → Nat → σ → Bool × σ
  FindDefaultComponentByClass : Nat → Option UDASComponent

/-- Method `UDASComponent::OnRep_IsInitialized` (the cached casts of the owner are not
modelled). -/
def UDASComponent.OnRep_IsInitialized (self : UDASComponent) : UDASComponent :=
  self.raise CompEvent.ReceiveInit

/-- Method `UDASComponent::SetIsInitialized`. -/
def UDASComponent.SetIsInitialized (self : UDASComponent) (bNewInitialized : Bool) :
    UDASComponent :=
  if self.bIsInitialized ≠ bNewInitialized then
    ({ self with bIsInitialized := bNewInitialized } : UDASComponent).OnRep_IsInitialized
  else self

/-- Method `UDASComponent::SetPathBehavior`. -/
def UDASComponent.SetPathBehavior (self : UDASComponent) (NewPathBehavior : EDASPathBehavior) :
    UDASComponent :=
  if self.PathBehavior ≠ NewPathBehavior then
    ({ self with PathBehavior := NewPathBehavior } : UDASComponent).raise
      (CompEvent.PathBehaviorChanged self.PathBehavior NewPathBehavior)
  else self

/-- Method `UDASComponent::RefreshBlackboardKeys`. -/
def UDASComponent.RefreshBlackboardKeys {σ : Type} (env : DASEnv σ) (w : DASWorld σ) :
    DASWorld σ :=
  let c1 := w.comp.UpdateBBKey env BBKey.RunMode (BBValue.runMode w.comp.RunMode)
  let c2 := c1.UpdateBBKey env BBKey.ActionSelector (BBValue.object c1.ActionSelector)
  let c3 := c2.UpdateBBKey env BBKey.PathPoint (BBValue.object c2.ActivePathPoint)
  let c4 := c3.UpdateBBKey env BBKey.ActionPoint (BBValue.object c3.ActiveActionPoint)
  let r5 : UDASComponent × σ :=
    if env.IsValidAction c4.ActiveActionPoint = true then
      match c4.ActiveActionPoint with
      | some a =>
        -- if action point is valid, get its data and pass to blackboard
        let r := env.CanRunActionPoint a w.ext
        let d1 := c4.UpdateBBKey env BBKey.CanRunActionPoint (BBValue.bool r.1)
        (d1.UpdateBBKey env BBKey.IsActionPointTaken (BBValue.bool (w.actionPoints a).IsTaken),
          r.2)
      | none => (c4, w.ext)
    else
      let d1 := c4.UpdateBBKey env BBKey.CanRunActionPoint (BBValue.bool false)
      (d1.UpdateBBKey env BBKey.IsActionPointTaken (BBValue.bool false), w.ext)
  let r6 : UDASComponent × σ :=
    if env.IsValidPath r5.1.ActivePathPoint = true then
      match r5.1.ActivePathPoint with
      | some p =>
        let r := env.CanRunPathPoint p r5.2
        (r5.1.UpdateBBKey env BBKey.CanRunPathPoint (BBValue.bool r.1), r.2)
      | none => r5
    else (r5.1.UpdateBBKey env BBKey.CanRunPathPoint (BBValue.bool false), r5.2)
  { w with comp := r6.1, ext := r6.2 }

/-- Method `UDASComponent::Init`; `BehaviorTree` is the asset passed, `none` for a null
pointer. -/
def UDASComponent.Init {σ : Type} (env : DASEnv σ) (oenv : OwnerEnv σ) (w : DASWorld σ)
    (BehaviorTree : Option Nat) : Bool × DASWorld σ :=
  -- check if wasn't already initialized before
  if w.comp.bIsInitialized = true then (false, w)
  else
    match w.comp.Owner with
    -- owner of component must be valid
    | none => (false, w)
    | some owner =>
      -- allow to init only on server
      if oenv.HasAuthority owner = false then (false, w)
      -- allow to init only for Pawn or Character
      else if oenv.IsPawn owner = false then (false, w)
      -- check if owner implements DAS interface
      else if oenv.ImplementsDASInterface owner = false then (false, w)
      else
        match BehaviorTree with
        -- behavior tree asset must be valid
        | none => (false, w)
        | some tree =>
          -- cache owner AIController
          let c1 : UDASComponent :=
            { w.comp with OwnerAIController := env.GetAIController w.comp.Owner }
          match c1.OwnerAIController with
          -- make sure AIController is valid
          | none => (false, { w with comp := c1 })
          | some controller =>
            -- run behavior tree
            let r := oenv.RunBehaviorTree controller tree w.ext
            if r.1 = true then
              let w2 := UDASComponent.RefreshBlackboardKeys env { w with comp := c1, ext := r.2 }
              -- pass value of initial path point to active one
              let w3 :=
                if env.IsValidPath w2.comp.InitialPathPoint = true then
                  UDASComponent.SetPathPoint env w2 w2.comp.InitialPathPoint
                else w2
              (true, { w3 with comp := w3.comp.SetIsInitialized true })
            else (false, { w with comp := c1, ext := r.2 })

/-- Method `UDASComponent::Reset`; the owner is dereferenced without a test, and nothing
is done when no class-default component is found. -/
def UDASComponent.Reset {σ : Type} (env : DASEnv σ) (oenv : OwnerEnv σ) (w : DASWorld σ) :
    Except Fault (DASWorld σ) :=
  match w.comp.Owner with
  | none => Except.error Fault.nullDereference
  | some owner =>
    match oenv.FindDefaultComponentByClass owner with
    | some ComponentCDO =>
      -- reset data
      let c1 := w.comp.SetIsInitialized false
      let c2 := c1.ClearActionPointsQueue
      let w3 := UDASComponent.SetActionPoint env { w with comp := c2 } none
      let w4 := UDASComponent.SetPathPoint env w3 none
      let w5 := UDASComponent.SetRunMode env w4 ComponentCDO.RunMode
      let c6 : UDASComponent :=
        { w5.comp with
          CurrentGoalLocation := ⟨0, 0, 0⟩
          CurrentGoalRotation := ⟨0, 0, 0⟩ }
      let c7 := c6.SetIsReturningToPathPoint false
      let c8 := c7.SetHasNewPathPoint false
      let c9 := c8.SetIsMovingForwardAlongPath ComponentCDO.bIsMovingForwardAlongPath
      let c10 := c9.SetPathBehavior EDASPathBehavior.Undefined
      let c11 : UDASComponent :=
        { c10 with
          ActionSelector := none
          InitialPathPoint := none
          OwnerAIController := none }
      -- unbind all events
      Except.ok { w5 with comp := c11.raise CompEvent.ClearDelegates }
    | none => Except.ok w

/-! ## Utils/DASWorldSubsystem.cpp : the closest registered point -/

/-- What `FindClosestPathPoint` and `FindClosestActionPoint` read from the engine and from
the points: which point objects are valid (`IsValid`), the tag of a point, whether a tag
is valid (`FGameplayTag::IsValid`), whether a tag matches another (`MatchesTag`), where a
point is, and the value `FVector::Distance` returns. Tags are identified by numbers. -/
structure RegistryEnv where
  IsValid : Nat → Bool
  PointTag : Nat → Nat
  TagIsValid : Nat → Bool
  MatchesTag : Nat → Nat → Bool
  GetActorLocation : Nat → FVector
  Distance : FVector → FVector → ℚ

/-- The loop of `FindClosestPathPoint` and of `FindClosestActionPoint` over the
registered points, with the locals `retPoint` and `closestDistance`. -/
def FindClosestPoint_loop (env : RegistryEnv) (SourceLocation : FVector) (PointTag : Nat) :
    List (Option Nat) → Option Nat → ℚ → Option Nat
  | [], retPoint, _ => retPoint
  | none :: rest, retPoint, closestDistance =>
    FindClosestPoint_loop env SourceLocation PointTag rest retPoint closestDistance
  | some point :: rest, retPoint, closestDistance =>
    if env.IsValid point = true then
      -- skip checking this point if its tag doesn't match
      if env.TagIsValid PointTag = false ∨
          env.MatchesTag (env.PointTag point) PointTag = false then
        FindClosestPoint_loop env SourceLocation PointTag rest retPoint closestDistance
      else
        let distanceToPoint :=
          roundToFloat (env.Distance SourceLocation (env.GetActorLocation point))
        if distanceToPoint < closestDistance then
          FindClosestPoint_loop env SourceLocation PointTag rest (some point) distanceToPoint
        else FindClosestPoint_loop env SourceLocation PointTag rest retPoint closestDistance
    else FindClosestPoint_loop env SourceLocation PointTag rest retPoint closestDistance

/-- Method `UDASWorldSubsystem::FindClosestPathPoint`. -/
def UDASWorldSubsystem.FindClosestPathPoint (self : UDASWorldSubsystem) (env : RegistryEnv)
    (SourceLocation : FVector) (PointTag : Nat) : Option Nat :=
  FindClosestPoint_loop env SourceLocation PointTag self.PathPoints none FLT_MAX

/-- Method `UDASWorldSubsystem::FindClosestActionPoint`. -/
def UDASWorldSubsystem.FindClosestActionPoint (self : UDASWorldSubsystem) (env : RegistryEnv)
    (SourceLocation : FVector) (PointTag : Nat) : Option Nat :=
  FindClosestPoint_loop env SourceLocation PointTag self.ActionPoints none FLT_MAX

/-! ## Utils/DASBPLibrary.cpp -/

/-- Function `UDASBPLibrary::FilterOutTakenActionPoints`: the first list is the content
of the output array `FilteredActionPoints` when the function is entered, the second is
the input array `ActionPoints`; the result is the output array when it returns. -/
def UDASBPLibrary.FilterOutTakenActionPoints (actionPoints : Nat → ADASActionPoint)
    (FilteredActionPoints : List (Option Nat)) : List (Option Nat) → List (Option Nat)
  | [] => FilteredActionPoints
  | none :: rest =>
    UDASBPLibrary.FilterOutTakenActionPoints actionPoints FilteredActionPoints rest
  | some actionPoint :: rest =>
    if (actionPoints actionPoint).IsTaken = false then
      UDASBPLibrary.FilterOutTakenActionPoints actionPoints
        (FilteredActionPoints ++ [some actionPoint]) rest
    else UDASBPLibrary.FilterOutTakenActionPoints actionPoints FilteredActionPoints rest

/-! ## Points/DASBasePoint.cpp, Points/DASActionPoint.cpp : instanced objects -/

/-- The instanced objects of an action point: the instance of its `ConditionQuery` and
its `Actions`, as object identifiers. -/
structure InstancedObjects where
  ConditionQueryInstance : Option Nat
  Actions : List (Option Nat)
deriving DecidableEq, Repr

/-- Method `ADASBasePoint::RefreshInstancedObjects`; `DuplicateObject o` is the object
`DuplicateObject( o, this )` creates. -/
def ADASBasePoint.RefreshInstancedObjects (DuplicateObject : Nat → Nat)
    (self : InstancedObjects) : InstancedObjects :=
  match self.ConditionQueryInstance with
  | some query => { self with ConditionQueryInstance := some (DuplicateObject query) }
  | none => self

/-- The loop `for( int32 i = 0; i < Actions.Num() - 1; i++ )` of
`ADASActionPoint::RefreshInstancedObjects`: the first argument is the number of
iterations left, the second the index `i`. -/
def ADASActionPoint.RefreshInstancedObjects_loop (DuplicateObject : Nat → Nat) :
    Nat → Nat → List (Option Nat) → List (Option Nat)
  | 0, _, Actions => Actions
  | n + 1, i, Actions =>
    match Actions[i]? with
    | some (some action) =>
      ADASActionPoint.RefreshInstancedObjects_loop DuplicateObject n (i + 1)
        (Actions.set i (some (DuplicateObject action)))
    | _ => ADASActionPoint.RefreshInstancedObjects_loop DuplicateObject n (i + 1) Actions

/-- Method `ADASActionPoint::RefreshInstancedObjects`. The bound `Actions.Num() - 1` is
an `int32`, so the loop makes `Actions.Num() - 1` iterations, and none on an empty
array. -/
def ADASActionPoint.RefreshInstancedObjects (DuplicateObject : Nat → Nat)
    (self : InstancedObjects) : InstancedObjects :=
  let p1 := ADASBasePoint.RefreshInstancedObjects DuplicateObject self
  { p1 with
    Actions := ADASActionPoint.RefreshInstancedObjects_loop DuplicateObject
      (((p1.Actions.length : Int) - 1).toNat) 0 p1.Actions }

/-! ## Reading aids for the theorems on queries and action points -/

/-- One step of the left-associative evaluation: the running value joined with the value
of the next condition by its operator. -/
def applyOperator (op : EDASOperator) (result value : Bool) : Bool :=
  match op with
  | EDASOperator.AND => result && value
  | EDASOperator.OR => result || value

/-- The left-associative evaluation `((c1 op2 c2) op3 c3) ...` on the entries after the
first, from the running value `result`. -/
def leftAssociativeLater (value : Nat → Bool) : List (Nat × EDASOperator) → Bool → Bool
  | [], result => result
  | (c, op) :: rest, result =>
    leftAssociativeLater value rest (applyOperator op result (value c))

/-- The left-associative evaluation `((c1 op2 c2) op3 c3) ...` of a chain; the operator
of the first entry joins nothing. -/
def leftAssociative (value : Nat → Bool) : List (Nat × EDASOperator) → Bool
  | [] => true
  | (c, _) :: rest => leftAssociativeLater value rest (value c)

/-- The results a completion delegate received, in order, in the log of an action
point. -/
def delegateRuns (Delegate : Nat) : List APEvent → List EDASExecutionResult
  | [] => []
  | APEvent.FinishExecutionDelegate d result :: rest =>
    if d = Delegate then result :: delegateRuns Delegate rest
    else delegateRuns Delegate rest
  | _ :: rest => delegateRuns Delegate rest

/-- The entries of a chain whose instance is not null, in order, each as its condition
object and its operator. -/
def nonNullEntries : List FDASConditionWrapper → List (Nat × EDASOperator)
  | [] => []
  | condWrapper :: rest =>
    match condWrapper.Instance with
    | some c => (c, condWrapper.Operator) :: nonNullEntries rest
    | none => nonNullEntries rest

/-! ## Concrete objects used to instantiate the theorems -/

/-- An authoritative action point with `Cooldown = 5` that is being executed. -/
def executingPoint : ADASActionPoint :=
  { ADASActionPoint.construct true 5 with bIsExecuting := true, bIsTaken := true }

/-- An authoritative action point with `Cooldown = 1` that is being executed. -/
def shortCooldownPoint : ADASActionPoint :=
  { ADASActionPoint.construct true 1 with bIsExecuting := true, bIsTaken := true }

/-- An engine state in which every actor is valid and stands at the origin, for a point
at the origin with the identity transform; the engine computes the squared distance
without rounding. -/
def originEnv : SpotEnv :=
  { IsValid := fun _ => true
    GetActorLocation := fun _ => ⟨0, 0, 0⟩
    PointLocation := ⟨0, 0, 0⟩
    TransformPosition := fun v => v
    Vector_DistanceSquared := fun a b =>
      (a.X - b.X) * (a.X - b.X) + (a.Y - b.Y) * (a.Y - b.Y) + (a.Z - b.Z) * (a.Z - b.Z) }

/-- Three spots on the X axis: a free one at 3, one owned by actor 1 at 1, one owned by
actor 5 at 2. -/
def threeSpots : List FDASSpot :=
  [⟨⟨⟨3, 0, 0⟩⟩, none⟩, ⟨⟨⟨1, 0, 0⟩⟩, some 1⟩, ⟨⟨⟨2, 0, 0⟩⟩, some 5⟩]

/-- A free spot at `2 ^ 64` on the X axis. -/
def farSpot : FDASSpot := ⟨⟨⟨18446744073709551616, 0, 0⟩⟩, none⟩

/-- Two free spots, at `(1, 0, 0)` and at `(3, 0, 0)`. -/
def twoSpots : List FDASSpot := [⟨⟨⟨1, 0, 0⟩⟩, none⟩, ⟨⟨⟨3, 0, 0⟩⟩, none⟩]

/-- The engine state `originEnv` with actor 1 standing at `2 ^ 64` on the X axis, where
`farSpot` is. -/
def remoteEnv : SpotEnv :=
  { originEnv with
    GetActorLocation := fun a => if a = 1 then ⟨18446744073709551616, 0, 0⟩ else ⟨0, 0, 0⟩ }

/-- Two spots, at `(1, 0, 0)` owned by actor 1 and at `(3, 0, 0)` owned by actor 5. -/
def takenSpots : List FDASSpot := [⟨⟨⟨1, 0, 0⟩⟩, some 1⟩, ⟨⟨⟨3, 0, 0⟩⟩, some 5⟩]

/-- The engine state `originEnv` with actor 5 standing at `(3, 0, 0)`. -/
def apartEnv : SpotEnv :=
  { originEnv with
    GetActorLocation := fun a => if a = 5 then ⟨3, 0, 0⟩ else ⟨0, 0, 0⟩ }

/-- An engine in which every object is valid, `CanRun()` is true of every path point but
point 2 and of every action point but point 10, the random draw returns the lower bound
of its range, every action selector returns the same three entries, and the identifier
of action point `a` is `a + 100`. -/
def lineEnv : DASEnv Unit :=
  { IsValidPathPoint := fun _ => true
    IsValidActionPoint := fun _ => true
    IsValidController := fun _ => true
    GetAIController := fun _ => none
    HasBlackboard := fun _ => false
    HasBrainComponent := fun _ => false
    CanRunPathPoint := fun p s => (p != 2, s)
    CanRunActionPoint := fun a s => (a != 10, s)
    SelectPathPoint := fun _ _ _ s => (none, s)
    RandomIntegerInRange := fun lo _ s => (lo, s)
    GetActionPointsToExecute := fun _ _ s => ([some 10, none, some 11], s)
    PathPointQuery := fun _ s => (true, s)
    ActionPointQuery := fun _ s => (true, s)
    ActionPointQueryIsValid := fun _ => false
    ActionPointId := fun a => a + 100
    GetActorLocation := fun _ _ => ⟨0, 0, 0⟩
    GetActorRotation := fun _ _ => ⟨0, 0, 0⟩
    SelectorClass := fun selector => selector
    SerializeSelector := fun _ _ => []
    NewSelector := fun cls _ s => (cls, s) }

/-- A path point at the end of a line: both directions enabled, no forward link, backward
links to a null entry and to points 2 and 1, no solver, an action selector that is
used when moving backward, and the spots of `threeSpots`. -/
def endPoint : ADASPathPoint :=
  { PointId := 3
    bCanMoveForward := true
    NextPathPoints := []
    NextPathPointSolver := none
    bCanMoveBackward := true
    PreviousPathPoints := [none, some 2, some 1]
    PreviousPathPointSolver := none
    PathActionExecutionMethod := EDASPathExecuteMethod.Backward
    ActionSelector := some 7
    ConditionQueryIsValid := false
    Spots := threeSpots }

/-- A point registry with three path points and four action points. -/
def lineRegistry : UDASWorldSubsystem :=
  { PathPoints := [none, some 1, some 2, some 3]
    ActionPoints := [some 10, some 11, some 12, some 13] }

/-- A coordinator owned by actor 1, in run mode `ExecutePathPoints`, at path point 3 and
moving forward, with a queue of five entries; path point `p` is `endPoint` with
identifier `p`, and action point 12 is the only one taken. -/
def lineWorld : DASWorld Unit :=
  { comp :=
      { Id := 50
        Owner := some 1
        OwnerAIController := none
        bIsInitialized := true
        RunMode := EDASRunMode.ExecutePathPoints
        InitialPathPoint := none
        ActionSelector := none
        PathBehavior := EDASPathBehavior.Undefined
        CurrentGoalLocation := ⟨0, 0, 0⟩
        CurrentGoalRotation := ⟨0, 0, 0⟩
        ActivePathPoint := some 3
        bIsMovingForwardAlongPath := true
        bIsReturningToPathPoint := true
        bHasNewPathPoint := false
        ActiveActionPoint := some 13
        ActionPointsQueue := [none, some 10, some 12, some 11, some 13]
        events := [] }
    pathPoints := fun p => { endPoint with PointId := p }
    actionPoints := fun a => { ADASActionPoint.construct true 0 with bIsTaken := a == 12 }
    DASSubsystem := some lineRegistry
    ext := () }

/-- The coordinator of `lineWorld` moving backward. -/
def backWorld : DASWorld Unit :=
  { lineWorld with comp := { lineWorld.comp with bIsMovingForwardAlongPath := false } }

/-- The coordinator of `lineWorld` after its state was changed: another run mode, another
active path point, another queue, and the three flags negated. -/
def movedWorld : DASWorld Unit :=
  { lineWorld with
    comp :=
      { lineWorld.comp with
        RunMode := EDASRunMode.ExecuteActionsFromSelector
        ActivePathPoint := some 1
        bIsMovingForwardAlongPath := false
        bIsReturningToPathPoint := false
        bHasNewPathPoint := true
        ActiveActionPoint := none
        ActionPointsQueue := [some 13] } }

/-- An engine for the searches of the registry: every point is valid, point `p` stands at
`(p, 0, 0)` and carries tag 1, tag 0 is the unset tag and every other tag is valid, a tag
matches itself only, and the distance of two locations is the distance of their `X`
coordinates. -/
def tagEnv : RegistryEnv :=
  { IsValid := fun _ => true
    PointTag := fun _ => 1
    TagIsValid := fun tag => tag != 0
    MatchesTag := fun a b => a == b
    GetActorLocation := fun p => ⟨p, 0, 0⟩
    Distance := fun a b => |b.X - a.X| }

/-- The engine `lineEnv` with a solver that always selects point 2, which cannot run. -/
def solverEnv : DASEnv Unit :=
  { lineEnv with SelectPathPoint := fun _ _ _ s => (some 2, s) }

/-- The path point `endPoint` with solver 9 assigned for the backward direction. -/
def solverPoint : ADASPathPoint :=
  { endPoint with PreviousPathPointSolver := some 9 }

/-- The class-default component: the state the constructor `UDASComponent::UDASComponent()`
and the member initialisers give, with run mode `ExecutePathPoints` and the
moving-forward flag set. -/
def classDefault : UDASComponent :=
  { Id := 0
    Owner := none
    OwnerAIController := none
    bIsInitialized := false
    RunMode := EDASRunMode.ExecutePathPoints
    InitialPathPoint := none
    ActionSelector := none
    PathBehavior := EDASPathBehavior.Undefined
    CurrentGoalLocation := ⟨0, 0, 0⟩
    CurrentGoalRotation := ⟨0, 0, 0⟩
    ActivePathPoint := none
    bIsMovingForwardAlongPath := true
    bIsReturningToPathPoint := false
    bHasNewPathPoint := false
    ActiveActionPoint := none
    ActionPointsQueue := []
    events := [] }

/-- An owner that has authority, is a pawn and implements the interface, whose behavior
trees start, and for whose class the class-default component is `classDefault`. -/
def lineOwnerEnv : OwnerEnv Unit :=
  { HasAuthority := fun _ => true
    IsPawn := fun _ => true
    ImplementsDASInterface := fun _ => true
    RunBehaviorTree := fun _ _ s => (true, s)
    FindDefaultComponentByClass := fun _ => some classDefault }

/-- The engine `lineEnv` in which every owner has the AI controller 60. -/
def controllerEnv : DASEnv Unit :=
  { lineEnv with GetAIController := fun _ => some 60 }

/-! ## Theorems: conditions and condition queries -/

theorem resultReallyChanged_iff (previousResult : ECachedConditionResult) (bResult : Bool) :
    resultReallyChanged previousResult bResult = true ↔
      (previousResult = ECachedConditionResult.Undefined ∨
        previousResult ≠ ECachedConditionResult.ofBool bResult) := by
  cases previousResult <;> cases bResult <;>
    simp [resultReallyChanged, ECachedConditionResult.ofBool]

/-- The loop of `IsConditionFulfilled_Internal`, past the first entry, is the later part
of the fold of the specification, on the result and on the calls made. -/
theorem loop_traceEval_later (value : Nat → Bool) :
    ∀ (chain : List (Nat × EDASOperator)) (result : Bool) (calls : List Nat),
      IsConditionFulfilled_Internal_loop (traceEval value) (chain.map wrap) result true calls
        = Except.ok ((specFoldLater value chain result).1,
            calls ++ (specFoldLater value chain result).2) := by
  intro chain
  induction chain with
  | nil => intro result calls; simp [IsConditionFulfilled_Internal_loop, specFoldLater]
  | cons e rest ih =>
    intro result calls
    obtain ⟨c, op⟩ := e
    cases result <;> cases op <;>
      simp [IsConditionFulfilled_Internal_loop, specFoldLater, wrap, traceEval, ih]

/-- The loop of `IsConditionFulfilled_Internal` from its start is the fold of the
specification, on the result and on the calls made. -/
theorem Internal_traceEval_eq_specFold (value : Nat → Bool)
    (chain : List (Nat × EDASOperator)) :
    IsConditionFulfilled_Internal (traceEval value) (chain.map wrap) []
      = Except.ok (specFold value chain) := by
  cases chain with
  | nil => simp [IsConditionFulfilled_Internal, IsConditionFulfilled_Internal_loop, specFold]
  | cons e rest =>
    obtain ⟨c, op⟩ := e
    simp [IsConditionFulfilled_Internal, IsConditionFulfilled_Internal_loop, specFold, wrap,
      traceEval, loop_traceEval_later]


/-- C4: `UDASCondition::IsConditionFulfilled` emits its change notification on an
evaluation exactly when the cached result before it was Undefined or differs from the
value just computed, it returns that value and caches it; a freshly constructed
condition evaluated twice with the same predicate value emits on the first evaluation
and not on the second. -/
theorem UDASCondition_notifies_iff_changed (self : UDASCondition) (b : Bool) :
    ((self.IsConditionFulfilled b).2.2 = true ↔
        (self.CachedConditionResult = ECachedConditionResult.Undefined ∨
          self.CachedConditionResult ≠ ECachedConditionResult.ofBool b)) ∧
      (self.IsConditionFulfilled b).1 = b ∧
      (self.IsConditionFulfilled b).2.1.CachedConditionResult
        = ECachedConditionResult.ofBool b ∧
      (∀ bs : List Bool, ∀ cur : UDASCondition,
        UDASCondition.evaluations cur (b :: bs)
          = decide (cur.CachedConditionResult = ECachedConditionResult.Undefined ∨
              cur.CachedConditionResult ≠ ECachedConditionResult.ofBool b)
            :: UDASCondition.evaluations (cur.IsConditionFulfilled b).2.1 bs) ∧
      UDASCondition.evaluations UDASCondition.construct [b, b] = [true, false] := by
  refine ⟨?_, rfl, rfl, ?_, ?_⟩
  · exact resultReallyChanged_iff _ _
  · intro bs cur
    simp only [UDASCondition.evaluations, List.cons.injEq, and_true]
    have h := resultReallyChanged_iff cur.CachedConditionResult b
    simp only [UDASCondition.IsConditionFulfilled]
    by_cases hc : resultReallyChanged cur.CachedConditionResult b = true
    · rw [hc]; exact (decide_eq_true (h.mp hc)).symm
    · have hn : ¬ (cur.CachedConditionResult = ECachedConditionResult.Undefined ∨
          cur.CachedConditionResult ≠ ECachedConditionResult.ofBool b) := fun h2 => hc (h.mpr h2)
      rw [Bool.not_eq_true] at hc
      rw [hc]; exact (decide_eq_false hn).symm
  · cases b <;> rfl

/-- The loop past the first entry, for any evaluator that returns the assigned values:
`R` relates a state to the states reached from it, `P c` holds once `c` was called. -/
theorem loop_later_spec {σ : Type} (ev : Nat → σ → Except Fault (Bool × σ))
    (value : Nat → Bool) (R : σ → σ → Prop) (hrefl : ∀ s, R s s)
    (htrans : ∀ a b c, R a b → R b c → R a c)
    (P : Nat → σ → Prop) (hP : ∀ d s t, P d s → R s t → P d t)
    (s0 : σ) (ids : List Nat)
    (hev : ∀ c, c ∈ ids → ∀ s, R s0 s →
      ∃ t, ev c s = Except.ok (value c, t) ∧ R s t ∧ P c t) :
    ∀ (chain : List (Nat × EDASOperator)), (∀ e ∈ chain, e.1 ∈ ids) →
      ∀ (result : Bool) (s : σ), R s0 s →
      ∃ t, IsConditionFulfilled_Internal_loop ev (chain.map wrap) result true s
            = Except.ok ((specFoldLater value chain result).1, t) ∧ R s t ∧
          ∀ c ∈ (specFoldLater value chain result).2, P c t := by
  intro chain
  induction chain with
  | nil =>
    intro _ result s _
    exact ⟨s, by simp [IsConditionFulfilled_Internal_loop, specFoldLater], hrefl s,
      by simp [specFoldLater]⟩
  | cons e rest ih =>
    intro hids result s hs
    obtain ⟨c, op⟩ := e
    have hc : c ∈ ids := hids (c, op) (List.mem_cons_self _ _)
    have hrest : ∀ e ∈ rest, e.1 ∈ ids := fun e he => hids e (List.mem_cons_of_mem _ he)
    by_cases h1 : result = false ∧ op = EDASOperator.AND
    · exact ⟨s, by simp [IsConditionFulfilled_Internal_loop, specFoldLater, wrap, h1],
        hrefl s, by simp [specFoldLater, h1]⟩
    · by_cases h2 : result = true ∧ op = EDASOperator.OR
      · obtain ⟨t, ht, hR, hPt⟩ := ih hrest result s hs
        refine ⟨t, ?_, hR, ?_⟩
        · simp only [List.map, IsConditionFulfilled_Internal_loop, wrap, specFoldLater]
          simpa [h1, h2] using ht
        · simpa [specFoldLater, h1, h2] using hPt
      · obtain ⟨s1, hs1, hR1, hP1⟩ := hev c hc s hs
        obtain ⟨t, ht, hR, hPt⟩ := ih hrest (value c) s1 (htrans _ _ _ hs hR1)
        refine ⟨t, ?_, htrans _ _ _ hR1 hR, ?_⟩
        · simp only [List.map, IsConditionFulfilled_Internal_loop, wrap, specFoldLater]
          simpa [h1, h2, hs1] using ht
        · intro d hd
          simp only [specFoldLater, h1, h2, if_false, List.mem_cons] at hd
          rcases hd with hd | hd
          · rw [hd]; exact hP c s1 t hP1 hR
          · exact hPt d hd

/-- The whole of `IsConditionFulfilled_Internal`, for any evaluator that returns the
assigned values, computes the fold of the specification. -/
theorem Internal_spec {σ : Type} (ev : Nat → σ → Except Fault (Bool × σ))
    (value : Nat → Bool) (R : σ → σ → Prop) (hrefl : ∀ s, R s s)
    (htrans : ∀ a b c, R a b → R b c → R a c)
    (P : Nat → σ → Prop) (hP : ∀ d s t, P d s → R s t → P d t)
    (s0 : σ) (chain : List (Nat × EDASOperator))
    (hev : ∀ c, c ∈ chain.map Prod.fst → ∀ s, R s0 s →
      ∃ t, ev c s = Except.ok (value c, t) ∧ R s t ∧ P c t) :
    ∃ t, IsConditionFulfilled_Internal ev (chain.map wrap) s0
          = Except.ok ((specFold value chain).1, t) ∧ R s0 t ∧
        ∀ c ∈ (specFold value chain).2, P c t := by
  cases chain with
  | nil =>
    exact ⟨s0, by simp [IsConditionFulfilled_Internal, IsConditionFulfilled_Internal_loop,
      specFold], hrefl s0, by simp [specFold]⟩
  | cons e rest =>
    obtain ⟨c, op⟩ := e
    obtain ⟨s1, hs1, hR1, hP1⟩ := hev c (by simp) s0 (hrefl s0)
    obtain ⟨t, ht, hR, hPt⟩ := loop_later_spec ev value R hrefl htrans P hP s0
      (((c, op) :: rest).map Prod.fst) hev rest
      (fun e he => by
        simp only [List.map, List.mem_cons, List.mem_map]
        exact Or.inr ⟨e, he, rfl⟩)
      (value c) s1 hR1
    refine ⟨t, ?_, htrans _ _ _ hR1 hR, ?_⟩
    · simp only [IsConditionFulfilled_Internal, List.map, IsConditionFulfilled_Internal_loop,
        wrap, specFold]
      simpa [hs1] using ht
    · intro d hd
      simp only [specFold, List.mem_cons] at hd
      rcases hd with hd | hd
      · rw [hd]; exact hP c s1 t hP1 hR
      · exact hPt d hd

theorem predicateCalls_append (l1 l2 : List DASEvent) :
    predicateCalls (l1 ++ l2) = predicateCalls l1 ++ predicateCalls l2 := by
  induction l1 with
  | nil => rfl
  | cons e rest ih => cases e <;> simp [predicateCalls, ih]

theorem queryBroadcasts_append (l1 l2 : List DASEvent) :
    queryBroadcasts (l1 ++ l2) = queryBroadcasts l1 ++ queryBroadcasts l2 := by
  induction l1 with
  | nil => rfl
  | cons e rest ih => cases e <;> simp [queryBroadcasts, ih]

theorem Evolves_refl (value : Nat → Bool) (m : QueryMem) : Evolves value m m :=
  ⟨rfl, fun _ h => h, fun _ h => h⟩

theorem Evolves_trans (value : Nat → Bool) (a b c : QueryMem)
    (h1 : Evolves value a b) (h2 : Evolves value b c) : Evolves value a c :=
  ⟨h2.1.trans h1.1, fun d h => h2.2.1 d (h1.2.1 d h), fun d h => h2.2.2 d (h1.2.2 d h)⟩

theorem matched_afterCall (value : Nat → Bool) (c : Nat) (changed : Bool) (s : QueryMem) :
    matched value (afterCall value c changed s) c := by
  simp [matched, afterCall, UDASCondition.SetCachedConditionResult]

theorem Evolves_afterCall (value : Nat → Bool) (c : Nat) (changed : Bool) (s : QueryMem) :
    Evolves value s (afterCall value c changed s) := by
  refine ⟨rfl, ?_, ?_⟩
  · intro d hd
    by_cases hdc : d = c
    · rw [hdc]; exact matched_afterCall value c changed s
    · simpa [matched, afterCall, Function.update_noteq hdc] using hd
  · intro d hd
    cases changed <;> simp [afterCall, predicateCalls_append, hd]

theorem called_afterCall (value : Nat → Bool) (c : Nat) (changed : Bool) (s : QueryMem) :
    c ∈ predicateCalls (afterCall value c changed s).log := by
  cases changed <;> simp [afterCall, predicateCalls_append, predicateCalls]

/-- One call of a condition from the loop: it returns the value of the predicate, leaves
the condition's cache up to date, and logs the predicate call, provided the call back
into the query, when there is one, returns. -/
theorem conditionCall_spec (value : Nat → Bool)
    (onInner : QueryMem → Except Fault QueryMem) (c : Nat) (s : QueryMem)
    (hInner : resultReallyChanged (s.conds c).CachedConditionResult (value c) = true →
      (s.conds c).queryBound = true →
      ∃ m3, onInner (afterCall value c true s) = Except.ok m3 ∧
        Evolves value (afterCall value c true s) m3) :
    ∃ t, conditionCall value onInner c s = Except.ok (value c, t) ∧ Evolves value s t ∧
      (matched value t c ∧ c ∈ predicateCalls t.log) := by
  by_cases hch : resultReallyChanged (s.conds c).CachedConditionResult (value c) = true
  · by_cases hb : (s.conds c).queryBound = true
    · obtain ⟨m3, hm3, hE⟩ := hInner hch hb
      refine ⟨m3, ?_, Evolves_trans value _ _ _ (Evolves_afterCall value c true s) hE,
        hE.2.1 c (matched_afterCall value c true s),
        hE.2.2 c (called_afterCall value c true s)⟩
      have : onInner
          { query := s.query
            conds := Function.update s.conds c
              ((s.conds c).SetCachedConditionResult (value c))
            log := (s.log ++ [DASEvent.conditionEvaluated c]) ++
              [DASEvent.conditionResultChanged c (value c)] } = Except.ok m3 := hm3
      simp only [conditionCall, UDASCondition.IsConditionFulfilled, hch, hb, if_true, this]
    · refine ⟨afterCall value c true s, ?_, Evolves_afterCall value c true s,
        matched_afterCall value c true s, called_afterCall value c true s⟩
      simp only [conditionCall, UDASCondition.IsConditionFulfilled, hch, hb, if_true, if_false]
      rfl
  · refine ⟨afterCall value c false s, ?_, Evolves_afterCall value c false s,
      matched_afterCall value c false s, called_afterCall value c false s⟩
    simp only [conditionCall, UDASCondition.IsConditionFulfilled, hch, if_false]
    rfl

theorem mismatch_le (value : Nat → Bool) (ids : List Nat) (m t : QueryMem)
    (h : ∀ d, matched value m d → matched value t d) :
    mismatch value ids t ≤ mismatch value ids m := by
  unfold mismatch
  apply List.countP_mono_left
  intro x _ hx
  simp only [ne_eq, decide_eq_true_eq] at hx ⊢
  exact fun hm => hx (h x hm)

theorem countP_lt_of_imp (p q : Nat → Bool) (c : Nat)
    (h : ∀ x, p x = true → q x = true) (hq : q c = true) (hp : p c = false) :
    ∀ l : List Nat, c ∈ l → List.countP p l < List.countP q l := by
  intro l
  induction l with
  | nil => intro hc; simp at hc
  | cons x rest ih =>
    intro hc
    have hle : List.countP p rest ≤ List.countP q rest :=
      List.countP_mono_left (fun y _ hy => h y hy)
    rw [List.countP_cons, List.countP_cons]
    by_cases hxc : x = c
    · subst hxc
      rw [hq, hp]
      simp only [if_true, Bool.false_eq_true, if_false]
      omega
    · have hc2 : c ∈ rest := by
        rcases List.mem_cons.mp hc with hc | hc
        · exact absurd hc.symm hxc
        · exact hc
      have hlt := ih hc2
      cases hpx : p x
      · cases hqx : q x <;> simp <;> omega
      · rw [h x hpx]
        simp only [if_true]
        omega

theorem mismatch_lt (value : Nat → Bool) (m t : QueryMem) (c : Nat)
    (h : ∀ d, matched value m d → matched value t d)
    (hn : ¬ matched value m c) (hy : matched value t c) :
    ∀ ids : List Nat, c ∈ ids → mismatch value ids t < mismatch value ids m := by
  intro ids hc
  unfold mismatch
  apply countP_lt_of_imp _ _ c _ _ _ ids hc
  · intro x hx
    simp only [ne_eq, decide_eq_true_eq] at hx ⊢
    exact fun hm => hx (h x hm)
  · simpa [matched] using hn
  · simpa [matched] using hy

theorem mismatch_le_length (value : Nat → Bool) (ids : List Nat) (m : QueryMem) :
    mismatch value ids m ≤ ids.length := by
  unfold mismatch
  exact List.countP_le_length _

/-- Termination and result of `UDASConditionQuery::IsConditionFulfilled` with its calls
back into itself: on a chain without null instances, a budget above the number of
conditions with a stale cache is enough, the value returned is the value of the fold of
the specification, every condition that fold evaluates has had its predicate called and
caches its value, and the query caches the value returned. -/
theorem IsConditionFulfilled_returns (value : Nat → Bool) :
    ∀ (fuel : Nat) (m : QueryMem) (chain : List (Nat × EDASOperator)),
      m.query.Conditions = chain.map wrap →
      mismatch value (chain.map Prod.fst) m < fuel →
      ∃ t, UDASConditionQuery.IsConditionFulfilled value fuel m
            = Except.ok ((specFold value chain).1, t) ∧ Evolves value m t ∧
          (∀ c ∈ (specFold value chain).2,
            matched value t c ∧ c ∈ predicateCalls t.log) ∧
          t.query.CachedConditionResult
            = ECachedConditionResult.ofBool (specFold value chain).1 := by
  intro fuel
  induction fuel with
  | zero => intro m chain _ h; omega
  | succ fuel ih =>
    intro m chain hch hlt
    obtain ⟨t1, ht1, hE1, hP1⟩ := Internal_spec
      (conditionCall value (fun m0 =>
        match UDASConditionQuery.IsConditionFulfilled value fuel m0 with
        | Except.error e => Except.error e
        | Except.ok r => Except.ok r.2))
      value (Evolves value) (Evolves_refl value) (Evolves_trans value)
      (fun c s => matched value s c ∧ c ∈ predicateCalls s.log)
      (fun d s t hp hR => ⟨hR.2.1 d hp.1, hR.2.2 d hp.2⟩) m chain
      (by
        intro c hc s hs
        apply conditionCall_spec
        intro hchg _
        have hnm : ¬ matched value s c := by
          intro hm
          have := (resultReallyChanged_iff _ _).mp hchg
          rcases this with h | h
          · rw [matched, h] at hm
            cases hv : value c <;> simp [hv, ECachedConditionResult.ofBool] at hm
          · exact h hm
        have hlt2 : mismatch value (chain.map Prod.fst) (afterCall value c true s) < fuel := by
          have h1 := mismatch_lt value s (afterCall value c true s) c
            (Evolves_afterCall value c true s).2.1 hnm (matched_afterCall value c true s)
            (chain.map Prod.fst) hc
          have h2 := mismatch_le value (chain.map Prod.fst) m s hs.2.1
          omega
        have hch2 : (afterCall value c true s).query.Conditions = chain.map wrap := by
          show s.query.Conditions = _
          rw [hs.1, hch]
        obtain ⟨t, ht, hE, _, _⟩ := ih (afterCall value c true s) chain hch2 hlt2
        exact ⟨t, by simp only [ht], hE⟩)
    have hcond1 : t1.query.Conditions = m.query.Conditions := hE1.1
    rw [UDASConditionQuery.IsConditionFulfilled, hch, ht1]
    by_cases hq : resultReallyChanged m.query.CachedConditionResult (specFold value chain).1
        = true
    · simp only [hq, if_true]
      refine ⟨_, rfl, ⟨hcond1, hE1.2.1, ?_⟩, ?_, rfl⟩
      · intro d hd
        simp [predicateCalls_append, hE1.2.2 d hd]
      · intro c hc
        refine ⟨(hP1 c hc).1, ?_⟩
        simp [predicateCalls_append, (hP1 c hc).2]
    · simp only [hq, if_false]
      exact ⟨_, rfl, ⟨hcond1, hE1.2.1, hE1.2.2⟩, hP1, rfl⟩

/-- C1: for every chain of conditions with non-null instances and every assignment of
predicate values, `IsConditionFulfilled_Internal` returns the value of the fold of the
specification and calls exactly the conditions that fold evaluates, in the same order;
for the empty chain the result is true and nothing is called. Evaluated in memory, with
the calls back into the query that changing conditions make, the query returns the
value of the same fold, and the predicate of every condition the fold evaluates has
been called. -/
theorem IsConditionFulfilled_Internal_eq_specFold (value : Nat → Bool)
    (chain : List (Nat × EDASOperator)) :
    IsConditionFulfilled_Internal (traceEval value) (chain.map wrap) []
        = Except.ok (specFold value chain) ∧
      IsConditionFulfilled_Internal (traceEval value) ([] : List FDASConditionWrapper) []
        = Except.ok (true, []) ∧
      ∀ (m : QueryMem) (fuel : Nat), m.query.Conditions = chain.map wrap →
        chain.length < fuel →
        ∃ t, UDASConditionQuery.IsConditionFulfilled value fuel m
              = Except.ok ((specFold value chain).1, t) ∧
            ∀ c ∈ (specFold value chain).2, c ∈ predicateCalls t.log := by
  refine ⟨Internal_traceEval_eq_specFold value chain, ?_, ?_⟩
  · simp [IsConditionFulfilled_Internal, IsConditionFulfilled_Internal_loop]
  · intro m fuel hm hfuel
    obtain ⟨t, ht, _, hP, _⟩ := IsConditionFulfilled_returns value fuel m chain hm
      (lt_of_le_of_lt (mismatch_le_length value _ m) (by simpa using hfuel))
    exact ⟨t, ht, fun c hc => (hP c hc).2⟩

theorem IsConditionFulfilled_Internal_eq_specFold_witness :
    IsConditionFulfilled_Internal (traceEval (fun c => decide (c ≠ 1)))
        [wrap (0, EDASOperator.OR), wrap (1, EDASOperator.OR), wrap (2, EDASOperator.AND)] []
      = Except.ok (true, [0, 2]) :=
  (IsConditionFulfilled_Internal_eq_specFold (fun c => decide (c ≠ 1))
    [(0, EDASOperator.OR), (1, EDASOperator.OR), (2, EDASOperator.AND)]).1

/-- C2, as stated, fails: on the chain `[A (AND), B (OR), C (AND)]` with `A` false and
`B`, `C` true, the query evaluates `B` (its predicate is called and its cached result
changes from Undefined to True) and the result is true. -/
theorem or_after_false_is_evaluated :
    ∃ t, UDASConditionQuery.IsConditionFulfilled (fun c => decide (c ≠ 0)) 1
          (freshMem [⟨some 0, EDASOperator.AND⟩, ⟨some 1, EDASOperator.OR⟩,
            ⟨some 2, EDASOperator.AND⟩]) = Except.ok (true, t) ∧
      predicateCalls t.log = [0, 1, 2] ∧
      (t.conds 1).CachedConditionResult = ECachedConditionResult.True :=
  ⟨_, rfl, rfl, rfl⟩

/-- C2, amended: on a chain `[A, B (OR), C (AND)]` in which `A` evaluates to false, the
loop calls `A`, then `B`, then `C` only when `B` is true, and the result is the
conjunction of the values of `B` and `C`; whenever the query is evaluated in memory,
it returns that conjunction, `B`'s predicate has been called and `B` caches its value. -/
theorem or_after_false_evaluates (value : Nat → Bool) (a b c : Nat) (opA : EDASOperator)
    (hA : value a = false) :
    IsConditionFulfilled_Internal (traceEval value)
        [wrap (a, opA), wrap (b, EDASOperator.OR), wrap (c, EDASOperator.AND)] []
        = Except.ok (value b && value c, a :: b :: (if value b = true then [c] else [])) ∧
      ∀ (m : QueryMem) (fuel : Nat),
        m.query.Conditions
          = [wrap (a, opA), wrap (b, EDASOperator.OR), wrap (c, EDASOperator.AND)] →
        3 < fuel →
        ∃ t, UDASConditionQuery.IsConditionFulfilled value fuel m
              = Except.ok (value b && value c, t) ∧
            b ∈ predicateCalls t.log ∧
            (t.conds b).CachedConditionResult = ECachedConditionResult.ofBool (value b) := by
  have hfold : specFold value [(a, opA), (b, EDASOperator.OR), (c, EDASOperator.AND)]
      = (value b && value c, a :: b :: (if value b = true then [c] else [])) := by
    cases hb : value b <;> simp [specFold, specFoldLater, hA, hb]
  constructor
  · have h := (Internal_traceEval_eq_specFold value
      [(a, opA), (b, EDASOperator.OR), (c, EDASOperator.AND)])
    rw [hfold] at h
    exact h
  · intro m fuel hm hfuel
    obtain ⟨t, ht, _, hP, _⟩ := IsConditionFulfilled_returns value fuel m
      [(a, opA), (b, EDASOperator.OR), (c, EDASOperator.AND)] hm
      (lt_of_le_of_lt (mismatch_le_length value _ m) (by simpa using hfuel))
    rw [hfold] at ht hP
    exact ⟨t, ht, (hP b (by simp)).2, (hP b (by simp)).1⟩

theorem or_after_false_evaluates_witness :
    (fun c => decide (c ≠ 0)) 0 = false ∧
      IsConditionFulfilled_Internal (traceEval (fun c => decide (c ≠ 0)))
        [wrap (0, EDASOperator.AND), wrap (1, EDASOperator.OR), wrap (2, EDASOperator.AND)] []
        = Except.ok (true, [0, 1, 2]) :=
  ⟨by decide,
    (or_after_false_evaluates (fun c => decide (c ≠ 0)) 0 1 2 EDASOperator.AND
      (by decide)).1⟩

/-- C3 fails on the code: a query with the single condition `A`, whose predicate is
true, is initialised; the evaluation made by `Initialize` broadcasts
`OnConditionResultChanged( true )` twice, and the next call of `IsConditionFulfilled`,
made when the predicate has become false, broadcasts `false` twice. -/
theorem query_broadcasts_twice :
    ∃ t u, UDASConditionQuery.Initialize (fun _ => true) 2
          (freshMem [⟨some 0, EDASOperator.AND⟩]) = Except.ok t ∧
      queryBroadcasts t.log = [true, true] ∧
      UDASConditionQuery.IsConditionFulfilled (fun _ => false) 2 t = Except.ok (false, u) ∧
      queryBroadcasts u.log = [true, true, false, false] :=
  ⟨_, _, rfl, rfl, rfl, rfl⟩

/-! ## Theorems: single-precision numbers -/

theorem roundToFloat_zero : roundToFloat 0 = 0 := by
  have h : floatUnits 0 1 = 0 := by decide
  norm_num [roundToFloat, h]

theorem roundToFloat_one : roundToFloat 1 = 1 := by
  have h : floatUnits 1 1 = 1 * 2 ^ 149 := by decide
  norm_num [roundToFloat, h]

theorem roundToFloat_three : roundToFloat 3 = 3 := by
  have h : floatUnits 3 1 = 3 * 2 ^ 149 := by decide
  norm_num [roundToFloat, h]

theorem roundToFloat_four : roundToFloat 4 = 4 := by
  have h : floatUnits 4 1 = 4 * 2 ^ 149 := by decide
  norm_num [roundToFloat, h]

theorem roundToFloat_nine : roundToFloat 9 = 9 := by
  have h : floatUnits 9 1 = 9 * 2 ^ 149 := by decide
  norm_num [roundToFloat, h]

theorem roundToFloat_ten : roundToFloat 10 = 10 := by
  have h : floatUnits 10 1 = 10 * 2 ^ 149 := by decide
  norm_num [roundToFloat, h]

theorem roundToFloat_fifteen : roundToFloat 15 = 15 := by
  have h : floatUnits 15 1 = 15 * 2 ^ 149 := by decide
  norm_num [roundToFloat, h]

/-- The number `1 / 10` is not a `float`; the nearest one is `13421773 / 2 ^ 27`. -/
theorem roundToFloat_tenth : roundToFloat (1 / 10) = 13421773 / 134217728 := by
  have h : floatUnits 1 10 = 13421773 * 2 ^ 122 := by decide
  norm_num [roundToFloat, h]

/-- The number `2 ^ 24 + 1` is not a `float`: it lies half way between `2 ^ 24` and
`2 ^ 24 + 2` and is rounded to the former, whose significand is even. -/
theorem roundToFloat_16777217 : roundToFloat 16777217 = 16777216 := by
  have h : floatUnits 16777217 1 = 16777216 * 2 ^ 149 := by decide
  norm_num [roundToFloat, h]

set_option maxRecDepth 8000 in
set_option exponentiation.threshold 300 in
/-- The number `2 ^ 128` is beyond the range of `float` and becomes the infinity. -/
theorem roundToFloat_two_pow_128 :
    roundToFloat 340282366920938463463374607431768211456
      = 340282366920938463463374607431768211456 := by
  have h : floatUnits 340282366920938463463374607431768211456 1
      = 340282366920938463463374607431768211456 * 2 ^ 149 := by decide
  norm_num [roundToFloat, h]

/-! ## Theorems: action points -/

theorem Execute_eq (p : ADASActionPoint) (a : Option Nat) :
    p.Execute a =
      if p.bIsExecuting = false ∧ p.HasAuthority = true then
        { p with bIsExecuting := true
                 ActiveDASComponent := a
                 events := p.events ++
                   [APEvent.OnRep_IsExecuting true, APEvent.ReceiveExecute a] }
      else p := by
  by_cases h : p.bIsExecuting = false ∧ p.HasAuthority = true
  · simp [ADASActionPoint.Execute, ADASActionPoint.IsExecuting,
      ADASActionPoint.SetIsExecuting, ADASActionPoint.OnRep_IsExecuting, h]
  · unfold ADASActionPoint.Execute ADASActionPoint.IsExecuting
    rw [if_neg h, if_neg h]

theorem AsyncExecute_eq (p : ADASActionPoint) (a d : Option Nat) :
    p.AsyncExecute a d =
      if p.bIsExecuting = false ∧ p.HasAuthority = true then
        { p with bIsExecuting := true
                 ActiveDASComponent := a
                 ActiveFinishExecutionDelegate := d
                 events := p.events ++
                   [APEvent.OnRep_IsExecuting true, APEvent.ReceiveExecute a] }
      else
        { p with events := p.events ++
            (match d with
              | some k => [APEvent.FinishExecutionDelegate k EDASExecutionResult.Failed]
              | none => []) } := by
  by_cases h : p.bIsExecuting = false ∧ p.HasAuthority = true
  · simp [ADASActionPoint.AsyncExecute, ADASActionPoint.IsExecuting, Execute_eq, h]
  · cases d <;> simp [ADASActionPoint.AsyncExecute, ADASActionPoint.IsExecuting, h]

theorem FinishExecute_eq (p : ADASActionPoint) (world : Option ℚ) (bSuccess : Bool) :
    p.FinishExecute world bSuccess =
      if p.bIsExecuting = true then
        { p with
          bIsExecuting := false
          ActiveDASComponent := none
          CooldownEndWorldTime :=
            (if bSuccess = true ∧ 0 < p.Cooldown then
              (match world with
                | some currentTime => roundToFloat (currentTime + p.Cooldown)
                | none => p.CooldownEndWorldTime)
            else p.CooldownEndWorldTime)
          events := p.events ++
            [APEvent.ClearTimersAndDelays,
             APEvent.ReceiveFinishExecute
               (if bSuccess = true then EDASExecutionResult.Success
                else EDASExecutionResult.Failed),
             APEvent.OnRep_IsExecuting false] ++
            (match p.ActiveFinishExecutionDelegate with
              | some d => [APEvent.FinishExecutionDelegate d
                  (if bSuccess = true then EDASExecutionResult.Success
                   else EDASExecutionResult.Failed)]
              | none => []) }
      else p := by
  by_cases h : p.bIsExecuting = true
  · rcases p with ⟨e, tk, c, del, cd, ce, au, ev⟩
    simp only at h
    subst h
    cases bSuccess <;> cases del <;> cases world <;> by_cases hcd : 0 < cd <;>
      simp [ADASActionPoint.FinishExecute, ADASActionPoint.IsExecuting,
        ADASActionPoint.SetIsExecuting, ADASActionPoint.OnRep_IsExecuting,
        ADASActionPoint.ApplyCooldown, hcd]
  · unfold ADASActionPoint.FinishExecute ADASActionPoint.IsExecuting
    rw [if_neg h, if_neg h]

theorem SetIsTaken_eq (p : ADASActionPoint) (b : Bool) :
    p.SetIsTaken b =
      if p.bIsTaken = b then p
      else { p with bIsTaken := b, events := p.events ++ [APEvent.OnRep_IsTaken b] } := by
  by_cases h : p.bIsTaken = b
  · simp [ADASActionPoint.SetIsTaken, h]
  · simp [ADASActionPoint.SetIsTaken, ADASActionPoint.OnRep_IsTaken, h]

theorem call_keeps_invariant (p : ADASActionPoint) (c : APCall)
    (h0 : p.bIsExecuting = true → p.bIsTaken = true) (hA : p.callAllowed c = true) :
    (p.call c).bIsExecuting = true → (p.call c).bIsTaken = true := by
  cases c with
  | Execute a =>
    simp only [ADASActionPoint.callAllowed] at hA
    simp only [ADASActionPoint.call, Execute_eq]
    split <;> simp_all
  | AsyncExecute a d =>
    simp only [ADASActionPoint.callAllowed] at hA
    simp only [ADASActionPoint.call, AsyncExecute_eq]
    split <;> simp_all
  | FinishExecute world bSuccess =>
    simp only [ADASActionPoint.call, FinishExecute_eq]
    split <;> simp_all
  | SetIsTaken b =>
    simp only [ADASActionPoint.callAllowed] at hA
    simp only [ADASActionPoint.call, SetIsTaken_eq]
    split
    · exact h0
    · intro he
      simp only at he
      simpa [he] using hA

/-- C5, as stated, fails: one `Execute` on a freshly constructed authoritative action
point reaches the combination executing and not taken. -/
theorem executing_not_taken_reachable :
    ((ADASActionPoint.construct true 0).calls [APCall.Execute (some 1)]).bIsExecuting = true ∧
      ((ADASActionPoint.construct true 0).calls [APCall.Execute (some 1)]).bIsTaken = false :=
  ⟨rfl, rfl⟩

/-- C5, amended: `Execute`, `AsyncExecute` and `FinishExecute` never change the taken
flag and `SetIsTaken` never changes the executing flag; executing implies taken in every
state reached by a sequence of calls in which execution is requested only on a taken
point and the taken flag is cleared only on a point that is not executing. -/
theorem executing_implies_taken_of_allowed (p : ADASActionPoint) (cs : List APCall)
    (h0 : p.bIsExecuting = true → p.bIsTaken = true) (hA : p.callsAllowed cs = true) :
    ((p.calls cs).bIsExecuting = true → (p.calls cs).bIsTaken = true) ∧
      (∀ (q : ADASActionPoint) (a : Option Nat), (q.Execute a).bIsTaken = q.bIsTaken) ∧
      (∀ (q : ADASActionPoint) (a d : Option Nat),
        (q.AsyncExecute a d).bIsTaken = q.bIsTaken) ∧
      (∀ (q : ADASActionPoint) (w : Option ℚ) (b : Bool),
        (q.FinishExecute w b).bIsTaken = q.bIsTaken) ∧
      (∀ (q : ADASActionPoint) (b : Bool),
        (q.SetIsTaken b).bIsExecuting = q.bIsExecuting) := by
  refine ⟨?_, ?_, ?_, ?_, ?_⟩
  · induction cs generalizing p with
    | nil => exact h0
    | cons c rest ih =>
      simp only [ADASActionPoint.callsAllowed, Bool.and_eq_true] at hA
      exact ih (p.call c) (call_keeps_invariant p c h0 hA.1) hA.2
  · intro q a; rw [Execute_eq]; split <;> rfl
  · intro q a d; rw [AsyncExecute_eq]; split <;> rfl
  · intro q w b; rw [FinishExecute_eq]; split <;> rfl
  · intro q b; rw [SetIsTaken_eq]; split <;> rfl

theorem executing_implies_taken_of_allowed_witness :
    (ADASActionPoint.construct true 0).callsAllowed
        [APCall.SetIsTaken true, APCall.Execute (some 1)] = true ∧
      ((ADASActionPoint.construct true 0).calls
        [APCall.SetIsTaken true, APCall.Execute (some 1)]).bIsExecuting = true ∧
      (((ADASActionPoint.construct true 0).calls
        [APCall.SetIsTaken true, APCall.Execute (some 1)]).bIsExecuting = true →
      ((ADASActionPoint.construct true 0).calls
        [APCall.SetIsTaken true, APCall.Execute (some 1)]).bIsTaken = true) :=
  ⟨rfl, rfl, (executing_implies_taken_of_allowed (ADASActionPoint.construct true 0)
      [APCall.SetIsTaken true, APCall.Execute (some 1)]
      (fun h => Bool.noConfusion h) rfl).1⟩

/-- C6: on an authoritative action point, after `Execute( a )` the point is executing,
a second `Execute( b )` returns the point unchanged, events included, and a second call
through `AsyncExecute( b, d )` changes nothing but the log, where `d` receives `Failed`
when it is bound; the same holds after `AsyncExecute( a, d0 )`. When the point was not
executing before, the first call starts one execution (one execution-started event, the
acting agent is `a`), and the acting agent and the stored callback `d0` are still those
of the first call after the second one. -/
theorem second_Execute_rejected (p : ADASActionPoint) (a b d0 d : Option Nat)
    (hAuth : p.HasAuthority = true) :
    (p.Execute a).bIsExecuting = true ∧
      (p.Execute a).Execute b = p.Execute a ∧
      (p.Execute a).AsyncExecute b d =
        { p.Execute a with events := (p.Execute a).events ++
            (match d with
              | some k => [APEvent.FinishExecutionDelegate k EDASExecutionResult.Failed]
              | none => []) } ∧
      (p.AsyncExecute a d0).bIsExecuting = true ∧
      (p.AsyncExecute a d0).Execute b = p.AsyncExecute a d0 ∧
      (p.AsyncExecute a d0).AsyncExecute b d =
        { p.AsyncExecute a d0 with events := (p.AsyncExecute a d0).events ++
            (match d with
              | some k => [APEvent.FinishExecutionDelegate k EDASExecutionResult.Failed]
              | none => []) } ∧
      (p.bIsExecuting = false →
        (p.Execute a).events
          = p.events ++ [APEvent.OnRep_IsExecuting true, APEvent.ReceiveExecute a] ∧
        (p.Execute a).ActiveDASComponent = a ∧
        ((p.Execute a).Execute b).ActiveDASComponent = a ∧
        ((p.Execute a).AsyncExecute b d).ActiveDASComponent = a ∧
        (p.AsyncExecute a d0).ActiveDASComponent = a ∧
        (p.AsyncExecute a d0).ActiveFinishExecutionDelegate = d0 ∧
        ((p.AsyncExecute a d0).AsyncExecute b d).ActiveDASComponent = a ∧
        ((p.AsyncExecute a d0).AsyncExecute b d).ActiveFinishExecutionDelegate = d0) := by
  have h1 : (p.Execute a).bIsExecuting = true := by
    rw [Execute_eq]
    by_cases h : p.bIsExecuting = false <;> simp_all
  have h2 : (p.AsyncExecute a d0).bIsExecuting = true := by
    rw [AsyncExecute_eq]
    by_cases h : p.bIsExecuting = false <;> simp_all
  have e1 : (p.Execute a).Execute b = p.Execute a := by
    rw [Execute_eq (p.Execute a) b, if_neg (by simp [h1])]
  have e2 := AsyncExecute_eq (p.Execute a) b d
  rw [if_neg (by simp [h1])] at e2
  have e3 : (p.AsyncExecute a d0).Execute b = p.AsyncExecute a d0 := by
    rw [Execute_eq (p.AsyncExecute a d0) b, if_neg (by simp [h2])]
  have e4 := AsyncExecute_eq (p.AsyncExecute a d0) b d
  rw [if_neg (by simp [h2])] at e4
  refine ⟨h1, e1, e2, h2, e3, e4, ?_⟩
  intro hIdle
  have f1 : (p.Execute a).ActiveDASComponent = a := by simp [Execute_eq, hAuth, hIdle]
  have f2 : (p.AsyncExecute a d0).ActiveDASComponent = a := by
    simp [AsyncExecute_eq, hAuth, hIdle]
  have f3 : (p.AsyncExecute a d0).ActiveFinishExecutionDelegate = d0 := by
    simp [AsyncExecute_eq, hAuth, hIdle]
  refine ⟨by simp [Execute_eq, hAuth, hIdle], f1, by rw [e1]; exact f1,
    by rw [e2]; exact f1, f2, f3, by rw [e4]; exact f2, by rw [e4]; exact f3⟩

theorem second_Execute_rejected_witness :
    (ADASActionPoint.construct true 0).HasAuthority = true ∧
      ((ADASActionPoint.construct true 0).Execute (some 1)).Execute (some 2)
        = (ADASActionPoint.construct true 0).Execute (some 1) :=
  ⟨rfl, (second_Execute_rejected (ADASActionPoint.construct true 0) (some 1) (some 2)
      (some 7) (some 8) rfl).2.1⟩

/-- C7, as stated, fails: the end time is stored in a `float` and is the `float` sum
of the world time and `Cooldown`. An executing point with `Cooldown = 1` that finishes
successfully at world time `16777216` (`2 ^ 24`) gets the end time `16777216`, which is
not the world time plus `Cooldown`. -/
theorem FinishExecute_end_time_is_rounded :
    shortCooldownPoint.bIsExecuting = true ∧ shortCooldownPoint.Cooldown = 1 ∧
      (shortCooldownPoint.FinishExecute (some 16777216) true).CooldownEndWorldTime
        = 16777216 ∧
      (shortCooldownPoint.FinishExecute (some 16777216) true).CooldownEndWorldTime
        ≠ 16777216 + shortCooldownPoint.Cooldown := by
  have hend : (shortCooldownPoint.FinishExecute (some 16777216) true).CooldownEndWorldTime
      = 16777216 := by
    rw [FinishExecute_eq, if_pos rfl]
    norm_num [shortCooldownPoint, ADASActionPoint.construct, roundToFloat_16777217]
  refine ⟨rfl, rfl, hend, ?_⟩
  rw [hend]
  norm_num [shortCooldownPoint, ADASActionPoint.construct]

/-- C7 (amended): `FinishExecute( success )` on a point that is not executing returns the
point unchanged, its event log included. On an executing point it clears the executing
flag and the acting agent, reports Success when `success` is true and Failed otherwise
(to the finish hook and to the stored callback when one is bound), leaves the other
flags alone, and sets the cooldown end time to the `float` sum of the current world
time and `Cooldown`, that is to the world time plus `Cooldown` rounded to single
precision, exactly when `success` is true and `Cooldown > 0`; on failure, and when
`Cooldown` is not positive, the end time is unchanged. -/
theorem FinishExecute_spec (p : ADASActionPoint) (now : ℚ) (bSuccess : Bool) :
    (p.bIsExecuting = false → p.FinishExecute (some now) bSuccess = p) ∧
      (p.bIsExecuting = true →
        (p.FinishExecute (some now) bSuccess).bIsExecuting = false ∧
        (p.FinishExecute (some now) bSuccess).ActiveDASComponent = none ∧
        (p.FinishExecute (some now) bSuccess).events =
          p.events ++
            [APEvent.ClearTimersAndDelays,
             APEvent.ReceiveFinishExecute
               (if bSuccess = true then EDASExecutionResult.Success
                else EDASExecutionResult.Failed),
             APEvent.OnRep_IsExecuting false] ++
            (match p.ActiveFinishExecutionDelegate with
              | some d => [APEvent.FinishExecutionDelegate d
                  (if bSuccess = true then EDASExecutionResult.Success
                   else EDASExecutionResult.Failed)]
              | none => []) ∧
        (p.FinishExecute (some now) bSuccess).CooldownEndWorldTime =
          (if bSuccess = true ∧ 0 < p.Cooldown then roundToFloat (now + p.Cooldown)
           else p.CooldownEndWorldTime) ∧
        (p.FinishExecute (some now) bSuccess).bIsTaken = p.bIsTaken ∧
        (p.FinishExecute (some now) bSuccess).ActiveFinishExecutionDelegate
          = p.ActiveFinishExecutionDelegate ∧
        (p.FinishExecute (some now) bSuccess).Cooldown = p.Cooldown ∧
        (p.FinishExecute (some now) bSuccess).HasAuthority = p.HasAuthority) ∧
      (bSuccess = false →
        (p.FinishExecute (some now) bSuccess).CooldownEndWorldTime
          = p.CooldownEndWorldTime) ∧
      (¬ 0 < p.Cooldown →
        (p.FinishExecute (some now) bSuccess).CooldownEndWorldTime
          = p.CooldownEndWorldTime) := by
  refine ⟨?_, ?_, ?_, ?_⟩
  · intro h
    rw [FinishExecute_eq, if_neg (by simp [h])]
  · intro h
    rw [FinishExecute_eq, if_pos h]
    exact ⟨rfl, rfl, rfl, rfl, rfl, rfl, rfl, rfl⟩
  · intro h
    rw [FinishExecute_eq]
    split
    · simp [h]
    · rfl
  · intro h
    rw [FinishExecute_eq]
    split
    · simp [h]
    · rfl

theorem FinishExecute_spec_witness :
    executingPoint.bIsExecuting = true ∧
      (executingPoint.FinishExecute (some 10) true).CooldownEndWorldTime = 15 := by
  refine ⟨rfl, ?_⟩
  have h := ((FinishExecute_spec executingPoint 10 true).2.1 rfl).2.2.2.1
  rw [h]
  norm_num [executingPoint, ADASActionPoint.construct, roundToFloat_fifteen]

/-- C8, as stated, fails: an executing point with `Cooldown = 1` that finishes
successfully at world time `t = 16777216` (`2 ^ 24`) is not on cooldown at `t' = t`
although `t' < t + 1`, its remaining time there is `0` and not the `Cooldown`, and
`CanRun` is not stopped by the cooldown: on a point without a condition query it
returns true. -/
theorem cooldown_lost_to_rounding :
    shortCooldownPoint.bIsExecuting = true ∧ shortCooldownPoint.Cooldown = 1 ∧
      (16777216 : ℚ) < 16777216 + shortCooldownPoint.Cooldown ∧
      (shortCooldownPoint.FinishExecute (some 16777216) true).IsOnCooldown (some 16777216)
        = false ∧
      (shortCooldownPoint.FinishExecute (some 16777216) true).GetCooldownRemainingTime
        (some 16777216) = 0 ∧
      (shortCooldownPoint.FinishExecute (some 16777216) true).CanRun_Implementation
          (some 16777216) (fun _ => true) 0
          { ConditionQuery := { Instance := none }
            conds := fun _ => UDASCondition.construct
            log := [] }
        = Except.ok (true,
          { ConditionQuery := { Instance := none }
            conds := fun _ => UDASCondition.construct
            log := [] }) := by
  have hend : (shortCooldownPoint.FinishExecute (some 16777216) true).CooldownEndWorldTime
      = 16777216 := by
    rw [FinishExecute_eq, if_pos rfl]
    norm_num [shortCooldownPoint, ADASActionPoint.construct, roundToFloat_16777217]
  have hon : (shortCooldownPoint.FinishExecute (some 16777216) true).IsOnCooldown
      (some 16777216) = false := by
    simp [ADASActionPoint.IsOnCooldown, hend]
  refine ⟨rfl, rfl, ?_, hon, ?_, ?_⟩
  · norm_num [shortCooldownPoint, ADASActionPoint.construct]
  · simp only [ADASActionPoint.GetCooldownRemainingTime, hend]
    norm_num
  · simp only [ADASActionPoint.CanRun_Implementation, ADASBasePoint.CanRun_Implementation,
      FDASConditionQueryWrapper.IsConditionFulfilled]
    rw [if_neg (by simp [hon])]

/-- C8 (amended): when an executing point with `Cooldown = c > 0` finishes successfully
at world time `t`, the end of the cooldown is `e`, the `float` sum of `t` and `c` (the
number `t + c` rounded to single precision). At every query time `t'` the point is on
cooldown exactly when `t' < e`; the remaining time is the `float` difference of `e` and
`t'` when `t' < e` and `0` from `e` on; and `CanRun` returns false, without touching the
memory of the condition query, whenever `t' < e`. When `t + c` is a `float`, `e` is
`t + c`: the point is on cooldown exactly when `t' < t + c`, the remaining time is `0`
from `t + c` on, it is `max 0 (t + c - t')` when that difference is a `float` too, and it
is `c` at `t` when `c` is a `float`. -/
theorem cooldown_after_success (p : ADASActionPoint) (t t' : ℚ)
    (hExec : p.bIsExecuting = true) (hc : 0 < p.Cooldown) :
    (p.FinishExecute (some t) true).CooldownEndWorldTime = roundToFloat (t + p.Cooldown) ∧
      ((p.FinishExecute (some t) true).IsOnCooldown (some t') = true
        ↔ t' < roundToFloat (t + p.Cooldown)) ∧
      (p.FinishExecute (some t) true).GetCooldownRemainingTime (some t')
        = (if t' < roundToFloat (t + p.Cooldown) then
            roundToFloat (roundToFloat (t + p.Cooldown) - t')
          else 0) ∧
      (t' < roundToFloat (t + p.Cooldown) → ∀ (value : Nat → Bool) (fuel : Nat)
          (pm : PointMem),
        (p.FinishExecute (some t) true).CanRun_Implementation (some t') value fuel pm
          = Except.ok (false, pm)) ∧
      (roundToFloat (t + p.Cooldown) = t + p.Cooldown →
        ((p.FinishExecute (some t) true).IsOnCooldown (some t') = true
          ↔ t' < t + p.Cooldown) ∧
        (t + p.Cooldown ≤ t' →
          (p.FinishExecute (some t) true).GetCooldownRemainingTime (some t') = 0) ∧
        (roundToFloat (t + p.Cooldown - t') = t + p.Cooldown - t' →
          (p.FinishExecute (some t) true).GetCooldownRemainingTime (some t')
            = max 0 (t + p.Cooldown - t')) ∧
        (roundToFloat p.Cooldown = p.Cooldown →
          (p.FinishExecute (some t) true).GetCooldownRemainingTime (some t)
            = p.Cooldown)) := by
  have hend : (p.FinishExecute (some t) true).CooldownEndWorldTime
      = roundToFloat (t + p.Cooldown) := by
    rw [FinishExecute_eq, if_pos hExec]
    simp [hc]
  have hon : (p.FinishExecute (some t) true).IsOnCooldown (some t') = true
      ↔ t' < roundToFloat (t + p.Cooldown) := by
    simp [ADASActionPoint.IsOnCooldown, hend]
  have hrem : ∀ u : ℚ, (p.FinishExecute (some t) true).GetCooldownRemainingTime (some u)
      = (if u < roundToFloat (t + p.Cooldown) then
          roundToFloat (roundToFloat (t + p.Cooldown) - u)
        else 0) := by
    intro u
    simp only [ADASActionPoint.GetCooldownRemainingTime, hend, gt_iff_lt]
  refine ⟨hend, hon, hrem t', ?_, ?_⟩
  · intro h value fuel pm
    simp only [ADASActionPoint.CanRun_Implementation]
    rw [if_pos (hon.mpr h)]
  · intro hx
    refine ⟨?_, ?_, ?_, ?_⟩
    · rw [hon, hx]
    · intro h
      rw [hrem, hx, if_neg (by linarith)]
    · intro hd
      rw [hrem, hx]
      by_cases h : t' < t + p.Cooldown
      · rw [if_pos h, hd, max_eq_right (by linarith)]
      · rw [if_neg h, max_eq_left (by linarith)]
    · intro hcf
      rw [hrem, hx, if_pos (by linarith)]
      have e : t + p.Cooldown - t = p.Cooldown := by ring
      rw [e, hcf]

theorem cooldown_after_success_witness :
    executingPoint.bIsExecuting = true ∧ (0 : ℚ) < executingPoint.Cooldown ∧
      ((executingPoint.FinishExecute (some 10) true).IsOnCooldown (some 12) = true
        ↔ (12 : ℚ) < 15) ∧
      (executingPoint.FinishExecute (some 10) true).GetCooldownRemainingTime (some 12)
        = 3 ∧
      roundToFloat (10 + executingPoint.Cooldown) = 10 + executingPoint.Cooldown ∧
      ((executingPoint.FinishExecute (some 10) true).IsOnCooldown (some 12) = true
        ↔ (12 : ℚ) < 10 + executingPoint.Cooldown) := by
  have h0 : (0 : ℚ) < executingPoint.Cooldown := by
    norm_num [executingPoint, ADASActionPoint.construct]
  have h15 : roundToFloat (10 + executingPoint.Cooldown) = 15 := by
    norm_num [executingPoint, ADASActionPoint.construct, roundToFloat_fifteen]
  have hx : roundToFloat (10 + executingPoint.Cooldown) = 10 + executingPoint.Cooldown := by
    rw [h15]
    norm_num [executingPoint, ADASActionPoint.construct]
  have h := cooldown_after_success executingPoint 10 12 rfl h0
  refine ⟨rfl, h0, ?_, ?_, hx, (h.2.2.2.2 hx).1⟩
  · rw [← h15]
    exact h.2.1
  · rw [h.2.2.1, h15]
    norm_num [roundToFloat_three]

/-- C9: when the point is on cooldown, `CanRun` returns false and the memory of the
condition query (the cached results of the query and of its conditions, the event log)
is returned untouched; when it is not on cooldown, `CanRun` is the call of
`FDASConditionQueryWrapper::IsConditionFulfilled`: it returns true, touching nothing,
when there is no query instance, and otherwise returns what the query's
`IsConditionFulfilled` returns, which on a chain without null instances is the value
of the fold of the specification. -/
theorem CanRun_cooldown_gate (p : ADASActionPoint) (world : Option ℚ) (value : Nat → Bool)
    (fuel : Nat) (pm : PointMem) :
    (p.IsOnCooldown world = true →
        p.CanRun_Implementation world value fuel pm = Except.ok (false, pm)) ∧
      (p.IsOnCooldown world = false → pm.ConditionQuery.Instance = none →
        p.CanRun_Implementation world value fuel pm = Except.ok (true, pm)) ∧
      (p.IsOnCooldown world = false → ∀ (q : UDASConditionQuery),
        pm.ConditionQuery.Instance = some q →
        p.CanRun_Implementation world value fuel pm =
          match UDASConditionQuery.IsConditionFulfilled value fuel
              { query := q, conds := pm.conds, log := pm.log } with
          | Except.error e => Except.error e
          | Except.ok r =>
            Except.ok (r.1, { ConditionQuery := { Instance := some r.2.query }
                              conds := r.2.conds
                              log := r.2.log })) ∧
      (p.IsOnCooldown world = false → ∀ (q : UDASConditionQuery)
          (chain : List (Nat × EDASOperator)),
        pm.ConditionQuery.Instance = some q → q.Conditions = chain.map wrap →
        chain.length < fuel →
        ∃ t, UDASConditionQuery.IsConditionFulfilled value fuel
              { query := q, conds := pm.conds, log := pm.log }
              = Except.ok ((specFold value chain).1, t) ∧
          p.CanRun_Implementation world value fuel pm =
            Except.ok ((specFold value chain).1,
              { ConditionQuery := { Instance := some t.query }
                conds := t.conds
                log := t.log })) := by
  refine ⟨?_, ?_, ?_, ?_⟩
  · intro h
    simp only [ADASActionPoint.CanRun_Implementation]
    rw [if_pos h]
  · intro h hq
    simp only [ADASActionPoint.CanRun_Implementation, ADASBasePoint.CanRun_Implementation,
      FDASConditionQueryWrapper.IsConditionFulfilled]
    rw [if_neg (by simp [h]), hq]
  · intro h q hq
    simp only [ADASActionPoint.CanRun_Implementation, ADASBasePoint.CanRun_Implementation,
      FDASConditionQueryWrapper.IsConditionFulfilled]
    rw [if_neg (by simp [h]), hq]
  · intro h q chain hq hch hfuel
    obtain ⟨t, ht, _⟩ := IsConditionFulfilled_returns value fuel
      { query := q, conds := pm.conds, log := pm.log } chain hch
      (lt_of_le_of_lt (mismatch_le_length value _ _) (by simpa using hfuel))
    refine ⟨t, ht, ?_⟩
    simp only [ADASActionPoint.CanRun_Implementation, ADASBasePoint.CanRun_Implementation,
      FDASConditionQueryWrapper.IsConditionFulfilled]
    rw [if_neg (by simp [h]), hq]
    simp only [ht]

theorem CanRun_cooldown_gate_witness :
    ({ ADASActionPoint.construct true 5 with CooldownEndWorldTime := 15 } :
        ADASActionPoint).IsOnCooldown (some 10) = true ∧
      ({ ADASActionPoint.construct true 5 with CooldownEndWorldTime := 15 } :
        ADASActionPoint).CanRun_Implementation (some 10) (fun _ => true) 0
          { ConditionQuery := { Instance := none }
            conds := fun _ => UDASCondition.construct
            log := [] }
        = Except.ok (false,
          { ConditionQuery := { Instance := none }
            conds := fun _ => UDASCondition.construct
            log := [] }) := by
  have h0 : ({ ADASActionPoint.construct true 5 with CooldownEndWorldTime := 15 } :
      ADASActionPoint).IsOnCooldown (some 10) = true := by
    norm_num [ADASActionPoint.IsOnCooldown]
  exact ⟨h0, (CanRun_cooldown_gate _ (some 10) (fun _ => true) 0 _).1 h0⟩

/-! ## Theorems: spots -/

/-- The search loop of `RequestSpot`: either no remaining free spot is closer than the
bound and the locals are returned as they were, or the loop returns the index and the
distance of a remaining free spot that is closer than the bound, at least as close as
every remaining free spot, and strictly closer than the free spots before it. -/
theorem RequestSpot_loop_spec (env : SpotEnv) (loc : FVector) :
    ∀ (rest : List FDASSpot) (i : Nat) (closest : Option Nat) (d : ℚ),
      (ADASPathPoint.RequestSpot_loop env loc rest i closest d = (closest, d) ∧
          ∀ (k : Nat) (s : FDASSpot), rest[k]? = some s → s.IsFree env = true → d ≤ spotDistance env loc s) ∨
        (∃ (j : Nat) (sj : FDASSpot), rest[j]? = some sj ∧ sj.IsFree env = true ∧
          ADASPathPoint.RequestSpot_loop env loc rest i closest d
            = (some (i + j), spotDistance env loc sj) ∧
          spotDistance env loc sj < d ∧
          (∀ (k : Nat) (s : FDASSpot), rest[k]? = some s → s.IsFree env = true →
            spotDistance env loc sj ≤ spotDistance env loc s) ∧
          (∀ (k : Nat) (s : FDASSpot), k < j → rest[k]? = some s → s.IsFree env = true →
            spotDistance env loc sj < spotDistance env loc s)) := by
  intro rest
  induction rest with
  | nil =>
    intro i closest d
    exact Or.inl ⟨rfl, fun k s h => by simp at h⟩
  | cons spot rest ih =>
    intro i closest d
    by_cases hfree : spot.IsFree env = true
    · by_cases hlt : spotDistance env loc spot < d
      · have hstep : ADASPathPoint.RequestSpot_loop env loc (spot :: rest) i closest d
            = ADASPathPoint.RequestSpot_loop env loc rest (i + 1) (some i)
                (spotDistance env loc spot) := by
          simp [ADASPathPoint.RequestSpot_loop, hfree, hlt]
        rcases ih (i + 1) (some i) (spotDistance env loc spot) with ⟨hres, hall⟩ | h
        · refine Or.inr ⟨0, spot, by simp, hfree, by rw [hstep, hres]; rfl, hlt, ?_, ?_⟩
          · intro k s hk hs
            cases k with
            | zero => simp at hk; rw [← hk]
            | succ k => exact hall k s (by simpa using hk) hs
          · intro k s hk; omega
        · obtain ⟨j, sj, hj, hjf, hres, hjlt, hmin, hfirst⟩ := h
          refine Or.inr ⟨j + 1, sj, by simpa using hj, hjf, ?_, lt_trans hjlt hlt, ?_, ?_⟩
          · rw [hstep, hres, Nat.add_assoc, Nat.add_comm 1 j]
          · intro k s hk hs
            cases k with
            | zero => simp at hk; rw [← hk]; exact le_of_lt hjlt
            | succ k => exact hmin k s (by simpa using hk) hs
          · intro k s hkj hk hs
            cases k with
            | zero => simp at hk; rw [← hk]; exact hjlt
            | succ k => exact hfirst k s (by omega) (by simpa using hk) hs
      · have hstep : ADASPathPoint.RequestSpot_loop env loc (spot :: rest) i closest d
            = ADASPathPoint.RequestSpot_loop env loc rest (i + 1) closest d := by
          simp [ADASPathPoint.RequestSpot_loop, hfree, hlt]
        rcases ih (i + 1) closest d with ⟨hres, hall⟩ | h
        · refine Or.inl ⟨by rw [hstep, hres], ?_⟩
          intro k s hk hs
          cases k with
          | zero => simp at hk; rw [← hk]; exact le_of_not_lt hlt
          | succ k => exact hall k s (by simpa using hk) hs
        · obtain ⟨j, sj, hj, hjf, hres, hjlt, hmin, hfirst⟩ := h
          refine Or.inr ⟨j + 1, sj, by simpa using hj, hjf, ?_, hjlt, ?_, ?_⟩
          · rw [hstep, hres, Nat.add_assoc, Nat.add_comm 1 j]
          · intro k s hk hs
            cases k with
            | zero => simp at hk; rw [← hk]; exact le_of_lt (lt_of_lt_of_le hjlt (le_of_not_lt hlt))
            | succ k => exact hmin k s (by simpa using hk) hs
          · intro k s hkj hk hs
            cases k with
            | zero => simp at hk; rw [← hk]; exact lt_of_lt_of_le hjlt (le_of_not_lt hlt)
            | succ k => exact hfirst k s (by omega) (by simpa using hk) hs
    · have hstep : ADASPathPoint.RequestSpot_loop env loc (spot :: rest) i closest d
          = ADASPathPoint.RequestSpot_loop env loc rest (i + 1) closest d := by
        simp [ADASPathPoint.RequestSpot_loop, hfree]
      rcases ih (i + 1) closest d with ⟨hres, hall⟩ | h
      · refine Or.inl ⟨by rw [hstep, hres], ?_⟩
        intro k s hk hs
        cases k with
        | zero => simp at hk; rw [← hk] at hs; exact absurd hs hfree
        | succ k => exact hall k s (by simpa using hk) hs
      · obtain ⟨j, sj, hj, hjf, hres, hjlt, hmin, hfirst⟩ := h
        refine Or.inr ⟨j + 1, sj, by simpa using hj, hjf, ?_, hjlt, ?_, ?_⟩
        · rw [hstep, hres, Nat.add_assoc, Nat.add_comm 1 j]
        · intro k s hk hs
          cases k with
          | zero => simp at hk; rw [← hk] at hs; exact absurd hs hfree
          | succ k => exact hmin k s (by simpa using hk) hs
        · intro k s hkj hk hs
          cases k with
          | zero => simp at hk; rw [← hk] at hs; exact absurd hs hfree
          | succ k => exact hfirst k s (by omega) (by simpa using hk) hs

theorem ReleaseSpot_length (Querier : Option Nat) :
    ∀ Spots : List FDASSpot, (ADASPathPoint.ReleaseSpot Spots Querier).length = Spots.length := by
  intro Spots
  induction Spots with
  | nil => rfl
  | cons spot rest ih =>
    by_cases h : spot.SpotOwner = Querier <;> simp [ADASPathPoint.ReleaseSpot, h, ih]

/-- The result of `RequestSpot` for a valid querier on a non-empty spot list, in terms
of the search loop run on the list after the release. -/
theorem RequestSpot_eq (env : SpotEnv) (Spots : List FDASSpot) (OutSpot : FDASSpot) (q : Nat)
    (hne : Spots ≠ []) (hq : env.IsValid q = true) :
    ADASPathPoint.RequestSpot env Spots OutSpot (some q) =
      match (ADASPathPoint.RequestSpot_loop env (env.GetActorLocation q)
          (ADASPathPoint.ReleaseSpot Spots (some q)) 0 none FLT_MAX).1 with
      | some i =>
        (((ADASPathPoint.ReleaseSpot Spots (some q)).modify
            (fun spot => spot.TakeSpot env (some q)) i).getD i OutSpot,
          (ADASPathPoint.ReleaseSpot Spots (some q)).modify
            (fun spot => spot.TakeSpot env (some q)) i)
      | none => ((ADASPathPoint.ReleaseSpot Spots (some q)).getD 0 OutSpot,
          ADASPathPoint.ReleaseSpot Spots (some q)) := by
  cases Spots with
  | nil => exact absurd rfl hne
  | cons s0 rest => simp only [ADASPathPoint.RequestSpot, hq, if_true]

/-- Without a free spot whose stored squared distance is below `FLT_MAX` nothing is
claimed: a point has one spot, free, whose squared distance to the valid querier is
`2 ^ 128`, an infinity as a `float` and not below `FLT_MAX`; `RequestSpot` returns that
spot and leaves it, in the list and in the copy returned, without owner. -/
theorem RequestSpot_far_spot_not_claimed :
    originEnv.IsValid 1 = true ∧ farSpot.IsFree originEnv = true ∧
      ADASPathPoint.RequestSpot originEnv [farSpot] ⟨⟨⟨0, 0, 0⟩⟩, none⟩ (some 1)
        = (farSpot, [farSpot]) ∧
      farSpot.SpotOwner = none := by
  refine ⟨rfl, rfl, ?_, rfl⟩
  rw [RequestSpot_eq _ _ _ _ (by simp) rfl]
  norm_num [ADASPathPoint.ReleaseSpot, ADASPathPoint.RequestSpot_loop, FDASSpot.IsFree,
    FDASSpot.IsTaken, SpotEnv.IsValidActor, FDASSpot.FreeSpot, spotDistance,
    FLT_MAX, farSpot, originEnv, roundToFloat_two_pow_128]

/-- For a valid querier, if after the release of the querier's own spot some free spot
has a stored squared distance below `FLT_MAX`, the spot `RequestSpot` claims is a free
spot whose stored distance is minimal, the first such spot of the array. -/
theorem RequestSpot_closest_free (env : SpotEnv) (Spots : List FDASSpot)
    (OutSpot : FDASSpot) (q : Nat) (hq : env.IsValid q = true)
    (hfree : ∃ (k : Nat) (s : FDASSpot),
      (ADASPathPoint.ReleaseSpot Spots (some q))[k]? = some s ∧ s.IsFree env = true ∧
        spotDistance env (env.GetActorLocation q) s < FLT_MAX) :
    ∃ (j : Nat) (sj : FDASSpot),
      (ADASPathPoint.ReleaseSpot Spots (some q))[j]? = some sj ∧ sj.IsFree env = true ∧
      (∀ (k : Nat) (s : FDASSpot),
        (ADASPathPoint.ReleaseSpot Spots (some q))[k]? = some s → s.IsFree env = true →
        spotDistance env (env.GetActorLocation q) sj
          ≤ spotDistance env (env.GetActorLocation q) s) ∧
      (∀ (k : Nat) (s : FDASSpot), k < j →
        (ADASPathPoint.ReleaseSpot Spots (some q))[k]? = some s → s.IsFree env = true →
        spotDistance env (env.GetActorLocation q) sj
          < spotDistance env (env.GetActorLocation q) s) ∧
      (ADASPathPoint.RequestSpot env Spots OutSpot (some q)).1
        = { sj with SpotOwner := some q } ∧
      (ADASPathPoint.RequestSpot env Spots OutSpot (some q)).2[j]?
        = some { sj with SpotOwner := some q } ∧
      (∀ (k : Nat), k ≠ j →
        (ADASPathPoint.RequestSpot env Spots OutSpot (some q)).2[k]?
          = (ADASPathPoint.ReleaseSpot Spots (some q))[k]?) ∧
      (ADASPathPoint.RequestSpot env Spots OutSpot (some q)).2.length = Spots.length := by
  have hne : Spots ≠ [] := by
    intro h
    obtain ⟨k, s, hk, _⟩ := hfree
    rw [h] at hk
    simp [ADASPathPoint.ReleaseSpot] at hk
  rcases RequestSpot_loop_spec env (env.GetActorLocation q)
      (ADASPathPoint.ReleaseSpot Spots (some q)) 0 none FLT_MAX with ⟨_, hall⟩ | h
  · obtain ⟨k, s, hk, hs, hlt⟩ := hfree
    exact absurd (hall k s hk hs) (not_le_of_lt hlt)
  · obtain ⟨j, sj, hj, hjf, hres, _, hmin, hfirst⟩ := h
    have htake : sj.TakeSpot env (some q) = { sj with SpotOwner := some q } := by
      simp [FDASSpot.TakeSpot, hjf]
    have hmod : ((ADASPathPoint.ReleaseSpot Spots (some q)).modify
        (fun spot => spot.TakeSpot env (some q)) j)[j]?
          = some { sj with SpotOwner := some q } := by
      rw [List.getElem?_modify_eq, hj, ← htake]
      rfl
    rw [RequestSpot_eq env Spots OutSpot q hne hq, hres]
    simp only [Nat.zero_add]
    refine ⟨j, sj, hj, hjf, hmin, hfirst, ?_, hmod, ?_, ?_⟩
    · rw [List.getD_eq_getElem?_getD, hmod]
      rfl
    · intro k hk
      exact List.getElem?_modify_ne _ _ (Ne.symm hk)
    · rw [List.length_modify, ReleaseSpot_length]

theorem ReleaseSpot_owned_le (Querier : Option Nat) (a : Nat) :
    ∀ Spots : List FDASSpot,
      spotsOwnedBy (ADASPathPoint.ReleaseSpot Spots Querier) a ≤ spotsOwnedBy Spots a := by
  intro Spots
  induction Spots with
  | nil => simp [ADASPathPoint.ReleaseSpot]
  | cons spot rest ih =>
    unfold spotsOwnedBy at ih ⊢
    by_cases h : spot.SpotOwner = Querier
    · simp only [ADASPathPoint.ReleaseSpot, h, if_true, List.countP_cons, FDASSpot.FreeSpot]
      simp
    · simp only [ADASPathPoint.ReleaseSpot, h, if_false, List.countP_cons]
      omega

theorem ReleaseSpot_owned_self (q : Nat) :
    ∀ Spots : List FDASSpot,
      spotsOwnedBy (ADASPathPoint.ReleaseSpot Spots (some q)) q = spotsOwnedBy Spots q - 1 := by
  intro Spots
  induction Spots with
  | nil => simp [ADASPathPoint.ReleaseSpot, spotsOwnedBy]
  | cons spot rest ih =>
    unfold spotsOwnedBy at ih ⊢
    by_cases h : spot.SpotOwner = some q
    · simp [ADASPathPoint.ReleaseSpot, h, List.countP_cons, FDASSpot.FreeSpot]
    · simp only [ADASPathPoint.ReleaseSpot, h, if_false, List.countP_cons, ih]
      simp [h]

theorem countP_modify_le (p : FDASSpot → Bool) (f : FDASSpot → FDASSpot) :
    ∀ (l : List FDASSpot) (i : Nat),
      List.countP p (l.modify f i) ≤ List.countP p l + 1 ∧
        ((∀ s, p (f s) = true → p s = true) →
          List.countP p (l.modify f i) ≤ List.countP p l) := by
  intro l
  induction l with
  | nil => intro i; simp
  | cons x rest ih =>
    intro i
    cases i with
    | zero =>
      simp only [List.modify_zero_cons, List.countP_cons]
      constructor
      · split <;> split <;> omega
      · intro h
        by_cases hx : p (f x) = true
        · simp [hx, h x hx]
        · simp [hx]
    | succ i =>
      simp only [List.modify_succ_cons, List.countP_cons]
      obtain ⟨h1, h2⟩ := ih i
      exact ⟨by omega, fun h => by have := h2 h; omega⟩

/-- The list `RequestSpot` leaves is the list after the release, with at most one spot
passed through `TakeSpot`. -/
theorem RequestSpot_snd (env : SpotEnv) (Spots : List FDASSpot) (OutSpot : FDASSpot)
    (Querier : Option Nat) :
    (ADASPathPoint.RequestSpot env Spots OutSpot Querier).2
        = ADASPathPoint.ReleaseSpot Spots Querier ∨
      ∃ i : Nat, (ADASPathPoint.RequestSpot env Spots OutSpot Querier).2
        = (ADASPathPoint.ReleaseSpot Spots Querier).modify
            (fun spot => spot.TakeSpot env Querier) i := by
  cases Spots with
  | nil => exact Or.inl rfl
  | cons s0 rest =>
    simp only [ADASPathPoint.RequestSpot]
    split
    · exact Or.inr ⟨_, rfl⟩
    · exact Or.inl rfl

theorem spotCall_keeps_owned (Spots : List FDASSpot) (c : SpotCall)
    (h : ∀ a, spotsOwnedBy Spots a ≤ 1) :
    ∀ a, spotsOwnedBy (ADASPathPoint.spotCall Spots c) a ≤ 1 := by
  intro a
  cases c with
  | ReleaseSpot Querier =>
    exact le_trans (ReleaseSpot_owned_le Querier a Spots) (h a)
  | RequestSpot env OutSpot Querier =>
    simp only [ADASPathPoint.spotCall]
    rcases RequestSpot_snd env Spots OutSpot Querier with h1 | ⟨i, h1⟩
    · rw [h1]
      exact le_trans (ReleaseSpot_owned_le Querier a Spots) (h a)
    · rw [h1]
      have hm := countP_modify_le (fun s => decide (s.SpotOwner = some a))
        (fun spot => spot.TakeSpot env Querier) (ADASPathPoint.ReleaseSpot Spots Querier) i
      by_cases hq : Querier = some a
      · have h0 : spotsOwnedBy (ADASPathPoint.ReleaseSpot Spots Querier) a = 0 := by
          rw [hq, ReleaseSpot_owned_self]
          have := h a
          omega
        unfold spotsOwnedBy at h0 ⊢
        have := hm.1
        omega
      · have hle : spotsOwnedBy (ADASPathPoint.spotCall Spots (SpotCall.ReleaseSpot Querier)) a
            ≤ 1 := le_trans (ReleaseSpot_owned_le Querier a Spots) (h a)
        simp only [ADASPathPoint.spotCall] at hle
        unfold spotsOwnedBy at hle ⊢
        refine le_trans (hm.2 ?_) hle
        intro s hs
        simp only [decide_eq_true_eq] at hs ⊢
        unfold FDASSpot.TakeSpot at hs
        split at hs
        · exact absurd hs hq
        · exact hs

theorem spotCall_length (Spots : List FDASSpot) (c : SpotCall) :
    (ADASPathPoint.spotCall Spots c).length = Spots.length := by
  cases c with
  | ReleaseSpot Querier => exact ReleaseSpot_length Querier Spots
  | RequestSpot env OutSpot Querier =>
    simp only [ADASPathPoint.spotCall]
    rcases RequestSpot_snd env Spots OutSpot Querier with h1 | ⟨i, h1⟩
    · rw [h1, ReleaseSpot_length]
    · rw [h1, List.length_modify, ReleaseSpot_length]

/-- C11: starting from a spot list in which no actor owns more than one spot, after
every sequence of `RequestSpot` and `ReleaseSpot` calls, by any queriers and in any
engine states, no actor owns more than one spot; each spot has the single owner its
`SpotOwner` field holds, the number of spots is unchanged, and the distinct actors
owning a spot are at most as many as there are spots. -/
theorem spot_exclusivity (Spots : List FDASSpot) (calls : List SpotCall)
    (h : ∀ a, spotsOwnedBy Spots a ≤ 1) :
    (∀ a, spotsOwnedBy (ADASPathPoint.spotCalls Spots calls) a ≤ 1) ∧
      (ADASPathPoint.spotCalls Spots calls).length = Spots.length ∧
      (spotOwners (ADASPathPoint.spotCalls Spots calls)).length ≤ Spots.length := by
  have key : ∀ (cs : List SpotCall) (S : List FDASSpot), (∀ a, spotsOwnedBy S a ≤ 1) →
      (∀ a, spotsOwnedBy (ADASPathPoint.spotCalls S cs) a ≤ 1) ∧
        (ADASPathPoint.spotCalls S cs).length = S.length := by
    intro cs
    induction cs with
    | nil => intro S hS; exact ⟨hS, rfl⟩
    | cons c rest ih =>
      intro S hS
      obtain ⟨h1, h2⟩ := ih (ADASPathPoint.spotCall S c) (spotCall_keeps_owned S c hS)
      exact ⟨h1, by rw [ADASPathPoint.spotCalls, h2, spotCall_length]⟩
  obtain ⟨h1, h2⟩ := key calls Spots h
  refine ⟨h1, h2, ?_⟩
  rw [← h2]
  unfold spotOwners
  exact le_trans (List.Sublist.length_le (List.dedup_sublist _))
    (List.length_filterMap_le _ _)

theorem threeSpots_owned (a : Nat) : spotsOwnedBy threeSpots a ≤ 1 := by
  by_cases h1 : a = 1
  · subst h1; decide
  · by_cases h5 : a = 5
    · subst h5; decide
    · have e1 : ¬ (1 = a) := fun h => h1 h.symm
      have e5 : ¬ (5 = a) := fun h => h5 h.symm
      simp [spotsOwnedBy, threeSpots, List.countP_cons, e1, e5]

theorem spot_exclusivity_witness :
    (∀ a, spotsOwnedBy threeSpots a ≤ 1) ∧
      (∀ a, spotsOwnedBy (ADASPathPoint.spotCalls threeSpots
        [SpotCall.RequestSpot originEnv farSpot (some 1), SpotCall.ReleaseSpot (some 5),
          SpotCall.RequestSpot originEnv farSpot (some 7)]) a ≤ 1) :=
  ⟨threeSpots_owned,
    (spot_exclusivity threeSpots
      [SpotCall.RequestSpot originEnv farSpot (some 1), SpotCall.ReleaseSpot (some 5),
        SpotCall.RequestSpot originEnv farSpot (some 7)] threeSpots_owned).1⟩

theorem ReleaseSpot_of_not_owner (Querier : Option Nat) :
    ∀ Spots : List FDASSpot, (∀ s ∈ Spots, s.SpotOwner ≠ Querier) →
      ADASPathPoint.ReleaseSpot Spots Querier = Spots := by
  intro Spots
  induction Spots with
  | nil => intro _; rfl
  | cons spot rest ih =>
    intro h
    have h0 : ¬ spot.SpotOwner = Querier := h spot (List.mem_cons_self _ _)
    simp only [ADASPathPoint.ReleaseSpot, h0, if_false]
    rw [ih (fun s hs => h s (List.mem_cons_of_mem _ hs))]

theorem RequestSpot_loop_none_free (env : SpotEnv) (loc : FVector) :
    ∀ (rest : List FDASSpot) (i : Nat) (closest : Option Nat) (d : ℚ),
      (∀ s ∈ rest, s.IsTaken env = true) →
      ADASPathPoint.RequestSpot_loop env loc rest i closest d = (closest, d) := by
  intro rest
  induction rest with
  | nil => intro i closest d _; rfl
  | cons spot rest ih =>
    intro i closest d h
    have h0 : ¬ spot.IsFree env = true := by
      simp [FDASSpot.IsFree, h spot (List.mem_cons_self _ _)]
    simp only [ADASPathPoint.RequestSpot_loop, h0, if_false]
    exact ih (i + 1) closest d (fun s hs => h s (List.mem_cons_of_mem _ hs))

/-- C12: on a non-empty spot list in which every spot is taken by an actor other than
the querier, `RequestSpot` returns the first spot of the list and leaves the list as it
was, so no spot is owned by the querier after the call. -/
theorem RequestSpot_all_taken (env : SpotEnv) (Spots : List FDASSpot) (OutSpot : FDASSpot)
    (Querier : Option Nat) (hne : Spots ≠ [])
    (hall : ∀ s ∈ Spots, s.IsTaken env = true ∧ s.SpotOwner ≠ Querier) :
    Spots.head? = some (ADASPathPoint.RequestSpot env Spots OutSpot Querier).1 ∧
      (ADASPathPoint.RequestSpot env Spots OutSpot Querier).2 = Spots ∧
      ∀ s ∈ (ADASPathPoint.RequestSpot env Spots OutSpot Querier).2, s.SpotOwner ≠ Querier := by
  have hrel : ADASPathPoint.ReleaseSpot Spots Querier = Spots :=
    ReleaseSpot_of_not_owner Querier Spots (fun s hs => (hall s hs).2)
  cases Spots with
  | nil => exact absurd rfl hne
  | cons s0 rest =>
    have hloop : ∀ loc, (ADASPathPoint.RequestSpot_loop env loc (s0 :: rest) 0 none FLT_MAX).1
        = none := by
      intro loc
      rw [RequestSpot_loop_none_free env loc (s0 :: rest) 0 none FLT_MAX
        (fun s hs => (hall s hs).1)]
    have hres : ADASPathPoint.RequestSpot env (s0 :: rest) OutSpot Querier
        = (s0, s0 :: rest) := by
      simp only [ADASPathPoint.RequestSpot, hrel, hloop]
      rfl
    rw [hres]
    exact ⟨rfl, rfl, fun s hs => (hall s hs).2⟩

theorem RequestSpot_all_taken_witness :
    (∀ s ∈ [(⟨⟨⟨1, 0, 0⟩⟩, some 1⟩ : FDASSpot), ⟨⟨⟨2, 0, 0⟩⟩, some 5⟩],
        s.IsTaken originEnv = true ∧ s.SpotOwner ≠ some 7) ∧
      (ADASPathPoint.RequestSpot originEnv
        [(⟨⟨⟨1, 0, 0⟩⟩, some 1⟩ : FDASSpot), ⟨⟨⟨2, 0, 0⟩⟩, some 5⟩] farSpot (some 7)).2
        = [(⟨⟨⟨1, 0, 0⟩⟩, some 1⟩ : FDASSpot), ⟨⟨⟨2, 0, 0⟩⟩, some 5⟩] := by
  have h : ∀ s ∈ [(⟨⟨⟨1, 0, 0⟩⟩, some 1⟩ : FDASSpot), ⟨⟨⟨2, 0, 0⟩⟩, some 5⟩],
      s.IsTaken originEnv = true ∧ s.SpotOwner ≠ some 7 := by
    intro s hs
    simp only [List.mem_cons, List.mem_singleton, List.not_mem_nil, or_false] at hs
    rcases hs with hs | hs <;> subst hs <;>
      simp [FDASSpot.IsTaken, SpotEnv.IsValidActor, originEnv]
  exact ⟨h, (RequestSpot_all_taken originEnv _ farSpot (some 7) (by simp) h).2.1⟩

theorem spotsOwnedBy_cons (spot : FDASSpot) (rest : List FDASSpot) (a : Nat) :
    spotsOwnedBy (spot :: rest) a
      = spotsOwnedBy rest a + (if spot.SpotOwner = some a then 1 else 0) := by
  unfold spotsOwnedBy
  rw [List.countP_cons]
  by_cases h : spot.SpotOwner = some a <;> simp [h]

theorem spotsOwnedBy_zero (Spots : List FDASSpot) (a : Nat) (h : spotsOwnedBy Spots a = 0) :
    ∀ s ∈ Spots, s.SpotOwner ≠ some a := by
  unfold spotsOwnedBy at h
  rw [List.countP_eq_zero] at h
  intro s hs
  simpa using h s hs

/-- In a list in which actor `a` owns at most one spot, `ReleaseSpot( a )` frees the spot
of `a` and leaves every other spot as it is. -/
theorem ReleaseSpot_entry (a : Nat) :
    ∀ Spots : List FDASSpot, spotsOwnedBy Spots a ≤ 1 →
      ∀ (k : Nat) (s : FDASSpot), Spots[k]? = some s →
        (ADASPathPoint.ReleaseSpot Spots (some a))[k]?
          = some (if s.SpotOwner = some a then s.FreeSpot else s) := by
  intro Spots
  induction Spots with
  | nil => intro _ k s h; simp at h
  | cons spot rest ih =>
    intro hone k s hk
    rw [spotsOwnedBy_cons] at hone
    by_cases h : spot.SpotOwner = some a
    · rw [if_pos h] at hone
      have hrest : ∀ x ∈ rest, x.SpotOwner ≠ some a :=
        spotsOwnedBy_zero rest a (by omega)
      have hrel : ADASPathPoint.ReleaseSpot (spot :: rest) (some a)
          = spot.FreeSpot :: rest := by
        simp [ADASPathPoint.ReleaseSpot, h]
      rw [hrel]
      cases k with
      | zero =>
        have e : spot = s := by simpa using hk
        subst e
        simp [h]
      | succ k =>
        have hk2 : rest[k]? = some s := by simpa using hk
        have hs : s ∈ rest := List.getElem?_mem hk2
        simp [hk2, hrest s hs]
    · rw [if_neg h] at hone
      have hrel : ADASPathPoint.ReleaseSpot (spot :: rest) (some a)
          = spot :: ADASPathPoint.ReleaseSpot rest (some a) := by
        simp [ADASPathPoint.ReleaseSpot, h]
      rw [hrel]
      cases k with
      | zero =>
        have e : spot = s := by simpa using hk
        subst e
        simp [h]
      | succ k =>
        have hk2 : rest[k]? = some s := by simpa using hk
        simpa using ih (by omega) k s hk2

/-- In a list in which actor `a` owns at most one spot, two spots owned by `a` are the
same entry. -/
theorem spotsOwnedBy_unique (a : Nat) :
    ∀ (Spots : List FDASSpot), spotsOwnedBy Spots a ≤ 1 →
      ∀ (i k : Nat) (si s : FDASSpot), Spots[i]? = some si → si.SpotOwner = some a →
        Spots[k]? = some s → s.SpotOwner = some a → k = i := by
  intro Spots
  induction Spots with
  | nil => intro _ i k si s h; simp at h
  | cons spot rest ih =>
    intro hone i k si s hi hsi hk hs
    rw [spotsOwnedBy_cons] at hone
    cases i with
    | zero =>
      have e : spot = si := by simpa using hi
      subst e
      rw [if_pos hsi] at hone
      cases k with
      | zero => rfl
      | succ k =>
        have hk2 : rest[k]? = some s := by simpa using hk
        exact absurd hs (spotsOwnedBy_zero rest a (by omega) s (List.getElem?_mem hk2))
    | succ i =>
      have hi2 : rest[i]? = some si := by simpa using hi
      cases k with
      | zero =>
        have e : spot = s := by simpa using hk
        subst e
        rw [if_pos hs] at hone
        exact absurd hsi (spotsOwnedBy_zero rest a (by omega) si (List.getElem?_mem hi2))
      | succ k =>
        have hk2 : rest[k]? = some s := by simpa using hk
        have hle : spotsOwnedBy rest a ≤ 1 := by omega
        rw [ih hle i k si s hi2 hsi hk2 hs]

/-- The call `ReleaseSpot( nullptr )` changes nothing: the spot `FindByKey` finds has no
owner already. -/
theorem ReleaseSpot_null :
    ∀ Spots : List FDASSpot, ADASPathPoint.ReleaseSpot Spots none = Spots := by
  intro Spots
  induction Spots with
  | nil => rfl
  | cons spot rest ih =>
    by_cases h : spot.SpotOwner = none
    · rcases spot with ⟨t, o⟩
      simp only at h
      subst h
      simp [ADASPathPoint.ReleaseSpot, FDASSpot.FreeSpot]
    · simp only [ADASPathPoint.ReleaseSpot, h, if_false, ih]

/-- C13, as stated, fails in its last part. Two free spots lie at `(1, 0, 0)` and
`(3, 0, 0)`; actor 1 stands at the origin and actor 5 at `(3, 0, 0)`. After
`RequestSpot( 1 )` and `RequestSpot( 5 )` actor 1 owns the first spot and actor 5 the
second. `ReleaseSpot( 1 )` frees the first spot, which is then the only free spot. The
next `RequestSpot` is made by actor 5, a different actor: it releases the spot of actor 5,
finds two free spots, claims the closer second one again, and leaves the spot released
by actor 1 free. Also an actor that owns no spot can leave the only free spot unclaimed:
actor 1, standing at the single spot `farSpot`, claims it and releases it; the next
`RequestSpot`, by actor 7 at the origin, finds the stored squared distance `2 ^ 128` not
below `FLT_MAX` and claims nothing. -/
theorem released_spot_stays_free :
    apartEnv.IsValid 1 = true ∧ apartEnv.IsValid 5 = true ∧
      ADASPathPoint.spotCalls twoSpots
          [SpotCall.RequestSpot apartEnv ⟨⟨⟨0, 0, 0⟩⟩, none⟩ (some 1),
            SpotCall.RequestSpot apartEnv ⟨⟨⟨0, 0, 0⟩⟩, none⟩ (some 5)]
        = [⟨⟨⟨1, 0, 0⟩⟩, some 1⟩, ⟨⟨⟨3, 0, 0⟩⟩, some 5⟩] ∧
      ADASPathPoint.ReleaseSpot [⟨⟨⟨1, 0, 0⟩⟩, some 1⟩, ⟨⟨⟨3, 0, 0⟩⟩, some 5⟩] (some 1)
        = [⟨⟨⟨1, 0, 0⟩⟩, none⟩, ⟨⟨⟨3, 0, 0⟩⟩, some 5⟩] ∧
      (⟨⟨⟨1, 0, 0⟩⟩, none⟩ : FDASSpot).IsFree apartEnv = true ∧
      (⟨⟨⟨3, 0, 0⟩⟩, some 5⟩ : FDASSpot).IsFree apartEnv = false ∧
      ADASPathPoint.RequestSpot apartEnv
          [⟨⟨⟨1, 0, 0⟩⟩, none⟩, ⟨⟨⟨3, 0, 0⟩⟩, some 5⟩] ⟨⟨⟨0, 0, 0⟩⟩, none⟩ (some 5)
        = (⟨⟨⟨3, 0, 0⟩⟩, some 5⟩,
            [⟨⟨⟨1, 0, 0⟩⟩, none⟩, ⟨⟨⟨3, 0, 0⟩⟩, some 5⟩]) ∧
      remoteEnv.IsValid 1 = true ∧ remoteEnv.IsValid 7 = true ∧
      ADASPathPoint.RequestSpot remoteEnv [farSpot] ⟨⟨⟨0, 0, 0⟩⟩, none⟩ (some 1)
        = ({ farSpot with SpotOwner := some 1 }, [{ farSpot with SpotOwner := some 1 }]) ∧
      ADASPathPoint.ReleaseSpot [{ farSpot with SpotOwner := some 1 }] (some 1)
        = [farSpot] ∧
      farSpot.IsFree remoteEnv = true ∧
      ADASPathPoint.RequestSpot remoteEnv [farSpot] ⟨⟨⟨0, 0, 0⟩⟩, none⟩ (some 7)
        = (farSpot, [farSpot]) := by
  have e1 : ADASPathPoint.RequestSpot apartEnv twoSpots ⟨⟨⟨0, 0, 0⟩⟩, none⟩ (some 1)
      = (⟨⟨⟨1, 0, 0⟩⟩, some 1⟩, [⟨⟨⟨1, 0, 0⟩⟩, some 1⟩, ⟨⟨⟨3, 0, 0⟩⟩, none⟩]) := by
    rw [RequestSpot_eq _ _ _ _ (by simp [twoSpots]) rfl]
    norm_num [ADASPathPoint.ReleaseSpot, ADASPathPoint.RequestSpot_loop, FDASSpot.IsFree,
      FDASSpot.IsTaken, SpotEnv.IsValidActor, FDASSpot.FreeSpot, FDASSpot.TakeSpot,
      spotDistance, FLT_MAX, twoSpots, apartEnv, originEnv, roundToFloat_one,
      roundToFloat_nine]
  have e2 : ADASPathPoint.RequestSpot apartEnv
      [⟨⟨⟨1, 0, 0⟩⟩, some 1⟩, ⟨⟨⟨3, 0, 0⟩⟩, none⟩] ⟨⟨⟨0, 0, 0⟩⟩, none⟩ (some 5)
      = (⟨⟨⟨3, 0, 0⟩⟩, some 5⟩, [⟨⟨⟨1, 0, 0⟩⟩, some 1⟩, ⟨⟨⟨3, 0, 0⟩⟩, some 5⟩]) := by
    rw [RequestSpot_eq _ _ _ _ (by simp) rfl]
    norm_num [ADASPathPoint.ReleaseSpot, ADASPathPoint.RequestSpot_loop, FDASSpot.IsFree,
      FDASSpot.IsTaken, SpotEnv.IsValidActor, FDASSpot.FreeSpot, FDASSpot.TakeSpot,
      spotDistance, FLT_MAX, apartEnv, originEnv, roundToFloat_zero]
  have e3 : ADASPathPoint.RequestSpot apartEnv
      [⟨⟨⟨1, 0, 0⟩⟩, none⟩, ⟨⟨⟨3, 0, 0⟩⟩, some 5⟩] ⟨⟨⟨0, 0, 0⟩⟩, none⟩ (some 5)
      = (⟨⟨⟨3, 0, 0⟩⟩, some 5⟩, [⟨⟨⟨1, 0, 0⟩⟩, none⟩, ⟨⟨⟨3, 0, 0⟩⟩, some 5⟩]) := by
    have hr : ADASPathPoint.ReleaseSpot
        [⟨⟨⟨1, 0, 0⟩⟩, none⟩, ⟨⟨⟨3, 0, 0⟩⟩, some 5⟩] (some 5)
        = [⟨⟨⟨1, 0, 0⟩⟩, none⟩, ⟨⟨⟨3, 0, 0⟩⟩, none⟩] := by
      simp [ADASPathPoint.ReleaseSpot, FDASSpot.FreeSpot]
    rw [RequestSpot_eq _ _ _ _ (by simp) rfl, hr]
    norm_num [ADASPathPoint.RequestSpot_loop, FDASSpot.IsFree,
      FDASSpot.IsTaken, SpotEnv.IsValidActor, FDASSpot.TakeSpot,
      spotDistance, FLT_MAX, apartEnv, originEnv, roundToFloat_zero, roundToFloat_four]
  have f1 : ADASPathPoint.RequestSpot remoteEnv [farSpot] ⟨⟨⟨0, 0, 0⟩⟩, none⟩ (some 1)
      = ({ farSpot with SpotOwner := some 1 }, [{ farSpot with SpotOwner := some 1 }]) := by
    rw [RequestSpot_eq _ _ _ _ (by simp) rfl]
    norm_num [ADASPathPoint.ReleaseSpot, ADASPathPoint.RequestSpot_loop, FDASSpot.IsFree,
      FDASSpot.IsTaken, SpotEnv.IsValidActor, FDASSpot.FreeSpot, FDASSpot.TakeSpot,
      spotDistance, FLT_MAX, farSpot, remoteEnv, originEnv, roundToFloat_zero]
  have f2 : ADASPathPoint.RequestSpot remoteEnv [farSpot] ⟨⟨⟨0, 0, 0⟩⟩, none⟩ (some 7)
      = (farSpot, [farSpot]) := by
    rw [RequestSpot_eq _ _ _ _ (by simp) rfl]
    norm_num [ADASPathPoint.ReleaseSpot, ADASPathPoint.RequestSpot_loop, FDASSpot.IsFree,
      FDASSpot.IsTaken, SpotEnv.IsValidActor, FDASSpot.FreeSpot, spotDistance,
      FLT_MAX, farSpot, remoteEnv, originEnv, roundToFloat_two_pow_128]
  refine ⟨rfl, rfl, ?_, ?_, ?_, ?_, e3, rfl, rfl, f1, ?_, rfl, f2⟩
  · simp only [ADASPathPoint.spotCalls, ADASPathPoint.spotCall, e1, e2]
  · simp [ADASPathPoint.ReleaseSpot, FDASSpot.FreeSpot]
  · simp [FDASSpot.IsFree, FDASSpot.IsTaken, SpotEnv.IsValidActor]
  · simp [FDASSpot.IsFree, FDASSpot.IsTaken, SpotEnv.IsValidActor, apartEnv, originEnv]
  · simp [ADASPathPoint.ReleaseSpot, FDASSpot.FreeSpot, farSpot]

/-- C13 (amended): in a spot list in which the querier owns at most one spot, as in
every list that `RequestSpot` and `ReleaseSpot` calls make of a list without owners,
after `ReleaseSpot( querier )` no spot is owned by the querier: the spot it owned is
free and every other spot is what it was, so a list without a spot of the querier is
unchanged; `ReleaseSpot( nullptr )` changes nothing. The released spot is claimed by
the next `RequestSpot` of a different, valid actor that owns no spot of the list, when
every other spot is taken and the squared distance of the released spot to that actor,
as stored in a `float`, is below `FLT_MAX`; the other spots stay as they were. -/
theorem ReleaseSpot_effect (env : SpotEnv) (Spots : List FDASSpot) (OutSpot : FDASSpot)
    (a b : Nat) (hone : spotsOwnedBy Spots a ≤ 1) :
    (∀ s ∈ ADASPathPoint.ReleaseSpot Spots (some a), s.SpotOwner ≠ some a) ∧
      (ADASPathPoint.ReleaseSpot Spots (some a)).length = Spots.length ∧
      (∀ (k : Nat) (s : FDASSpot), Spots[k]? = some s →
        (ADASPathPoint.ReleaseSpot Spots (some a))[k]?
          = some (if s.SpotOwner = some a then { s with SpotOwner := none } else s)) ∧
      ((∀ s ∈ Spots, s.SpotOwner ≠ some a) →
        ADASPathPoint.ReleaseSpot Spots (some a) = Spots) ∧
      ADASPathPoint.ReleaseSpot Spots none = Spots ∧
      (∀ (i : Nat) (si : FDASSpot), Spots[i]? = some si → si.SpotOwner = some a →
        b ≠ a → env.IsValid b = true →
        (∀ (k : Nat) (s : FDASSpot), k ≠ i → Spots[k]? = some s →
          s.IsTaken env = true ∧ s.SpotOwner ≠ some b) →
        roundToFloat (env.Vector_DistanceSquared
          (env.TransformPosition si.Transform.Location) (env.GetActorLocation b))
            < FLT_MAX →
        (ADASPathPoint.RequestSpot env (ADASPathPoint.ReleaseSpot Spots (some a)) OutSpot
            (some b)).1 = { si with SpotOwner := some b } ∧
        (ADASPathPoint.RequestSpot env (ADASPathPoint.ReleaseSpot Spots (some a)) OutSpot
            (some b)).2[i]? = some { si with SpotOwner := some b } ∧
        ∀ (k : Nat), k ≠ i →
          (ADASPathPoint.RequestSpot env (ADASPathPoint.ReleaseSpot Spots (some a)) OutSpot
            (some b)).2[k]? = Spots[k]?) := by
  have hentry := ReleaseSpot_entry a Spots hone
  have hlen := ReleaseSpot_length (some a) Spots
  refine ⟨?_, hlen, hentry, ReleaseSpot_of_not_owner (some a) Spots, ReleaseSpot_null Spots,
    ?_⟩
  · apply spotsOwnedBy_zero
    rw [ReleaseSpot_owned_self]
    omega
  · intro i si hi hown hba hvalid hothers hdist
    have hLi : (ADASPathPoint.ReleaseSpot Spots (some a))[i]? = some si.FreeSpot := by
      rw [hentry i si hi, if_pos hown]
    have hLk : ∀ (k : Nat), k ≠ i →
        (ADASPathPoint.ReleaseSpot Spots (some a))[k]? = Spots[k]? := by
      intro k hk
      cases hSk : Spots[k]? with
      | none =>
        rw [List.getElem?_eq_none_iff] at hSk ⊢
        rw [hlen]
        exact hSk
      | some s =>
        have hsa : ¬ s.SpotOwner = some a :=
          fun hs => hk (spotsOwnedBy_unique a Spots hone i k si s hi hown hSk hs)
        rw [hentry k s hSk, if_neg hsa]
    have hnb : ∀ s ∈ ADASPathPoint.ReleaseSpot Spots (some a), s.SpotOwner ≠ some b := by
      intro s hs
      obtain ⟨k, hk⟩ := List.getElem?_of_mem hs
      by_cases hki : k = i
      · rw [hki, hLi] at hk
        have e : si.FreeSpot = s := by simpa using hk
        rw [← e]
        simp [FDASSpot.FreeSpot]
      · rw [hLk k hki] at hk
        exact (hothers k s hki hk).2
    have hrel : ADASPathPoint.ReleaseSpot (ADASPathPoint.ReleaseSpot Spots (some a)) (some b)
        = ADASPathPoint.ReleaseSpot Spots (some a) :=
      ReleaseSpot_of_not_owner (some b) _ hnb
    have hfreei : si.FreeSpot.IsFree env = true := by
      simp [FDASSpot.IsFree, FDASSpot.IsTaken, FDASSpot.FreeSpot, SpotEnv.IsValidActor]
    obtain ⟨j, sj, hj, hjf, _, _, h1, h2, h3, _⟩ :=
      RequestSpot_closest_free env (ADASPathPoint.ReleaseSpot Spots (some a)) OutSpot b
        hvalid ⟨i, si.FreeSpot, by rw [hrel]; exact hLi, hfreei, hdist⟩
    rw [hrel] at hj h3
    have hji : j = i := by
      by_contra hne
      rw [hLk j hne] at hj
      have ht := (hothers j sj hne hj).1
      simp [FDASSpot.IsFree, ht] at hjf
    subst hji
    have e : sj = si.FreeSpot := by
      rw [hLi] at hj
      simpa using hj.symm
    subst e
    refine ⟨h1, h2, ?_⟩
    intro k hk
    rw [h3 k hk, hLk k hk]

theorem ReleaseSpot_effect_witness :
    spotsOwnedBy takenSpots 1 ≤ 1 ∧
      ADASPathPoint.ReleaseSpot takenSpots (some 1)
        = [⟨⟨⟨1, 0, 0⟩⟩, none⟩, ⟨⟨⟨3, 0, 0⟩⟩, some 5⟩] ∧
      (∀ s ∈ ADASPathPoint.ReleaseSpot takenSpots (some 1), s.SpotOwner ≠ some 1) ∧
      (ADASPathPoint.RequestSpot originEnv (ADASPathPoint.ReleaseSpot takenSpots (some 1))
        farSpot (some 7)).1 = ⟨⟨⟨1, 0, 0⟩⟩, some 7⟩ := by
  have hone : spotsOwnedBy takenSpots 1 ≤ 1 := by decide
  have h := ReleaseSpot_effect originEnv takenSpots farSpot 1 7 hone
  refine ⟨hone, ?_, h.1, ?_⟩
  · simp [takenSpots, ADASPathPoint.ReleaseSpot, FDASSpot.FreeSpot]
  · refine (h.2.2.2.2.2 0 ⟨⟨⟨1, 0, 0⟩⟩, some 1⟩ rfl rfl (by decide) rfl ?_ ?_).1
    · intro k s hk hs
      match k, hk, hs with
      | 0, hk, _ => exact absurd rfl hk
      | 1, _, hs =>
        have e : (⟨⟨⟨3, 0, 0⟩⟩, some 5⟩ : FDASSpot) = s := by simpa [takenSpots] using hs
        subst e
        simp [FDASSpot.IsTaken, SpotEnv.IsValidActor, originEnv]
      | k + 2, _, hs => simp [takenSpots] at hs
    · norm_num [FLT_MAX, originEnv, roundToFloat_one]

/-! ## Theorems: actions -/

/-- C20: a second `Execute( b )` on a running action returns the action unchanged, events
included, so it stays executing with the acting agent it had; `AsyncExecute` on a
running action changes nothing but the log, where its callback receives `Failed` when
it is bound; when the action was not running, the first `Execute( a )` starts it with
acting agent `a` and one start event. `FinishExecute` on an action that is not running
returns it unchanged; on a running action it clears the executing flag and the acting
agent, keeps the stored callback, and reports Success or Failed, after the value of its
argument, to the finish hook and to the stored callback when one is bound. -/
theorem UDASAction_single_execution (x : UDASAction) (a b d : Option Nat) (bSuccess : Bool) :
    (x.Execute a).bIsExecuting = true ∧
      (x.Execute a).Execute b = x.Execute a ∧
      (x.Execute a).AsyncExecute b d =
        { x.Execute a with events := (x.Execute a).events ++
            (match d with
              | some k => [ActionEvent.FinishExecutionDelegate k EDASExecutionResult.Failed]
              | none => []) } ∧
      (x.bIsExecuting = false →
        (x.Execute a).ActiveDASComponent = a ∧
        (x.Execute a).events = x.events ++ [ActionEvent.ReceiveExecute a] ∧
        ((x.Execute a).Execute b).ActiveDASComponent = a ∧
        ((x.Execute a).AsyncExecute b d).ActiveDASComponent = a ∧
        ((x.Execute a).AsyncExecute b d).ActiveFinishExecutionDelegate
          = x.ActiveFinishExecutionDelegate) ∧
      (x.bIsExecuting = false → x.FinishExecute bSuccess = x) ∧
      (x.bIsExecuting = true →
        (x.FinishExecute bSuccess).bIsExecuting = false ∧
        (x.FinishExecute bSuccess).ActiveDASComponent = none ∧
        (x.FinishExecute bSuccess).ActiveFinishExecutionDelegate
          = x.ActiveFinishExecutionDelegate ∧
        (x.FinishExecute bSuccess).events =
          x.events ++
            [ActionEvent.ClearTimersAndDelays,
             ActionEvent.ReceiveFinishExecute x.ActiveDASComponent
               (if bSuccess = true then EDASExecutionResult.Success
                else EDASExecutionResult.Failed)] ++
            (match x.ActiveFinishExecutionDelegate with
              | some k => [ActionEvent.FinishExecutionDelegate k
                  (if bSuccess = true then EDASExecutionResult.Success
                   else EDASExecutionResult.Failed)]
              | none => [])) := by
  have h1 : (x.Execute a).bIsExecuting = true := by
    unfold UDASAction.Execute
    by_cases h : x.bIsExecuting = false
    · rw [if_pos h]
    · rw [if_neg h]; simpa using h
  have e1 : (x.Execute a).Execute b = x.Execute a := by
    rw [UDASAction.Execute.eq_1 (x.Execute a) b, if_neg (by simp [h1])]
  have e2 : (x.Execute a).AsyncExecute b d =
      { x.Execute a with events := (x.Execute a).events ++
          (match d with
            | some k => [ActionEvent.FinishExecutionDelegate k EDASExecutionResult.Failed]
            | none => []) } := by
    unfold UDASAction.AsyncExecute
    rw [if_pos h1]
    cases d <;> simp
  refine ⟨h1, e1, e2, ?_, ?_, ?_⟩
  · intro hIdle
    have f1 : x.Execute a =
        { x with ActiveDASComponent := a
                 bIsExecuting := true
                 events := x.events ++ [ActionEvent.ReceiveExecute a] } := by
      unfold UDASAction.Execute
      rw [if_pos hIdle]
    refine ⟨by rw [f1], by rw [f1], by rw [e1, f1], by rw [e2, f1], by rw [e2, f1]⟩
  · intro hIdle
    unfold UDASAction.FinishExecute
    rw [if_neg (by simp [hIdle])]
  · intro hRun
    unfold UDASAction.FinishExecute
    rw [if_pos hRun]
    cases hd : x.ActiveFinishExecutionDelegate <;> cases bSuccess <;> simp [hd]

theorem UDASAction_single_execution_witness :
    UDASAction.construct.bIsExecuting = false ∧
      ((UDASAction.construct.Execute (some 1)).Execute (some 2)).ActiveDASComponent = some 1 :=
  ⟨rfl, ((UDASAction_single_execution UDASAction.construct (some 1) (some 2) (some 9)
      true).2.2.2.1 rfl).2.2.1⟩

/-! ## Theorems: path points and the coordinator -/

theorem availablePathPoints_mem {σ : Type} (env : DASEnv σ) :
    ∀ (Links : List (Option Nat)) (s : σ) (q : Nat),
      q ∈ (availablePathPoints env Links s).1 →
        some q ∈ Links ∧ ∃ t, (env.CanRunPathPoint q t).1 = true := by
  intro Links
  induction Links with
  | nil => intro s q h; simp [availablePathPoints] at h
  | cons e rest ih =>
    intro s q h
    cases e with
    | none =>
      simp only [availablePathPoints] at h
      exact ⟨List.mem_cons_of_mem _ (ih s q h).1, (ih s q h).2⟩
    | some p =>
      simp only [availablePathPoints] at h
      by_cases hp : (env.CanRunPathPoint p s).1 = true
      · rw [if_pos hp] at h
        rcases List.mem_cons.mp h with h | h
        · subst h
          exact ⟨List.mem_cons_self _ _, s, hp⟩
        · exact ⟨List.mem_cons_of_mem _ (ih _ q h).1, (ih _ q h).2⟩
      · rw [if_neg hp] at h
        exact ⟨List.mem_cons_of_mem _ (ih _ q h).1, (ih _ q h).2⟩

theorem availablePathPoints_filter {σ : Type} (env : DASEnv σ) (f : Nat → Bool)
    (hf : ∀ p t, (env.CanRunPathPoint p t).1 = f p) :
    ∀ (Links : List (Option Nat)) (s : σ),
      (availablePathPoints env Links s).1 = (nonNull Links).filter f := by
  intro Links
  induction Links with
  | nil => intro s; rfl
  | cons e rest ih =>
    intro s
    cases e with
    | none => simp only [availablePathPoints, nonNull]; exact ih s
    | some p =>
      simp only [availablePathPoints, nonNull, hf p s, List.filter_cons]
      by_cases hp : f p = true
      · simp [hp, ih]
      · simp [hp, ih]

theorem GetNextOrPrevious_eq {σ : Type} (env : DASEnv σ) (self : ADASPathPoint)
    (bForward : Bool) (c : Option Nat) (s : σ) :
    self.GetNextOrPrevious env bForward c s =
      ADASPathPoint.GetLinkedPathPoint env (self.canMove bForward) (self.links bForward)
        (self.solver bForward) c s := by
  cases bForward <;>
    simp [ADASPathPoint.GetNextOrPrevious, ADASPathPoint.GetNextPathPoint,
      ADASPathPoint.GetPreviousPathPoint, ADASPathPoint.canMove, ADASPathPoint.links,
      ADASPathPoint.solver]

/-- C14: for a direction without solver (forward: `GetNextPathPoint`, backward:
`GetPreviousPathPoint`), the result is none when the direction is disabled, when the
link list is empty, and when no non-null link passes `CanRun()`; otherwise, the random
index drawn lying in the range asked for, it is the element at that index of the list
of runnable links, which is a non-null element of the link list whose `CanRun()`
returned true; that list holds the non-null links that can run, in link order. -/
theorem GetNextOrPrevious_without_solver {σ : Type} (env : DASEnv σ) (self : ADASPathPoint)
    (bForward : Bool) (c : Option Nat) (s : σ) (hsolver : self.solver bForward = none) :
    ((self.canMove bForward = false ∨ self.links bForward = []) →
        self.GetNextOrPrevious env bForward c s = (none, s)) ∧
      ((availablePathPoints env (self.links bForward) s).1 = [] →
        (self.GetNextOrPrevious env bForward c s).1 = none) ∧
      (self.canMove bForward = true →
        (availablePathPoints env (self.links bForward) s).1 ≠ [] →
        0 ≤ (env.RandomIntegerInRange 0
          (((availablePathPoints env (self.links bForward) s).1.length : Int) - 1)
          (availablePathPoints env (self.links bForward) s).2).1 →
        (env.RandomIntegerInRange 0
          (((availablePathPoints env (self.links bForward) s).1.length : Int) - 1)
          (availablePathPoints env (self.links bForward) s).2).1
            ≤ ((availablePathPoints env (self.links bForward) s).1.length : Int) - 1 →
        ∃ q, (self.GetNextOrPrevious env bForward c s).1 = some q ∧
          (availablePathPoints env (self.links bForward) s).1[(env.RandomIntegerInRange 0
            (((availablePathPoints env (self.links bForward) s).1.length : Int) - 1)
            (availablePathPoints env (self.links bForward) s).2).1.toNat]? = some q ∧
          some q ∈ self.links bForward ∧ ∃ t, (env.CanRunPathPoint q t).1 = true) ∧
      (∀ f : Nat → Bool, (∀ p t, (env.CanRunPathPoint p t).1 = f p) →
        (availablePathPoints env (self.links bForward) s).1
          = (nonNull (self.links bForward)).filter f) := by
  rw [GetNextOrPrevious_eq, hsolver]
  refine ⟨?_, ?_, ?_, ?_⟩
  · intro h
    unfold ADASPathPoint.GetLinkedPathPoint
    rcases h with h | h
    · rw [if_neg (by simp [h])]
    · rw [if_neg (by simp [h])]
  · intro h
    unfold ADASPathPoint.GetLinkedPathPoint
    split
    · simp [h]
    · rfl
  · intro hmove hne hlo hhi
    have hlen : 0 < (availablePathPoints env (self.links bForward) s).1.length :=
      List.length_pos.mpr hne
    have hlinks : (self.links bForward).length > 0 := by
      cases hl : self.links bForward with
      | nil => rw [hl] at hne; simp [availablePathPoints] at hne
      | cons e rest => simp
    have hidx : (env.RandomIntegerInRange 0
        (((availablePathPoints env (self.links bForward) s).1.length : Int) - 1)
        (availablePathPoints env (self.links bForward) s).2).1.toNat
          < (availablePathPoints env (self.links bForward) s).1.length := by
      omega
    obtain ⟨q, hq⟩ : ∃ q, (availablePathPoints env (self.links bForward) s).1[(env.RandomIntegerInRange 0
        (((availablePathPoints env (self.links bForward) s).1.length : Int) - 1)
        (availablePathPoints env (self.links bForward) s).2).1.toNat]? = some q :=
      ⟨_, List.getElem?_eq_getElem hidx⟩
    have hmem := availablePathPoints_mem env (self.links bForward) s q
      (List.getElem?_mem hq)
    refine ⟨q, ?_, hq, hmem.1, hmem.2⟩
    unfold ADASPathPoint.GetLinkedPathPoint
    rw [if_pos ⟨hmove, hlinks⟩]
    simp only [hlen, if_true, gt_iff_lt, hlo, hq]
  · intro f hf
    exact availablePathPoints_filter env f hf _ s

theorem GetNextOrPrevious_without_solver_witness :
    endPoint.solver false = none ∧
      ∃ q, (endPoint.GetNextOrPrevious lineEnv false (some 50) ()).1 = some q ∧
        some q ∈ endPoint.links false ∧ ∃ t, (lineEnv.CanRunPathPoint q t).1 = true := by
  obtain ⟨q, h1, _, h3, h4⟩ :=
    (GetNextOrPrevious_without_solver lineEnv endPoint false (some 50) () rfl).2.2.1
      rfl (by decide) (by decide) (by decide)
  exact ⟨rfl, q, h1, h3, h4⟩

theorem SameButEvents_refl (c : UDASComponent) : c.SameButEvents c := rfl

theorem SameButEvents_trans {c d e : UDASComponent} (h1 : c.SameButEvents d)
    (h2 : d.SameButEvents e) : c.SameButEvents e :=
  Eq.trans h1 h2

theorem SameButEvents_map (f : UDASComponent → UDASComponent) {c d : UDASComponent}
    (h : c.SameButEvents d) (hf : ∀ x, (f x).withEvents [] = f (x.withEvents [])) :
    (f c).SameButEvents (f d) := by
  unfold UDASComponent.SameButEvents at h ⊢
  rw [hf c, hf d, h]

theorem SameButEvents_withEvents (c : UDASComponent) (ev : List CompEvent) :
    c.SameButEvents (c.withEvents ev) := rfl

theorem SameButEvents_raise (c : UDASComponent) (e : CompEvent) :
    c.SameButEvents (c.raise e) := rfl

theorem SameButEvents_UpdateBBKey {σ : Type} (env : DASEnv σ) (c : UDASComponent)
    (key : BBKey) (value : BBValue) : c.SameButEvents (c.UpdateBBKey env key value) := by
  unfold UDASComponent.UpdateBBKey
  split
  · split
    · rfl
    · rfl
  · rfl

theorem SameButEvents_disconnectActionPoint {σ : Type} (env : DASEnv σ) (c : UDASComponent)
    (prev : Option Nat) : c.SameButEvents (c.disconnectActionPoint env prev) := by
  unfold UDASComponent.disconnectActionPoint
  split
  · split
    · split
      · rfl
      · rfl
    · rfl
  · rfl

theorem SameButEvents_connectActionPoint {σ : Type} (env : DASEnv σ) (w : DASWorld σ)
    (c : UDASComponent) (New : Option Nat) :
    c.SameButEvents (c.connectActionPoint env w New).1 := by
  unfold UDASComponent.connectActionPoint
  split
  · split
    · split
      · exact SameButEvents_trans (SameButEvents_trans (SameButEvents_trans
          (SameButEvents_raise c _) (SameButEvents_UpdateBBKey env _ _ _))
          (SameButEvents_raise _ _)) (SameButEvents_UpdateBBKey env _ _ _)
      · exact SameButEvents_trans (SameButEvents_trans
          (SameButEvents_raise c _) (SameButEvents_UpdateBBKey env _ _ _))
          (SameButEvents_UpdateBBKey env _ _ _)
    · rfl
  · exact SameButEvents_trans (SameButEvents_UpdateBBKey env c _ _)
      (SameButEvents_UpdateBBKey env _ _ _)

theorem SameButEvents_disconnectPathPoint {σ : Type} (env : DASEnv σ) (w : DASWorld σ)
    (c : UDASComponent) (prev : Option Nat) :
    c.SameButEvents (c.disconnectPathPoint env w prev) := by
  unfold UDASComponent.disconnectPathPoint
  split
  · split
    · rfl
    · rfl
  · rfl

theorem SameButEvents_connectPathPoint {σ : Type} (env : DASEnv σ) (w : DASWorld σ)
    (c : UDASComponent) (New : Option Nat) :
    c.SameButEvents (c.connectPathPoint env w New).1 := by
  unfold UDASComponent.connectPathPoint
  split
  · split
    · split
      · exact SameButEvents_trans (SameButEvents_raise c _)
          (SameButEvents_UpdateBBKey env _ _ _)
      · exact SameButEvents_UpdateBBKey env c _ _
    · rfl
  · exact SameButEvents_UpdateBBKey env c _ _

/-- The component after `SetActionPoint`: the active action point is the new one, and
nothing else but the event log differs; the points and the registry are untouched. -/
theorem SetActionPoint_spec {σ : Type} (env : DASEnv σ) (w : DASWorld σ) (New : Option Nat) :
    UDASComponent.SameButEvents { w.comp with ActiveActionPoint := New }
        (UDASComponent.SetActionPoint env w New).comp ∧
      (UDASComponent.SetActionPoint env w New).pathPoints = w.pathPoints ∧
      (UDASComponent.SetActionPoint env w New).actionPoints = w.actionPoints ∧
      (UDASComponent.SetActionPoint env w New).DASSubsystem = w.DASSubsystem := by
  unfold UDASComponent.SetActionPoint
  by_cases h : w.comp.ActiveActionPoint ≠ New
  · rw [if_pos h]
    refine ⟨?_, rfl, rfl, rfl⟩
    exact SameButEvents_trans (SameButEvents_trans (SameButEvents_trans
      (SameButEvents_UpdateBBKey env _ _ _) (SameButEvents_disconnectActionPoint env _ _))
      (SameButEvents_connectActionPoint env w _ _)) (SameButEvents_raise _ _)
  · rw [if_neg h]
    have h2 : w.comp.ActiveActionPoint = New := not_not.mp h
    subst h2
    exact ⟨rfl, rfl, rfl, rfl⟩

/-- The component after a `SetPathPoint` that changes the active path point: the fields
the function assigns, and nothing else but the event log. -/
theorem SetPathPoint_spec {σ : Type} (env : DASEnv σ) (w : DASWorld σ) (New : Option Nat)
    (h : New ≠ w.comp.ActivePathPoint) :
    UDASComponent.SameButEvents
        { w.comp with
          ActivePathPoint := New
          ActionPointsQueue :=
            if w.comp.RunMode = EDASRunMode.ExecutePathPoints then []
            else w.comp.ActionPointsQueue
          ActiveActionPoint :=
            if w.comp.RunMode = EDASRunMode.ExecutePathPoints then none
            else w.comp.ActiveActionPoint
          bIsReturningToPathPoint := false
          bHasNewPathPoint := true }
        (UDASComponent.SetPathPoint env w New).comp ∧
      (UDASComponent.SetPathPoint env w New).pathPoints
        = (UDASComponent.ReleasePathPointSpot env w).pathPoints ∧
      (UDASComponent.SetPathPoint env w New).actionPoints = w.actionPoints ∧
      (UDASComponent.SetPathPoint env w New).DASSubsystem = w.DASSubsystem := by
  have hrel : (UDASComponent.ReleasePathPointSpot env w).comp = w.comp ∧
      (UDASComponent.ReleasePathPointSpot env w).actionPoints = w.actionPoints ∧
      (UDASComponent.ReleasePathPointSpot env w).DASSubsystem = w.DASSubsystem := by
    unfold UDASComponent.ReleasePathPointSpot
    split
    · split
      · exact ⟨rfl, rfl, rfl⟩
      · exact ⟨rfl, rfl, rfl⟩
    · exact ⟨rfl, rfl, rfl⟩
  unfold UDASComponent.SetPathPoint
  rw [if_pos h]
  simp only [hrel.1]
  by_cases hm : w.comp.RunMode = EDASRunMode.ExecutePathPoints
  · obtain ⟨s1, s2, s3, s4⟩ := SetActionPoint_spec env
      { UDASComponent.ReleasePathPointSpot env w with
        comp := UDASComponent.ClearActionPointsQueue
          { w.comp with ActivePathPoint := New } } none
    have s1b := SameButEvents_map
      (fun c : UDASComponent =>
        (c.SetIsReturningToPathPoint false).SetHasNewPathPoint true) s1 (fun _ => rfl)
    refine ⟨?_, ?_, ?_, ?_⟩
    · simp only [if_pos hm]
      exact SameButEvents_trans (SameButEvents_trans (SameButEvents_trans
        (SameButEvents_trans s1b (SameButEvents_UpdateBBKey env _ _ _))
        (SameButEvents_disconnectPathPoint env _ _ _))
        (SameButEvents_connectPathPoint env _ _ _)) (SameButEvents_raise _ _)
    · simp only [if_pos hm]
      exact s2
    · simp only [if_pos hm]
      exact s3.trans hrel.2.1
    · simp only [if_pos hm]
      exact s4.trans hrel.2.2
  · refine ⟨?_, ?_, ?_, ?_⟩
    · simp only [if_neg hm]
      exact SameButEvents_trans (SameButEvents_trans (SameButEvents_trans
        (SameButEvents_UpdateBBKey env _ _ _)
        (SameButEvents_disconnectPathPoint env _ _ _))
        (SameButEvents_connectPathPoint env _ _ _)) (SameButEvents_raise _ _)
    · rw [if_neg hm]
    · rw [if_neg hm]
      exact hrel.2.1
    · rw [if_neg hm]
      exact hrel.2.2

theorem SetPathPoint_always {σ : Type} (env : DASEnv σ) (w : DASWorld σ) (New : Option Nat) :
    (UDASComponent.SetPathPoint env w New).comp.ActivePathPoint = New ∧
      (UDASComponent.SetPathPoint env w New).comp.bIsMovingForwardAlongPath
        = w.comp.bIsMovingForwardAlongPath ∧
      (UDASComponent.SetPathPoint env w New).comp.RunMode = w.comp.RunMode := by
  by_cases h : New ≠ w.comp.ActivePathPoint
  · obtain ⟨s1, _⟩ := SetPathPoint_spec env w New h
    exact ⟨(congrArg UDASComponent.ActivePathPoint s1).symm,
      (congrArg UDASComponent.bIsMovingForwardAlongPath s1).symm,
      (congrArg UDASComponent.RunMode s1).symm⟩
  · have h2 : New = w.comp.ActivePathPoint := not_not.mp h
    unfold UDASComponent.SetPathPoint
    rw [if_neg h]
    exact ⟨h2.symm, rfl, rfl⟩

/-- The result of `UpdatePathPoint` at a valid active path point, by what the two
directions yield. -/
theorem UpdatePathPoint_eq {σ : Type} (env : DASEnv σ) (w : DASWorld σ) (P : Nat)
    (hP : w.comp.ActivePathPoint = some P) (hv : env.IsValidPathPoint P = true) :
    UDASComponent.UpdatePathPoint env w =
      match (UDASComponent.firstYield env w P).1 with
      | some q =>
        (true, UDASComponent.SetPathPoint env
          { w with ext := (UDASComponent.firstYield env w P).2 } (some q))
      | none =>
        match (UDASComponent.secondYield env w P).1 with
        | some q =>
          (true, UDASComponent.SetPathPoint env
            { w with
              comp := w.comp.SetIsMovingForwardAlongPath (!w.comp.bIsMovingForwardAlongPath)
              ext := (UDASComponent.secondYield env w P).2 } (some q))
        | none => (false, { w with ext := (UDASComponent.secondYield env w P).2 }) := by
  unfold UDASComponent.UpdatePathPoint
  simp only [hP, hv, if_true]
  rfl

/-- C15: at a valid active path point, when the travel direction yields a point `q`,
`UpdatePathPoint` returns true, makes `q` the active path point and keeps the direction
flag; when it yields none and the opposite direction yields `q`, it returns true, makes
`q` the active path point and negates the direction flag; when both yield none it
returns false and leaves the component as it was; without a valid active path point it
returns false and changes nothing. -/
theorem UpdatePathPoint_effect {σ : Type} (env : DASEnv σ) (w : DASWorld σ) :
    (env.IsValidPath w.comp.ActivePathPoint = false →
        UDASComponent.UpdatePathPoint env w = (false, w)) ∧
      (∀ P, w.comp.ActivePathPoint = some P → env.IsValidPathPoint P = true →
        (∀ q, (UDASComponent.firstYield env w P).1 = some q →
          (UDASComponent.UpdatePathPoint env w).1 = true ∧
          (UDASComponent.UpdatePathPoint env w).2.comp.ActivePathPoint = some q ∧
          (UDASComponent.UpdatePathPoint env w).2.comp.bIsMovingForwardAlongPath
            = w.comp.bIsMovingForwardAlongPath) ∧
        (∀ q, (UDASComponent.firstYield env w P).1 = none →
          (UDASComponent.secondYield env w P).1 = some q →
          (UDASComponent.UpdatePathPoint env w).1 = true ∧
          (UDASComponent.UpdatePathPoint env w).2.comp.ActivePathPoint = some q ∧
          (UDASComponent.UpdatePathPoint env w).2.comp.bIsMovingForwardAlongPath
            = !w.comp.bIsMovingForwardAlongPath) ∧
        ((UDASComponent.firstYield env w P).1 = none →
          (UDASComponent.secondYield env w P).1 = none →
          (UDASComponent.UpdatePathPoint env w).1 = false ∧
          (UDASComponent.UpdatePathPoint env w).2.comp = w.comp ∧
          (UDASComponent.UpdatePathPoint env w).2.pathPoints = w.pathPoints)) := by
  constructor
  · intro h
    unfold UDASComponent.UpdatePathPoint
    cases hA : w.comp.ActivePathPoint with
    | none => rfl
    | some P =>
      rw [hA] at h
      have hv : env.IsValidPathPoint P = false := h
      simp only [hv, Bool.false_eq_true, if_false]
  · intro P hP hv
    have key := UpdatePathPoint_eq env w P hP hv
    refine ⟨?_, ?_, ?_⟩
    · intro q h1
      rw [key, h1]
      obtain ⟨a1, a2, _⟩ := SetPathPoint_always env
        { w with ext := (UDASComponent.firstYield env w P).2 } (some q)
      exact ⟨rfl, a1, a2⟩
    · intro q h1 h2
      rw [key, h1]
      simp only [h2]
      obtain ⟨a1, a2, _⟩ := SetPathPoint_always env
        { w with
          comp := w.comp.SetIsMovingForwardAlongPath (!w.comp.bIsMovingForwardAlongPath)
          ext := (UDASComponent.secondYield env w P).2 } (some q)
      exact ⟨trivial, a1, a2⟩
    · intro h1 h2
      rw [key, h1]
      simp only [h2]
      exact ⟨trivial, trivial, trivial⟩

theorem UpdatePathPoint_effect_witness :
    (UDASComponent.firstYield lineEnv lineWorld 3).1 = none ∧
      (UDASComponent.secondYield lineEnv lineWorld 3).1 = some 1 ∧
      (UDASComponent.UpdatePathPoint lineEnv lineWorld).1 = true ∧
      (UDASComponent.UpdatePathPoint lineEnv lineWorld).2.comp.ActivePathPoint = some 1 ∧
      (UDASComponent.UpdatePathPoint lineEnv lineWorld).2.comp.bIsMovingForwardAlongPath
        = false :=
  ⟨rfl, rfl, ((UpdatePathPoint_effect lineEnv lineWorld).2 3 rfl rfl).2.1 1 rfl rfl⟩

/-- C16: `SetPathPoint( p )` with `p` the active path point returns the state unchanged,
the event log included. Otherwise the active path point becomes `p`, has-new-path-point
becomes true, is-returning-to-path-point becomes false, the spots of the previous point,
when it is valid, are those left by `ReleaseSpot( owner )` and no other point changes,
the queue is emptied and the active action point set to none when the run mode is
`ExecutePathPoints`, and both are unchanged in every other run mode. The direction flag
and the run mode never change. -/
theorem SetPathPoint_effect {σ : Type} (env : DASEnv σ) (w : DASWorld σ) (New : Option Nat) :
    (New = w.comp.ActivePathPoint → UDASComponent.SetPathPoint env w New = w) ∧
      (New ≠ w.comp.ActivePathPoint →
        (UDASComponent.SetPathPoint env w New).comp.ActivePathPoint = New ∧
        (UDASComponent.SetPathPoint env w New).comp.bHasNewPathPoint = true ∧
        (UDASComponent.SetPathPoint env w New).comp.bIsReturningToPathPoint = false ∧
        (w.comp.RunMode = EDASRunMode.ExecutePathPoints →
          (UDASComponent.SetPathPoint env w New).comp.ActionPointsQueue = [] ∧
          (UDASComponent.SetPathPoint env w New).comp.ActiveActionPoint = none) ∧
        (w.comp.RunMode ≠ EDASRunMode.ExecutePathPoints →
          (UDASComponent.SetPathPoint env w New).comp.ActionPointsQueue
            = w.comp.ActionPointsQueue ∧
          (UDASComponent.SetPathPoint env w New).comp.ActiveActionPoint
            = w.comp.ActiveActionPoint) ∧
        (∀ P, w.comp.ActivePathPoint = some P → env.IsValidPathPoint P = true →
          ((UDASComponent.SetPathPoint env w New).pathPoints P).Spots
            = ADASPathPoint.ReleaseSpot (w.pathPoints P).Spots w.comp.Owner ∧
          ∀ Q, Q ≠ P → (UDASComponent.SetPathPoint env w New).pathPoints Q = w.pathPoints Q) ∧
        (env.IsValidPath w.comp.ActivePathPoint = false →
          (UDASComponent.SetPathPoint env w New).pathPoints = w.pathPoints)) ∧
      (UDASComponent.SetPathPoint env w New).comp.bIsMovingForwardAlongPath
        = w.comp.bIsMovingForwardAlongPath ∧
      (UDASComponent.SetPathPoint env w New).comp.RunMode = w.comp.RunMode := by
  refine ⟨?_, ?_, (SetPathPoint_always env w New).2.1, (SetPathPoint_always env w New).2.2⟩
  · intro h
    unfold UDASComponent.SetPathPoint
    rw [if_neg (by simp [h])]
  · intro h
    obtain ⟨s1, s2, _, _⟩ := SetPathPoint_spec env w New h
    refine ⟨(congrArg UDASComponent.ActivePathPoint s1).symm,
      (congrArg UDASComponent.bHasNewPathPoint s1).symm,
      (congrArg UDASComponent.bIsReturningToPathPoint s1).symm, ?_, ?_, ?_, ?_⟩
    · intro hm
      have q1 := (congrArg UDASComponent.ActionPointsQueue s1).symm
      have q2 := (congrArg UDASComponent.ActiveActionPoint s1).symm
      simp only [UDASComponent.withEvents, if_pos hm] at q1 q2
      exact ⟨q1, q2⟩
    · intro hm
      have q1 := (congrArg UDASComponent.ActionPointsQueue s1).symm
      have q2 := (congrArg UDASComponent.ActiveActionPoint s1).symm
      simp only [UDASComponent.withEvents, if_neg hm] at q1 q2
      exact ⟨q1, q2⟩
    · intro P hP hv
      rw [s2]
      unfold UDASComponent.ReleasePathPointSpot
      simp only [hP, hv, if_true]
      exact ⟨by simp, fun Q hQ => by simp [Function.update_noteq hQ]⟩
    · intro hv
      rw [s2]
      unfold UDASComponent.ReleasePathPointSpot
      cases hA : w.comp.ActivePathPoint with
      | none => rfl
      | some P =>
        rw [hA] at hv
        have hv2 : env.IsValidPathPoint P = false := hv
        simp only [hv2, Bool.false_eq_true, if_false]

theorem SetPathPoint_effect_witness :
    UDASComponent.SetPathPoint lineEnv lineWorld (some 3) = lineWorld ∧
      (UDASComponent.SetPathPoint lineEnv lineWorld (some 1)).comp.ActivePathPoint = some 1 ∧
      (UDASComponent.SetPathPoint lineEnv lineWorld (some 1)).comp.bHasNewPathPoint = true ∧
      (UDASComponent.SetPathPoint lineEnv lineWorld (some 1)).comp.bIsReturningToPathPoint
        = false ∧
      (UDASComponent.SetPathPoint lineEnv lineWorld (some 1)).comp.ActionPointsQueue = [] ∧
      (UDASComponent.SetPathPoint lineEnv lineWorld (some 1)).comp.ActiveActionPoint = none ∧
      ((UDASComponent.SetPathPoint lineEnv lineWorld (some 1)).pathPoints 3).Spots
        = ADASPathPoint.ReleaseSpot threeSpots (some 1) := by
  obtain ⟨h1, h2, h3, h4, _, h6, _⟩ :=
    (SetPathPoint_effect lineEnv lineWorld (some 1)).2.1 (by decide)
  exact ⟨(SetPathPoint_effect lineEnv lineWorld (some 3)).1 rfl, h1, h2, h3, (h4 rfl).1,
    (h4 rfl).2, (h6 3 rfl rfl).1⟩

/-- The loop of `SetFirstActionPointFromQueue` removes a prefix of the queue whose
entries were null, could not run or were taken, and stops at an entry that can run and is
not taken, or at the end of the queue. -/
theorem SetFirstActionPointFromQueue_loop_spec {σ : Type} (env : DASEnv σ)
    (actionPoints : Nat → ADASActionPoint) :
    ∀ (queue : List (Option Nat)) (s : σ),
      (∃ removed : List (Option Nat),
        queue = removed ++ (SetFirstActionPointFromQueue_loop env actionPoints queue s).2.1 ∧
        ∀ e ∈ removed, e = none ∨ ∃ a, e = some a ∧
          ((∃ t, (env.CanRunActionPoint a t).1 = false) ∨
            (actionPoints a).IsTaken = true)) ∧
      (((SetFirstActionPointFromQueue_loop env actionPoints queue s).1 = none ∧
          (SetFirstActionPointFromQueue_loop env actionPoints queue s).2.1 = []) ∨
        ∃ a rest, (SetFirstActionPointFromQueue_loop env actionPoints queue s).1 = some a ∧
          (SetFirstActionPointFromQueue_loop env actionPoints queue s).2.1 = some a :: rest ∧
          (∃ t, (env.CanRunActionPoint a t).1 = true) ∧
          (actionPoints a).IsTaken = false) := by
  intro queue
  induction queue with
  | nil =>
    intro s
    exact ⟨⟨[], rfl, fun e he => absurd he (List.not_mem_nil e)⟩, Or.inl ⟨rfl, rfl⟩⟩
  | cons e rest ih =>
    intro s
    cases e with
    | none =>
      have hl : SetFirstActionPointFromQueue_loop env actionPoints (none :: rest) s
          = SetFirstActionPointFromQueue_loop env actionPoints rest s := by
        conv_lhs => unfold SetFirstActionPointFromQueue_loop
      rw [hl]
      obtain ⟨⟨removed, h1, h2⟩, h3⟩ := ih s
      refine ⟨⟨none :: removed, ?_, ?_⟩, h3⟩
      · rw [List.cons_append, ← h1]
      · intro x hx
        rcases List.mem_cons.mp hx with hx | hx
        · exact Or.inl hx
        · exact h2 x hx
    | some a =>
      by_cases hc : (env.CanRunActionPoint a s).1 = true ∧ (actionPoints a).IsTaken = false
      · have hl : SetFirstActionPointFromQueue_loop env actionPoints (some a :: rest) s
            = (some a, some a :: rest, (env.CanRunActionPoint a s).2) := by
          unfold SetFirstActionPointFromQueue_loop
          exact if_pos hc
        rw [hl]
        exact ⟨⟨[], rfl, fun e he => absurd he (List.not_mem_nil e)⟩,
          Or.inr ⟨a, rest, rfl, rfl, ⟨s, hc.1⟩, hc.2⟩⟩
      · have hl : SetFirstActionPointFromQueue_loop env actionPoints (some a :: rest) s
            = SetFirstActionPointFromQueue_loop env actionPoints rest
                (env.CanRunActionPoint a s).2 := by
          conv_lhs => unfold SetFirstActionPointFromQueue_loop
          exact if_neg hc
        rw [hl]
        obtain ⟨⟨removed, h1, h2⟩, h3⟩ := ih (env.CanRunActionPoint a s).2
        refine ⟨⟨some a :: removed, ?_, ?_⟩, h3⟩
        · rw [List.cons_append, ← h1]
        · intro x hx
          rcases List.mem_cons.mp hx with hx | hx
          · refine Or.inr ⟨a, hx, ?_⟩
            by_cases h1 : (env.CanRunActionPoint a s).1 = true
            · right
              have : ¬ (actionPoints a).IsTaken = false := fun h => hc ⟨h1, h⟩
              simpa using this
            · left
              exact ⟨s, by simpa using h1⟩
          · exact h2 x hx

/-- When the result of `CanRun()` on an action point does not depend on the state, the
loop of `SetFirstActionPointFromQueue` leaves the queue from its first entry that passes
the test on, and returns that entry. -/
theorem SetFirstActionPointFromQueue_loop_dropWhile {σ : Type} (env : DASEnv σ)
    (actionPoints : Nat → ADASActionPoint) (f : Nat → Bool)
    (hf : ∀ a t, (env.CanRunActionPoint a t).1 = f a) :
    ∀ (queue : List (Option Nat)) (s : σ),
      (SetFirstActionPointFromQueue_loop env actionPoints queue s).2.1
          = queue.dropWhile (fun e => !queueEntryPasses f actionPoints e) ∧
        (SetFirstActionPointFromQueue_loop env actionPoints queue s).1
          = (queue.dropWhile (fun e => !queueEntryPasses f actionPoints e)).headD none := by
  intro queue
  induction queue with
  | nil => intro s; exact ⟨rfl, rfl⟩
  | cons e rest ih =>
    intro s
    cases e with
    | none =>
      have hd : (none :: rest).dropWhile (fun e => !queueEntryPasses f actionPoints e)
          = rest.dropWhile (fun e => !queueEntryPasses f actionPoints e) := by
        simp [List.dropWhile, queueEntryPasses]
      rw [hd]
      exact ih s
    | some a =>
      by_cases hc : (env.CanRunActionPoint a s).1 = true ∧ (actionPoints a).IsTaken = false
      · have hl : SetFirstActionPointFromQueue_loop env actionPoints (some a :: rest) s
            = (some a, some a :: rest, (env.CanRunActionPoint a s).2) := by
          unfold SetFirstActionPointFromQueue_loop
          exact if_pos hc
        have hp : queueEntryPasses f actionPoints (some a) = true := by
          simp [queueEntryPasses, ← hf a s, hc.1, hc.2]
        have hd : (some a :: rest).dropWhile (fun e => !queueEntryPasses f actionPoints e)
            = some a :: rest := by
          simp [List.dropWhile, hp]
        rw [hl, hd]
        exact ⟨rfl, rfl⟩
      · have hl : SetFirstActionPointFromQueue_loop env actionPoints (some a :: rest) s
            = SetFirstActionPointFromQueue_loop env actionPoints rest
                (env.CanRunActionPoint a s).2 := by
          conv_lhs => unfold SetFirstActionPointFromQueue_loop
          exact if_neg hc
        have hp : queueEntryPasses f actionPoints (some a) = false := by
          cases h1 : f a with
          | false => simp [queueEntryPasses, h1]
          | true =>
            have h2 : (env.CanRunActionPoint a s).1 = true := by rw [hf a s, h1]
            have : ¬ (actionPoints a).IsTaken = false := fun h => hc ⟨h2, h⟩
            simp [queueEntryPasses, h1, this]
        have hd : (some a :: rest).dropWhile (fun e => !queueEntryPasses f actionPoints e)
            = rest.dropWhile (fun e => !queueEntryPasses f actionPoints e) := by
          simp [List.dropWhile, hp]
        rw [hl, hd]
        exact ih _

/-- C17: `SetFirstActionPointFromQueue` returns, and the queue it leaves is a suffix of
the original queue: every removed entry was null, could not run or was taken; the queue
left is empty and none is returned, or it starts with the returned point, which could run
and is not taken; the returned value is the active action point afterwards; and when the
result of `CanRun()` does not depend on the state, the queue left is the longest suffix
whose first entry is non-null, can run and is not taken. -/
theorem SetFirstActionPointFromQueue_effect {σ : Type} (env : DASEnv σ) (w : DASWorld σ) :
    (∃ removed : List (Option Nat),
        w.comp.ActionPointsQueue
          = removed ++ (UDASComponent.SetFirstActionPointFromQueue env w).2.comp.ActionPointsQueue ∧
        ∀ e ∈ removed, e = none ∨ ∃ a, e = some a ∧
          ((∃ t, (env.CanRunActionPoint a t).1 = false) ∨
            (w.actionPoints a).IsTaken = true)) ∧
      (((UDASComponent.SetFirstActionPointFromQueue env w).1 = none ∧
          (UDASComponent.SetFirstActionPointFromQueue env w).2.comp.ActionPointsQueue = []) ∨
        ∃ a rest, (UDASComponent.SetFirstActionPointFromQueue env w).1 = some a ∧
          (UDASComponent.SetFirstActionPointFromQueue env w).2.comp.ActionPointsQueue
            = some a :: rest ∧
          (∃ t, (env.CanRunActionPoint a t).1 = true) ∧
          (w.actionPoints a).IsTaken = false) ∧
      (UDASComponent.SetFirstActionPointFromQueue env w).2.comp.ActiveActionPoint
        = (UDASComponent.SetFirstActionPointFromQueue env w).1 ∧
      (∀ f : Nat → Bool, (∀ a t, (env.CanRunActionPoint a t).1 = f a) →
        (UDASComponent.SetFirstActionPointFromQueue env w).2.comp.ActionPointsQueue
          = w.comp.ActionPointsQueue.dropWhile
              (fun e => !queueEntryPasses f w.actionPoints e)) := by
  obtain ⟨s1, _, _, _⟩ := SetActionPoint_spec env
    { w with
      comp := { w.comp with
        ActionPointsQueue := (SetFirstActionPointFromQueue_loop env w.actionPoints
          w.comp.ActionPointsQueue w.ext).2.1 }
      ext := (SetFirstActionPointFromQueue_loop env w.actionPoints
          w.comp.ActionPointsQueue w.ext).2.2 }
    (SetFirstActionPointFromQueue_loop env w.actionPoints w.comp.ActionPointsQueue w.ext).1
  have hq : (UDASComponent.SetFirstActionPointFromQueue env w).2.comp.ActionPointsQueue
      = (SetFirstActionPointFromQueue_loop env w.actionPoints
          w.comp.ActionPointsQueue w.ext).2.1 :=
    (congrArg UDASComponent.ActionPointsQueue s1).symm
  have ha : (UDASComponent.SetFirstActionPointFromQueue env w).2.comp.ActiveActionPoint
      = (SetFirstActionPointFromQueue_loop env w.actionPoints
          w.comp.ActionPointsQueue w.ext).1 :=
    (congrArg UDASComponent.ActiveActionPoint s1).symm
  have hr : (UDASComponent.SetFirstActionPointFromQueue env w).1
      = (SetFirstActionPointFromQueue_loop env w.actionPoints
          w.comp.ActionPointsQueue w.ext).1 := rfl
  obtain ⟨h1, h2⟩ := SetFirstActionPointFromQueue_loop_spec env w.actionPoints
    w.comp.ActionPointsQueue w.ext
  rw [hq, ha, hr]
  exact ⟨h1, h2, rfl, fun f hf =>
    (SetFirstActionPointFromQueue_loop_dropWhile env w.actionPoints f hf
      w.comp.ActionPointsQueue w.ext).1⟩

theorem SetFirstActionPointFromQueue_effect_witness :
    lineWorld.comp.ActionPointsQueue = [none, some 10, some 12, some 11, some 13] ∧
      (UDASComponent.SetFirstActionPointFromQueue lineEnv lineWorld).2.comp.ActionPointsQueue
        = [some 11, some 13] ∧
      (UDASComponent.SetFirstActionPointFromQueue lineEnv lineWorld).2.comp.ActiveActionPoint
        = (UDASComponent.SetFirstActionPointFromQueue lineEnv lineWorld).1 :=
  ⟨rfl,
    ((SetFirstActionPointFromQueue_effect lineEnv lineWorld).2.2.2 (fun a => a != 10)
      (fun _ _ => rfl)).trans (by decide),
    (SetFirstActionPointFromQueue_effect lineEnv lineWorld).2.2.1⟩

theorem executionMethodAllows_iff (method : EDASPathExecuteMethod) (b : Bool) :
    executionMethodAllows method b = true ↔
      (method = EDASPathExecuteMethod.BothWays ∨
        (method = EDASPathExecuteMethod.Forward ∧ b = true) ∨
        (method = EDASPathExecuteMethod.Backward ∧ b = false)) := by
  cases method <;> cases b <;> simp [executionMethodAllows]

/-- C18: when the active path point is valid, has an `ActionSelector`, and its execution
method is `BothWays`, or `Forward` while moving forward, or `Backward` while moving
backward, `FetchPathActionPoints` makes the output of that selector the queue and returns
whether the output is non-empty; in every other case it empties the queue and returns
false; nothing else of the component changes. -/
theorem FetchPathActionPoints_effect {σ : Type} (env : DASEnv σ) (w : DASWorld σ) :
    (∀ P selector, w.comp.ActivePathPoint = some P → env.IsValidPathPoint P = true →
        (w.pathPoints P).ActionSelector = some selector →
        ((w.pathPoints P).PathActionExecutionMethod = EDASPathExecuteMethod.BothWays ∨
          ((w.pathPoints P).PathActionExecutionMethod = EDASPathExecuteMethod.Forward ∧
            w.comp.bIsMovingForwardAlongPath = true) ∨
          ((w.pathPoints P).PathActionExecutionMethod = EDASPathExecuteMethod.Backward ∧
            w.comp.bIsMovingForwardAlongPath = false)) →
        ((UDASComponent.FetchPathActionPoints env w).1 = true ↔
          (env.GetActionPointsToExecute selector (some w.comp.Id) w.ext).1 ≠ []) ∧
        (UDASComponent.FetchPathActionPoints env w).2.comp =
          { w.comp with
            ActionPointsQueue :=
              (env.GetActionPointsToExecute selector (some w.comp.Id) w.ext).1 }) ∧
      ((¬ ∃ P selector, w.comp.ActivePathPoint = some P ∧ env.IsValidPathPoint P = true ∧
          (w.pathPoints P).ActionSelector = some selector ∧
          ((w.pathPoints P).PathActionExecutionMethod = EDASPathExecuteMethod.BothWays ∨
            ((w.pathPoints P).PathActionExecutionMethod = EDASPathExecuteMethod.Forward ∧
              w.comp.bIsMovingForwardAlongPath = true) ∨
            ((w.pathPoints P).PathActionExecutionMethod = EDASPathExecuteMethod.Backward ∧
              w.comp.bIsMovingForwardAlongPath = false))) →
        (UDASComponent.FetchPathActionPoints env w).1 = false ∧
        (UDASComponent.FetchPathActionPoints env w).2
          = { w with comp := { w.comp with ActionPointsQueue := [] } }) := by
  constructor
  · intro P selector hP hv hs hm
    have hm2 := (executionMethodAllows_iff _ _).mpr hm
    have key : UDASComponent.FetchPathActionPoints env w =
        (decide ((env.GetActionPointsToExecute selector (some w.comp.Id) w.ext).1.length > 0),
          { w with
            comp := w.comp.SetActionPointsQueue
              (env.GetActionPointsToExecute selector (some w.comp.Id) w.ext).1
            ext := (env.GetActionPointsToExecute selector (some w.comp.Id) w.ext).2 }) := by
      unfold UDASComponent.FetchPathActionPoints
      simp only [hP, hv, hs, hm2, if_true]
    rw [key]
    exact ⟨by simp [List.length_pos], rfl⟩
  · intro hno
    have key : UDASComponent.FetchPathActionPoints env w =
        (false, { w with comp := w.comp.ClearActionPointsQueue }) := by
      unfold UDASComponent.FetchPathActionPoints
      cases hP : w.comp.ActivePathPoint with
      | none => rfl
      | some P =>
        dsimp only
        by_cases hv : env.IsValidPathPoint P = true
        · rw [if_pos hv]
          cases hs : (w.pathPoints P).ActionSelector with
          | none => rfl
          | some selector =>
            have hm : ¬ executionMethodAllows (w.pathPoints P).PathActionExecutionMethod
                w.comp.bIsMovingForwardAlongPath = true := by
              intro hm
              exact hno ⟨P, selector, hP, hv, hs, (executionMethodAllows_iff _ _).mp hm⟩
            dsimp only
            rw [if_neg hm]
        · rw [if_neg hv]
    rw [key]
    exact ⟨rfl, rfl⟩

theorem FetchPathActionPoints_effect_witness :
    (UDASComponent.FetchPathActionPoints lineEnv backWorld).2.comp.ActionPointsQueue
        = [some 10, none, some 11] ∧
      (UDASComponent.FetchPathActionPoints lineEnv lineWorld).1 = false ∧
      (UDASComponent.FetchPathActionPoints lineEnv lineWorld).2.comp.ActionPointsQueue = [] :=
  ⟨congrArg UDASComponent.ActionPointsQueue
      ((FetchPathActionPoints_effect lineEnv backWorld).1 3 7 rfl rfl rfl
        (Or.inr (Or.inr ⟨rfl, rfl⟩))).2,
    ((FetchPathActionPoints_effect lineEnv lineWorld).2
      (by
        rintro ⟨P, selector, hP, _, _, hm⟩
        cases hP
        rcases hm with h | ⟨h, _⟩ | ⟨_, h⟩ <;> cases h)).1,
    rfl⟩

/-! ## Theorems: snapshots -/

theorem FindPointById_some (PointId : Nat → FGuid) :
    ∀ (l : List (Option Nat)) (Id : FGuid) (q : Nat),
      FindPointById PointId l Id = some q → PointId q = Id ∧ some q ∈ l := by
  intro l
  induction l with
  | nil => intro Id q h; simp [FindPointById] at h
  | cons e rest ih =>
    intro Id q h
    cases e with
    | none =>
      have h2 : FindPointById PointId rest Id = some q := by
        simpa [FindPointById] using h
      exact ⟨(ih Id q h2).1, List.mem_cons_of_mem _ (ih Id q h2).2⟩
    | some point =>
      by_cases hp : PointId point = Id
      · have h2 : point = q := by
          simpa [FindPointById, hp] using h
        subst h2
        exact ⟨hp, List.mem_cons_self _ _⟩
      · have h2 : FindPointById PointId rest Id = some q := by
          simpa [FindPointById, hp] using h
        exact ⟨(ih Id q h2).1, List.mem_cons_of_mem _ (ih Id q h2).2⟩

theorem FindPointById_of_mem (PointId : Nat → FGuid) :
    ∀ (l : List (Option Nat)) (p : Nat), some p ∈ l →
      ∃ q, FindPointById PointId l (PointId p) = some q := by
  intro l
  induction l with
  | nil => intro p h; exact absurd h (List.not_mem_nil _)
  | cons e rest ih =>
    intro p h
    cases e with
    | none =>
      rcases List.mem_cons.mp h with h | h
      · exact absurd h (by simp)
      · obtain ⟨q, hq⟩ := ih p h
        exact ⟨q, by simpa [FindPointById] using hq⟩
    | some point =>
      by_cases hp : PointId point = PointId p
      · exact ⟨point, by simp [FindPointById, hp]⟩
      · rcases List.mem_cons.mp h with h | h
        · have : p = point := by simpa using h
          exact absurd (by rw [this]) hp
        · obtain ⟨q, hq⟩ := ih p h
          exact ⟨q, by simpa [FindPointById, hp] using hq⟩

theorem UpdateBBKey_RunMode {σ : Type} (env : DASEnv σ) (c : UDASComponent)
    (key : BBKey) (value : BBValue) : (c.UpdateBBKey env key value).RunMode = c.RunMode :=
  (congrArg UDASComponent.RunMode (SameButEvents_UpdateBBKey env c key value)).symm

theorem SetRunMode_spec {σ : Type} (env : DASEnv σ) (w : DASWorld σ) (New : EDASRunMode) :
    (UDASComponent.SetRunMode env w New).comp.RunMode = New ∧
      (UDASComponent.SetRunMode env w New).pathPoints = w.pathPoints := by
  unfold UDASComponent.SetRunMode
  by_cases h : w.comp.RunMode ≠ New
  · rw [if_pos h]
    by_cases hm : w.comp.RunMode = EDASRunMode.ExecuteActionsFromSelector ∨
        w.comp.RunMode = EDASRunMode.ExecutePathPoints
    · obtain ⟨s1, s2, _, _⟩ := SetActionPoint_spec env
        { w with
          comp := UDASComponent.ClearActionPointsQueue { w.comp with RunMode := New } } none
      simp only [if_pos hm]
      refine ⟨?_, s2⟩
      show (UDASComponent.UpdateBBKey env _ _ _).RunMode = New
      rw [UpdateBBKey_RunMode]
      exact (congrArg UDASComponent.RunMode s1).symm
    · simp only [if_neg hm]
      refine ⟨?_, trivial⟩
      show (UDASComponent.UpdateBBKey env _ _ _).RunMode = New
      rw [UpdateBBKey_RunMode]
  · rw [if_neg h]
    exact ⟨not_not.mp h, rfl⟩

theorem SetActionSelector_spec {σ : Type} (env : DASEnv σ) (w : DASWorld σ)
    (New : Option Nat) :
    (UDASComponent.SetActionSelector env w New).comp.RunMode = w.comp.RunMode ∧
      (UDASComponent.SetActionSelector env w New).pathPoints = w.pathPoints := by
  unfold UDASComponent.SetActionSelector
  by_cases h : w.comp.ActionSelector ≠ New
  · rw [if_pos h]
    by_cases hm : w.comp.RunMode = EDASRunMode.ExecuteActionsFromSelector
    · obtain ⟨s1, s2, _, _⟩ := SetActionPoint_spec env
        { w with
          comp := UDASComponent.ClearActionPointsQueue
            { w.comp with ActionSelector := New } } none
      simp only [if_pos hm]
      refine ⟨?_, s2⟩
      show (UDASComponent.UpdateBBKey env _ _ _).RunMode = w.comp.RunMode
      rw [UpdateBBKey_RunMode]
      exact (congrArg UDASComponent.RunMode s1).symm
    · simp only [if_neg hm]
      refine ⟨?_, trivial⟩
      show (UDASComponent.UpdateBBKey env _ _ _).RunMode = w.comp.RunMode
      rw [UpdateBBKey_RunMode]
  · rw [if_neg h]
    exact ⟨rfl, rfl⟩

theorem ReleasePathPointSpot_PointId {σ : Type} (env : DASEnv σ) (w : DASWorld σ) (p : Nat) :
    ((UDASComponent.ReleasePathPointSpot env w).pathPoints p).PointId
      = (w.pathPoints p).PointId := by
  unfold UDASComponent.ReleasePathPointSpot
  cases hA : w.comp.ActivePathPoint with
  | none => rfl
  | some P =>
    dsimp only
    by_cases hv : env.IsValidPathPoint P = true
    · rw [if_pos hv]
      by_cases hp : p = P
      · subst hp
        simp
      · simp [Function.update_noteq hp]
    · rw [if_neg hv]

theorem SetPathPoint_PointId {σ : Type} (env : DASEnv σ) (w : DASWorld σ)
    (New : Option Nat) (p : Nat) :
    ((UDASComponent.SetPathPoint env w New).pathPoints p).PointId
      = (w.pathPoints p).PointId := by
  by_cases h : New ≠ w.comp.ActivePathPoint
  · rw [(SetPathPoint_spec env w New h).2.1]
    exact ReleasePathPointSpot_PointId env w p
  · unfold UDASComponent.SetPathPoint
    rw [if_neg h]

theorem GetOwnerAIController_snd {σ : Type} (env : DASEnv σ) (c : UDASComponent) :
    ∃ o, (c.GetOwnerAIController env).2 = { c with OwnerAIController := o } := by
  unfold UDASComponent.GetOwnerAIController
  cases hc : c.OwnerAIController with
  | none => exact ⟨_, rfl⟩
  | some k =>
    dsimp only
    by_cases h : env.IsValidController k = true
    · rw [if_pos h]
      refine ⟨some k, ?_⟩
      rw [← hc]
    · rw [if_neg h]
      exact ⟨_, rfl⟩

/-- The end of `LoadFromSnapshot`, from "restart logic" on, changes only the cached
controller and the event log of the component. -/
theorem restartLogic_eq {σ : Type} (env : DASEnv σ) (c : UDASComponent) :
    ∃ o ev,
      (match (c.GetOwnerAIController env).1 with
        | some controller =>
          if env.HasBrainComponent controller = true then
            (c.GetOwnerAIController env).2.raise CompEvent.RestartLogic
          else (c.GetOwnerAIController env).2
        | none => (c.GetOwnerAIController env).2)
        = { c with OwnerAIController := o, events := ev } := by
  obtain ⟨o, ho⟩ := GetOwnerAIController_snd env c
  rw [ho]
  cases (c.GetOwnerAIController env).1 with
  | none => exact ⟨o, _, rfl⟩
  | some controller =>
    dsimp only
    by_cases h : env.HasBrainComponent controller = true
    · rw [if_pos h]
      exact ⟨o, _, rfl⟩
    · rw [if_neg h]
      exact ⟨o, _, rfl⟩

/-- What `LoadFromSnapshot` leaves in a world with a point registry: the run mode and the
three flags of the snapshot, the queue of the points the registry finds for the recorded
identifiers, the path point the registry finds as the active one, and every path point
with the identifier it had. -/
theorem LoadFromSnapshot_spec {σ : Type} (env : DASEnv σ) (w : DASWorld σ)
    (snap : FDASComponentSnapshot) (b : Bool) (reg : UDASWorldSubsystem)
    (hreg : w.DASSubsystem = some reg) :
    (UDASComponent.LoadFromSnapshot env w snap b).comp.RunMode = snap.RunMode ∧
      (UDASComponent.LoadFromSnapshot env w snap b).comp.bIsMovingForwardAlongPath
        = snap.bWasMovingForward ∧
      (UDASComponent.LoadFromSnapshot env w snap b).comp.bIsReturningToPathPoint
        = snap.bWasReturningToPathPoint ∧
      (UDASComponent.LoadFromSnapshot env w snap b).comp.bHasNewPathPoint
        = snap.bHasNewPathPoint ∧
      (UDASComponent.LoadFromSnapshot env w snap b).comp.ActionPointsQueue
        = snap.ActionPointsIdQueue.map (fun Id => reg.FindActionPointById env Id) ∧
      (UDASComponent.LoadFromSnapshot env w snap b).comp.ActivePathPoint
        = reg.FindPathPointById w.pathPoints snap.ActivePathPointId ∧
      ∀ p, ((UDASComponent.LoadFromSnapshot env w snap b).pathPoints p).PointId
        = (w.pathPoints p).PointId := by
  obtain ⟨w1, hw1⟩ : ∃ x, x = UDASComponent.SetRunMode env w snap.RunMode := ⟨_, rfl⟩
  obtain ⟨made, hmade⟩ : ∃ x : Option Nat × σ, x =
      (match snap.ActionSelectorClass with
        | some cls =>
          (some (env.NewSelector cls snap.ActionSelectorData w1.ext).1,
            (env.NewSelector cls snap.ActionSelectorData w1.ext).2)
        | none => (none, w1.ext)) := ⟨_, rfl⟩
  obtain ⟨w2, hw2⟩ : ∃ x, x =
      UDASComponent.SetActionSelector env { w1 with ext := made.2 } made.1 := ⟨_, rfl⟩
  obtain ⟨w3, hw3⟩ : ∃ x, x = UDASComponent.SetPathPoint env w2
      (reg.FindPathPointById w2.pathPoints snap.ActivePathPointId) := ⟨_, rfl⟩
  obtain ⟨w4, hw4⟩ : ∃ x, x = UDASComponent.SetActionPoint env w3 none := ⟨_, rfl⟩
  obtain ⟨c9, hc9⟩ : ∃ x : UDASComponent, x =
      { w4.comp with
        InitialPathPoint := none
        ActionPointsQueue :=
          snap.ActionPointsIdQueue.map (fun Id => reg.FindActionPointById env Id)
        bIsMovingForwardAlongPath := snap.bWasMovingForward
        bIsReturningToPathPoint := snap.bWasReturningToPathPoint
        bHasNewPathPoint := snap.bHasNewPathPoint } := ⟨_, rfl⟩
  obtain ⟨c10, hc10⟩ : ∃ x : UDASComponent, x =
      (if b = true ∧ c9.Owner.isSome = true then
        c9.raise (CompEvent.SetActorLocationAndRotation snap.OwnerLocation snap.OwnerRotation)
      else c9) := ⟨_, rfl⟩
  have key : UDASComponent.LoadFromSnapshot env w snap b =
      { w4 with
        comp :=
          match (c10.GetOwnerAIController env).1 with
          | some controller =>
            if env.HasBrainComponent controller = true then
              (c10.GetOwnerAIController env).2.raise CompEvent.RestartLogic
            else (c10.GetOwnerAIController env).2
          | none => (c10.GetOwnerAIController env).2 } := by
    rw [hc10, hc9, hw4, hw3, hw2, hmade, hw1]
    unfold UDASComponent.LoadFromSnapshot
    simp only [hreg]
    rfl
  obtain ⟨o, ev, hfin⟩ := restartLogic_eq env c10
  have h10 : ∃ ev2, c10 = { c9 with events := ev2 } := by
    by_cases hb : b = true ∧ c9.Owner.isSome = true
    · rw [hc10, if_pos hb]
      exact ⟨_, rfl⟩
    · rw [hc10, if_neg hb]
      exact ⟨_, rfl⟩
  obtain ⟨ev2, h10⟩ := h10
  obtain ⟨r1, p1⟩ := SetRunMode_spec env w snap.RunMode
  obtain ⟨r2, p2⟩ := SetActionSelector_spec env { w1 with ext := made.2 } made.1
  obtain ⟨a3, _, r3⟩ := SetPathPoint_always env w2
    (reg.FindPathPointById w2.pathPoints snap.ActivePathPointId)
  obtain ⟨s4, p4, _, _⟩ := SetActionPoint_spec env w3 none
  rw [← hw1] at r1 p1
  rw [← hw2] at r2 p2
  rw [← hw3] at a3 r3
  rw [← hw4] at s4 p4
  have hp2 : w2.pathPoints = w.pathPoints := p2.trans p1
  have hrun : w4.comp.RunMode = snap.RunMode := by
    have e4 : w4.comp.RunMode = w3.comp.RunMode := (congrArg UDASComponent.RunMode s4).symm
    rw [e4, r3, r2]
    exact r1
  have hact : w4.comp.ActivePathPoint
      = reg.FindPathPointById w.pathPoints snap.ActivePathPointId := by
    have e4 : w4.comp.ActivePathPoint = w3.comp.ActivePathPoint :=
      (congrArg UDASComponent.ActivePathPoint s4).symm
    rw [e4, a3, hp2]
  have hids : ∀ p, (w4.pathPoints p).PointId = (w.pathPoints p).PointId := by
    intro p
    rw [p4, hw3, SetPathPoint_PointId, hp2]
  rw [key, hfin, h10, hc9]
  exact ⟨hrun, rfl, rfl, rfl, rfl, hact, hids⟩

/-- Looking the identifiers of the non-null entries of a queue up in a registry that holds
every queued point gives, entry by entry, a registered point with the identifier of the
queued point, and the queued point itself when no other registered point has its
identifier. -/
theorem FindPointById_queue (PointId : Nat → FGuid) (registered : List (Option Nat)) :
    ∀ queue : List (Option Nat), (∀ a, some a ∈ queue → some a ∈ registered) →
      snapshotQueueIds PointId queue = queue.reduceOption.map PointId ∧
      ((queue.reduceOption.map PointId).map
          (fun Id => FindPointById PointId registered Id)).map (Option.map PointId)
        = queue.reduceOption.map (fun a => some (PointId a)) ∧
      ((∀ a c, some a ∈ queue → some c ∈ registered → PointId c = PointId a → c = a) →
        (queue.reduceOption.map PointId).map
            (fun Id => FindPointById PointId registered Id)
          = queue.reduceOption.map some) := by
  intro queue
  induction queue with
  | nil => intro _; exact ⟨rfl, rfl, fun _ => rfl⟩
  | cons e rest ih =>
    intro h
    obtain ⟨i1, i2, i3⟩ := ih (fun a ha => h a (List.mem_cons_of_mem _ ha))
    cases e with
    | none =>
      have h1 : snapshotQueueIds PointId (none :: rest) = snapshotQueueIds PointId rest := by
        conv_lhs => unfold snapshotQueueIds
      rw [h1, List.reduceOption_cons_of_none]
      exact ⟨i1, i2, fun hu => i3 (fun a c ha hc => hu a c (List.mem_cons_of_mem _ ha) hc)⟩
    | some a =>
      have h1 : snapshotQueueIds PointId (some a :: rest)
          = PointId a :: snapshotQueueIds PointId rest := by
        conv_lhs => unfold snapshotQueueIds
      obtain ⟨q, hq⟩ := FindPointById_of_mem PointId registered a
        (h a (List.mem_cons_self _ _))
      have hq2 := FindPointById_some PointId registered _ q hq
      rw [h1, List.reduceOption_cons_of_some, i1]
      refine ⟨rfl, ?_, ?_⟩
      · simp only [List.map_cons, hq, Option.map_some', hq2.1]
        rw [i2]
      · intro hu
        have hqa : q = a := hu a q (List.mem_cons_self _ _) hq2.2 hq2.1
        simp only [List.map_cons, hq, hqa]
        rw [i3 (fun a c ha hc => hu a c (List.mem_cons_of_mem _ ha) hc)]

/-- C19: for a coordinator state `w` with an owner, and any state `w1` of the same points
whose world has a point registry holding the active path point and every queued action
point of `w`: `GetSnapshot` on `w` returns a snapshot, which records the identifiers of
the queued action points (the non-null entries of the queue) in their order, and
`LoadFromSnapshot` of it on `w1` yields a state whose active path point identifier, run
mode, and moving-forward, returning-to-path-point and has-new-path-point flags are those
of `w`, and whose queue holds, entry by entry, an action point with the identifier of the
corresponding queued action point of `w`: the same ordered list of identifiers, and the
same points when no other registered action point has one of these identifiers. When `w`
has an active path point, the state has one with the same identifier, and the same point
when no other registered path point has that identifier. -/
theorem snapshot_round_trip {σ : Type} (env : DASEnv σ) (w w1 : DASWorld σ) (b : Bool)
    (reg : UDASWorldSubsystem) (owner : Nat)
    (hown : w.comp.Owner = some owner)
    (hreg : w1.DASSubsystem = some reg)
    (hids : ∀ p, (w1.pathPoints p).PointId = (w.pathPoints p).PointId)
    (hpath : ∀ P, w.comp.ActivePathPoint = some P → some P ∈ reg.PathPoints)
    (hqueue : ∀ a, some a ∈ w.comp.ActionPointsQueue → some a ∈ reg.ActionPoints) :
    ∃ snap, UDASComponent.GetSnapshot env w = Except.ok snap ∧
      (UDASComponent.LoadFromSnapshot env w1 snap b).activePathPointId
        = w.activePathPointId ∧
      snap.ActionPointsIdQueue
        = w.comp.ActionPointsQueue.reduceOption.map env.ActionPointId ∧
      (UDASComponent.LoadFromSnapshot env w1 snap b).comp.ActionPointsQueue.map
          (Option.map env.ActionPointId)
        = w.comp.ActionPointsQueue.reduceOption.map (fun a => some (env.ActionPointId a)) ∧
      ((∀ a c, some a ∈ w.comp.ActionPointsQueue → some c ∈ reg.ActionPoints →
          env.ActionPointId c = env.ActionPointId a → c = a) →
        (UDASComponent.LoadFromSnapshot env w1 snap b).comp.ActionPointsQueue
          = w.comp.ActionPointsQueue.reduceOption.map some) ∧
      (UDASComponent.LoadFromSnapshot env w1 snap b).comp.RunMode = w.comp.RunMode ∧
      (UDASComponent.LoadFromSnapshot env w1 snap b).comp.bIsMovingForwardAlongPath
        = w.comp.bIsMovingForwardAlongPath ∧
      (UDASComponent.LoadFromSnapshot env w1 snap b).comp.bIsReturningToPathPoint
        = w.comp.bIsReturningToPathPoint ∧
      (UDASComponent.LoadFromSnapshot env w1 snap b).comp.bHasNewPathPoint
        = w.comp.bHasNewPathPoint ∧
      (∀ P, w.comp.ActivePathPoint = some P →
        ∃ Q, (UDASComponent.LoadFromSnapshot env w1 snap b).comp.ActivePathPoint = some Q ∧
          ((UDASComponent.LoadFromSnapshot env w1 snap b).pathPoints Q).PointId
            = (w.pathPoints P).PointId ∧
          ((∀ R, some R ∈ reg.PathPoints →
              (w.pathPoints R).PointId = (w.pathPoints P).PointId → R = P) → Q = P)) := by
  have hfun : (fun p => (w1.pathPoints p).PointId) = (fun p => (w.pathPoints p).PointId) :=
    funext hids
  have hsnap : ∃ snap, UDASComponent.GetSnapshot env w = Except.ok snap ∧
      snap.ActivePathPointId = w.activePathPointId ∧
      snap.ActionPointsIdQueue = snapshotQueueIds env.ActionPointId w.comp.ActionPointsQueue ∧
      snap.RunMode = w.comp.RunMode ∧
      snap.bWasMovingForward = w.comp.bIsMovingForwardAlongPath ∧
      snap.bWasReturningToPathPoint = w.comp.bIsReturningToPathPoint ∧
      snap.bHasNewPathPoint = w.comp.bHasNewPathPoint := by
    unfold UDASComponent.GetSnapshot
    rw [hown]
    exact ⟨_, rfl, rfl, rfl, rfl, rfl, rfl, rfl⟩
  obtain ⟨snap, hs, i1, i2, i3, i4, i5, i6⟩ := hsnap
  obtain ⟨l1, l2, l3, l4, l5, l6, l7⟩ := LoadFromSnapshot_spec env w1 snap b reg hreg
  have hfind : (UDASComponent.LoadFromSnapshot env w1 snap b).comp.ActivePathPoint
      = FindPointById (fun p => (w.pathPoints p).PointId) reg.PathPoints
          w.activePathPointId := by
    rw [l6, i1]
    unfold UDASWorldSubsystem.FindPathPointById
    rw [hfun]
  have hsome : ∀ P, w.comp.ActivePathPoint = some P →
      ∃ Q, (UDASComponent.LoadFromSnapshot env w1 snap b).comp.ActivePathPoint = some Q ∧
        (w.pathPoints Q).PointId = (w.pathPoints P).PointId ∧ some Q ∈ reg.PathPoints := by
    intro P hP
    have hid : w.activePathPointId = (w.pathPoints P).PointId := by
      unfold DASWorld.activePathPointId
      rw [hP]
    obtain ⟨Q, hQ⟩ := FindPointById_of_mem (fun p => (w.pathPoints p).PointId)
      reg.PathPoints P (hpath P hP)
    have hQ2 := FindPointById_some (fun p => (w.pathPoints p).PointId) reg.PathPoints _ Q hQ
    exact ⟨Q, by rw [hfind, hid]; exact hQ, hQ2.1, hQ2.2⟩
  obtain ⟨q1, q2, q3⟩ := FindPointById_queue env.ActionPointId reg.ActionPoints
    w.comp.ActionPointsQueue hqueue
  have hload : (UDASComponent.LoadFromSnapshot env w1 snap b).comp.ActionPointsQueue
      = (w.comp.ActionPointsQueue.reduceOption.map env.ActionPointId).map
          (fun Id => FindPointById env.ActionPointId reg.ActionPoints Id) := by
    rw [l5, i2, q1]
    rfl
  refine ⟨snap, hs, ?_, i2.trans q1, by rw [hload]; exact q2,
    fun hu => by rw [hload]; exact q3 hu,
    l1.trans i3, l2.trans i4, l3.trans i5, l4.trans i6, ?_⟩
  · cases hP : w.comp.ActivePathPoint with
    | some P =>
      obtain ⟨Q, hQ, hQid, _⟩ := hsome P hP
      unfold DASWorld.activePathPointId
      rw [hQ, hP]
      show ((UDASComponent.LoadFromSnapshot env w1 snap b).pathPoints Q).PointId = _
      rw [l7, hids]
      exact hQid
    | none =>
      have hid : w.activePathPointId = 0 := by
        unfold DASWorld.activePathPointId
        rw [hP]
      rw [hid] at hfind ⊢
      cases hF : FindPointById (fun p => (w.pathPoints p).PointId) reg.PathPoints 0 with
      | none =>
        unfold DASWorld.activePathPointId
        rw [hfind, hF]
      | some Q =>
        have hQ2 := FindPointById_some (fun p => (w.pathPoints p).PointId)
          reg.PathPoints _ Q hF
        unfold DASWorld.activePathPointId
        rw [hfind, hF]
        show ((UDASComponent.LoadFromSnapshot env w1 snap b).pathPoints Q).PointId = _
        rw [l7, hids]
        exact hQ2.1
  · intro P hP
    obtain ⟨Q, hQ, hQid, hQmem⟩ := hsome P hP
    refine ⟨Q, hQ, ?_, fun huniq => huniq Q hQmem hQid⟩
    rw [l7, hids]
    exact hQid

theorem snapshot_round_trip_witness :
    lineWorld.comp.Owner = some 1 ∧ movedWorld.DASSubsystem = some lineRegistry ∧
      ∃ snap, UDASComponent.GetSnapshot lineEnv lineWorld = Except.ok snap ∧
        (UDASComponent.LoadFromSnapshot lineEnv movedWorld snap true).comp.ActivePathPoint
          = some 3 ∧
        snap.ActionPointsIdQueue = [110, 112, 111, 113] ∧
        (UDASComponent.LoadFromSnapshot lineEnv movedWorld snap true).comp.ActionPointsQueue
          = [some 10, some 12, some 11, some 13] ∧
        (UDASComponent.LoadFromSnapshot lineEnv movedWorld snap true).comp.RunMode
          = EDASRunMode.ExecutePathPoints := by
  obtain ⟨snap, h1, _, h2, _, h3, h4, _, _, _, h8⟩ :=
    snapshot_round_trip lineEnv lineWorld movedWorld true lineRegistry 1 rfl rfl
      (fun _ => rfl)
      (by intro P hP; cases hP; decide)
      (by
        intro a ha
        have h2 : a = 10 ∨ a = 12 ∨ a = 11 ∨ a = 13 := by
          simpa [lineWorld] using ha
        rcases h2 with h | h | h | h <;> subst h <;> decide)
  obtain ⟨Q, hQ, _, hu⟩ := h8 3 rfl
  have hQ3 : Q = 3 := hu (fun R _ h => h)
  subst hQ3
  have hinj : ∀ a c, some a ∈ lineWorld.comp.ActionPointsQueue →
      some c ∈ lineRegistry.ActionPoints →
      lineEnv.ActionPointId c = lineEnv.ActionPointId a → c = a := by
    intro a c _ _ h
    have h2 : c + 100 = a + 100 := h
    omega
  exact ⟨rfl, rfl, snap, h1, hQ, h2, h3 hinj, h4⟩

/-! ## Theorems: the registry, the library, instanced objects -/

/-- With an invalid tag the loop of the two searches skips every point. -/
theorem FindClosestPoint_loop_invalid_tag (env : RegistryEnv) (SourceLocation : FVector)
    (PointTag : Nat) (htag : env.TagIsValid PointTag = false) :
    ∀ (registered : List (Option Nat)) (retPoint : Option Nat) (closestDistance : ℚ),
      FindClosestPoint_loop env SourceLocation PointTag registered retPoint closestDistance
        = retPoint := by
  intro registered
  induction registered with
  | nil => intro retPoint closestDistance; rfl
  | cons e rest ih =>
    intro retPoint closestDistance
    cases e with
    | none =>
      unfold FindClosestPoint_loop
      exact ih retPoint closestDistance
    | some point =>
      unfold FindClosestPoint_loop
      by_cases hv : env.IsValid point = true
      · rw [if_pos hv, if_pos (Or.inl htag)]
        exact ih retPoint closestDistance
      · rw [if_neg hv]
        exact ih retPoint closestDistance

/-- C21 fails on the code: with the unset tag both searches return none on a registry
that holds valid points (for every registry, as the loop skips every point), while the
claim and the doc comments (`if valid, looks for points only matching this tag`) have
them return the closest of all registered points. -/
theorem FindClosest_unset_tag_returns_none :
    lineRegistry.FindClosestPathPoint tagEnv ⟨0, 0, 0⟩ 0 = none ∧
      lineRegistry.FindClosestActionPoint tagEnv ⟨0, 0, 0⟩ 0 = none ∧
      tagEnv.TagIsValid 0 = false ∧
      (∀ p, some p ∈ lineRegistry.PathPoints → tagEnv.IsValid p = true) ∧
      ∀ (env : RegistryEnv) (reg : UDASWorldSubsystem) (SourceLocation : FVector)
        (PointTag : Nat), env.TagIsValid PointTag = false →
        reg.FindClosestPathPoint env SourceLocation PointTag = none ∧
        reg.FindClosestActionPoint env SourceLocation PointTag = none :=
  ⟨FindClosestPoint_loop_invalid_tag tagEnv _ 0 rfl _ _ _,
    FindClosestPoint_loop_invalid_tag tagEnv _ 0 rfl _ _ _, rfl, fun _ _ => rfl,
    fun env _ loc tag h =>
      ⟨FindClosestPoint_loop_invalid_tag env loc tag h _ _ _,
        FindClosestPoint_loop_invalid_tag env loc tag h _ _ _⟩⟩

/-- The output array of `FilterOutTakenActionPoints` is its content on entry followed by
the non-null, not-taken points of the input, in input order. -/
theorem FilterOutTakenActionPoints_eq (actionPoints : Nat → ADASActionPoint) :
    ∀ (ActionPoints FilteredActionPoints : List (Option Nat)),
      UDASBPLibrary.FilterOutTakenActionPoints actionPoints FilteredActionPoints ActionPoints
        = FilteredActionPoints ++
          ActionPoints.filter (fun e =>
            match e with
            | some a => !(actionPoints a).IsTaken
            | none => false) := by
  intro ActionPoints
  induction ActionPoints with
  | nil => intro F; simp [UDASBPLibrary.FilterOutTakenActionPoints]
  | cons e rest ih =>
    intro F
    cases e with
    | none =>
      unfold UDASBPLibrary.FilterOutTakenActionPoints
      rw [ih F]
      simp
    | some a =>
      unfold UDASBPLibrary.FilterOutTakenActionPoints
      by_cases ht : (actionPoints a).IsTaken = false
      · rw [if_pos ht, ih]
        simp [ht]
      · rw [if_neg ht, ih]
        have ht2 : (actionPoints a).IsTaken = true := by simpa using ht
        simp [ht2]

/-- C22 fails on the code: the output array is not emptied. With the taken point 12 in it
on entry, it holds `[12, 10, 11]` after the call on the input `[null, 10, 12, 11]`, whose
non-null points that are not taken are 10 and 11; on an output array that is empty on
entry the result is `[10, 11]`. -/
theorem FilterOutTakenActionPoints_keeps_prior_content :
    (lineWorld.actionPoints 12).IsTaken = true ∧
      UDASBPLibrary.FilterOutTakenActionPoints lineWorld.actionPoints [some 12]
          [none, some 10, some 12, some 11]
        = [some 12, some 10, some 11] ∧
      UDASBPLibrary.FilterOutTakenActionPoints lineWorld.actionPoints []
          [none, some 10, some 12, some 11]
        = [some 10, some 11] := by
  refine ⟨rfl, ?_, ?_⟩
  · rfl
  · rfl

/-- The loop of `ADASActionPoint::RefreshInstancedObjects` keeps the length of the
array. -/
theorem RefreshInstancedObjects_loop_length (DuplicateObject : Nat → Nat) :
    ∀ (n i : Nat) (Actions : List (Option Nat)),
      (ADASActionPoint.RefreshInstancedObjects_loop DuplicateObject n i Actions).length
        = Actions.length := by
  intro n
  induction n with
  | zero => intro i Actions; rfl
  | succ n ih =>
    intro i Actions
    unfold ADASActionPoint.RefreshInstancedObjects_loop
    split
    · rw [ih, List.length_set]
    · rw [ih]

/-- The loop of `ADASActionPoint::RefreshInstancedObjects` leaves every entry at an
index it does not reach as it was. -/
theorem RefreshInstancedObjects_loop_untouched (DuplicateObject : Nat → Nat) :
    ∀ (n i : Nat) (Actions : List (Option Nat)) (k : Nat), i + n ≤ k →
      (ADASActionPoint.RefreshInstancedObjects_loop DuplicateObject n i Actions)[k]?
        = Actions[k]? := by
  intro n
  induction n with
  | zero => intro i Actions k _; rfl
  | succ n ih =>
    intro i Actions k hk
    unfold ADASActionPoint.RefreshInstancedObjects_loop
    split
    · rw [ih (i + 1) _ k (by omega), List.getElem?_set_ne (by omega)]
    · rw [ih (i + 1) _ k (by omega)]

/-- C27 fails on the code: the loop stops one entry early, so the last entry of
`Actions` is never replaced. On `[1, null, 2]` the result is `[101, null, 2]` when the
duplicate of object `o` is `o + 100`, and a single action is left as it is; for every
non-empty `Actions` the last entry after the call is the last entry before it. -/
theorem RefreshInstancedObjects_skips_last_action :
    ADASActionPoint.RefreshInstancedObjects (fun o => o + 100)
        { ConditionQueryInstance := some 5, Actions := [some 1, none, some 2] }
      = { ConditionQueryInstance := some 105, Actions := [some 101, none, some 2] } ∧
    ADASActionPoint.RefreshInstancedObjects (fun o => o + 100)
        { ConditionQueryInstance := none, Actions := [some 1] }
      = { ConditionQueryInstance := none, Actions := [some 1] } ∧
    ∀ (DuplicateObject : Nat → Nat) (x : InstancedObjects),
      (ADASActionPoint.RefreshInstancedObjects DuplicateObject x).Actions[
          x.Actions.length - 1]?
        = x.Actions[x.Actions.length - 1]? := by
  refine ⟨rfl, rfl, ?_⟩
  intro DuplicateObject x
  have hA : (ADASBasePoint.RefreshInstancedObjects DuplicateObject x).Actions = x.Actions := by
    unfold ADASBasePoint.RefreshInstancedObjects
    cases x.ConditionQueryInstance <;> rfl
  unfold ADASActionPoint.RefreshInstancedObjects
  simp only [hA]
  apply RefreshInstancedObjects_loop_untouched
  omega

/-! ## Theorems: callbacks, cooldown without `Cooldown`, operators, solvers -/

/-- C30 fails on the code: `FinishExecute` does not unbind `ActiveFinishExecutionDelegate`
and the plain `Execute` does not replace it. On a fresh authoritative point, after
`AsyncExecute( a, d )`, `FinishExecute( true )`, `Execute( b )`, `FinishExecute( false )`
the completion callback `d` has been run twice: with Success by the finish of its own
execution, and with Failed by the finish of the execution the plain `Execute` started. -/
theorem stale_callback_runs_again :
    delegateRuns 7
        ((ADASActionPoint.construct true 0).calls
          [APCall.AsyncExecute (some 1) (some 7), APCall.FinishExecute (some 5) true,
            APCall.Execute (some 2), APCall.FinishExecute (some 9) false]).events
      = [EDASExecutionResult.Success, EDASExecutionResult.Failed] ∧
    delegateRuns 7
        ((ADASActionPoint.construct true 0).calls
          [APCall.AsyncExecute (some 1) (some 7),
            APCall.FinishExecute (some 5) true]).events
      = [EDASExecutionResult.Success] := by
  constructor
  · simp [ADASActionPoint.calls, ADASActionPoint.call, AsyncExecute_eq, FinishExecute_eq,
      Execute_eq, ADASActionPoint.construct, delegateRuns]
  · simp [ADASActionPoint.calls, ADASActionPoint.call, AsyncExecute_eq, FinishExecute_eq,
      ADASActionPoint.construct, delegateRuns]

/-- C24, as stated, fails: on a point with `Cooldown = 0` to which `ApplyCustomCooldown( 10 )`
was applied at time 0, a successful `FinishExecute` at time 1 leaves the cooldown end
time at 10, so at time 1 the point is on cooldown, the remaining time is 9 and `CanRun`
returns false without asking the condition query. -/
theorem custom_cooldown_survives_finish :
    ((((ADASActionPoint.construct true 0).ApplyCustomCooldown (some 0) 10).Execute
        (some 1)).FinishExecute (some 1) true).IsOnCooldown (some 1) = true ∧
      ((((ADASActionPoint.construct true 0).ApplyCustomCooldown (some 0) 10).Execute
        (some 1)).FinishExecute (some 1) true).GetCooldownRemainingTime (some 1) = 9 ∧
      ∀ (value : Nat → Bool) (fuel : Nat) (pm : PointMem),
        ((((ADASActionPoint.construct true 0).ApplyCustomCooldown (some 0) 10).Execute
          (some 1)).FinishExecute (some 1) true).CanRun_Implementation (some 1) value fuel pm
          = Except.ok (false, pm) := by
  have hend : ((((ADASActionPoint.construct true 0).ApplyCustomCooldown (some 0) 10).Execute
      (some 1)).FinishExecute (some 1) true).CooldownEndWorldTime = 10 := by
    simp [FinishExecute_eq, Execute_eq, ADASActionPoint.ApplyCustomCooldown,
      ADASActionPoint.construct, roundToFloat_ten]
  have hon : ((((ADASActionPoint.construct true 0).ApplyCustomCooldown (some 0) 10).Execute
      (some 1)).FinishExecute (some 1) true).IsOnCooldown (some 1) = true := by
    simp only [ADASActionPoint.IsOnCooldown, hend]
    norm_num
  refine ⟨hon, ?_, ?_⟩
  · simp only [ADASActionPoint.GetCooldownRemainingTime, hend]
    norm_num [roundToFloat_nine]
  · intro value fuel pm
    simp only [ADASActionPoint.CanRun_Implementation]
    rw [if_pos hon]

/-- C24, amended: on a point whose `Cooldown` is not positive, `FinishExecute` never
changes the cooldown end time, so after it the point is on cooldown exactly when it was
before, with the same remaining time; when the end time is not ahead of the current
time, as on a point to which no custom cooldown was applied at a time that is not
negative, the point is not on cooldown, the remaining time is 0 and `CanRun` is the
parent implementation, that is the result of the condition query. -/
theorem finish_without_cooldown (p : ADASActionPoint) (world : Option ℚ) (bSuccess : Bool)
    (hc : p.Cooldown ≤ 0) :
    (p.FinishExecute world bSuccess).CooldownEndWorldTime = p.CooldownEndWorldTime ∧
      (∀ now, (p.FinishExecute world bSuccess).IsOnCooldown now = p.IsOnCooldown now) ∧
      (∀ now, (p.FinishExecute world bSuccess).GetCooldownRemainingTime now
        = p.GetCooldownRemainingTime now) ∧
      (∀ now : ℚ, p.CooldownEndWorldTime ≤ now →
        (p.FinishExecute world bSuccess).IsOnCooldown (some now) = false ∧
        (p.FinishExecute world bSuccess).GetCooldownRemainingTime (some now) = 0 ∧
        ∀ (value : Nat → Bool) (fuel : Nat) (pm : PointMem),
          (p.FinishExecute world bSuccess).CanRun_Implementation (some now) value fuel pm
            = ADASBasePoint.CanRun_Implementation value fuel pm) := by
  have hend : (p.FinishExecute world bSuccess).CooldownEndWorldTime
      = p.CooldownEndWorldTime := by
    rw [FinishExecute_eq]
    by_cases h : p.bIsExecuting = true
    · rw [if_pos h]
      have hn : ¬ (bSuccess = true ∧ 0 < p.Cooldown) := fun h2 => absurd h2.2 (not_lt.mpr hc)
      simp only [if_neg hn]
    · rw [if_neg h]
  have hon : ∀ now, (p.FinishExecute world bSuccess).IsOnCooldown now = p.IsOnCooldown now := by
    intro now
    simp only [ADASActionPoint.IsOnCooldown, hend]
  have hrem : ∀ now, (p.FinishExecute world bSuccess).GetCooldownRemainingTime now
      = p.GetCooldownRemainingTime now := by
    intro now
    simp only [ADASActionPoint.GetCooldownRemainingTime, hend]
  refine ⟨hend, hon, hrem, ?_⟩
  intro now hnow
  have h1 : (p.FinishExecute world bSuccess).IsOnCooldown (some now) = false := by
    rw [hon]
    simp only [ADASActionPoint.IsOnCooldown]
    exact decide_eq_false (not_lt.mpr hnow)
  refine ⟨h1, ?_, ?_⟩
  · rw [hrem]
    simp only [ADASActionPoint.GetCooldownRemainingTime]
    rw [if_neg (not_lt.mpr hnow)]
  · intro value fuel pm
    simp only [ADASActionPoint.CanRun_Implementation]
    rw [if_neg (by simp [h1])]

theorem finish_without_cooldown_witness :
    ({ executingPoint with Cooldown := 0 } : ADASActionPoint).Cooldown ≤ 0 ∧
      (({ executingPoint with Cooldown := 0 } : ADASActionPoint).FinishExecute
        (some 3) true).IsOnCooldown (some 3) = false := by
  have hc : ({ executingPoint with Cooldown := 0 } : ADASActionPoint).Cooldown ≤ 0 :=
    le_refl _
  have h0 : ({ executingPoint with Cooldown := 0 } : ADASActionPoint).CooldownEndWorldTime
      ≤ 3 := by
    norm_num [executingPoint, ADASActionPoint.construct]
  exact ⟨hc, ((finish_without_cooldown _ (some 3) true hc).2.2.2 3 h0).1⟩

/-- On a chain whose later operators are all AND, the fold of the loop is the conjunction
of the values from the running result on. -/
theorem specFoldLater_all_AND (value : Nat → Bool) :
    ∀ (rest : List (Nat × EDASOperator)) (result : Bool),
      (∀ e ∈ rest, e.2 = EDASOperator.AND) →
      (specFoldLater value rest result).1 = (result && rest.all (fun e => value e.1)) := by
  intro rest
  induction rest with
  | nil => intro result _; simp [specFoldLater]
  | cons e rest ih =>
    intro result h
    obtain ⟨c, op⟩ := e
    have hop : op = EDASOperator.AND := h (c, op) (List.mem_cons_self _ _)
    subst hop
    have hrest : ∀ e ∈ rest, e.2 = EDASOperator.AND :=
      fun e he => h e (List.mem_cons_of_mem _ he)
    cases result
    · simp [specFoldLater]
    · simp [specFoldLater, ih (value c) hrest]

/-- On a chain whose later operators are all OR, the fold of the loop is the disjunction
of the values from the running result on. -/
theorem specFoldLater_all_OR (value : Nat → Bool) :
    ∀ (rest : List (Nat × EDASOperator)) (result : Bool),
      (∀ e ∈ rest, e.2 = EDASOperator.OR) →
      (specFoldLater value rest result).1 = (result || rest.any (fun e => value e.1)) := by
  intro rest
  induction rest with
  | nil => intro result _; simp [specFoldLater]
  | cons e rest ih =>
    intro result h
    obtain ⟨c, op⟩ := e
    have hop : op = EDASOperator.OR := h (c, op) (List.mem_cons_self _ _)
    subst hop
    have hrest : ∀ e ∈ rest, e.2 = EDASOperator.OR :=
      fun e he => h e (List.mem_cons_of_mem _ he)
    cases result
    · simp [specFoldLater, ih (value c) hrest]
    · simp [specFoldLater, ih true hrest]

/-- Whenever the fold of the loop ends true, so does the left-associative evaluation from
the same running result. -/
theorem specFoldLater_true_leftAssociative (value : Nat → Bool) :
    ∀ (rest : List (Nat × EDASOperator)) (result : Bool),
      (specFoldLater value rest result).1 = true →
      leftAssociativeLater value rest result = true := by
  intro rest
  induction rest with
  | nil => intro result h; simpa [specFoldLater, leftAssociativeLater] using h
  | cons e rest ih =>
    intro result h
    obtain ⟨c, op⟩ := e
    cases result <;> cases op
    · simp [specFoldLater] at h
    · simp only [leftAssociativeLater, applyOperator, Bool.false_or]
      apply ih
      simpa [specFoldLater] using h
    · simp only [leftAssociativeLater, applyOperator, Bool.true_and]
      apply ih
      simpa [specFoldLater] using h
    · simp only [leftAssociativeLater, applyOperator, Bool.true_or]
      apply ih
      simpa [specFoldLater] using h

/-- C28: on every chain of non-null conditions `IsConditionFulfilled_Internal` returns a
result, which the query evaluated in memory returns too; when every operator after the
first entry is AND it is the conjunction of the values of all conditions; when the chain
is not empty and every operator after the first entry is OR it is the disjunction of the
values of all conditions; and whenever it is true, the left-associative evaluation of
the chain is true. -/
theorem operators_AND_OR_leftAssociative (value : Nat → Bool)
    (chain : List (Nat × EDASOperator)) :
    ∃ r, IsConditionFulfilled_Internal (traceEval value) (chain.map wrap) [] = Except.ok r ∧
      (∀ (m : QueryMem) (fuel : Nat), m.query.Conditions = chain.map wrap →
        chain.length < fuel →
        ∃ t, UDASConditionQuery.IsConditionFulfilled value fuel m = Except.ok (r.1, t)) ∧
      ((∀ e ∈ chain.tail, e.2 = EDASOperator.AND) →
        r.1 = chain.all (fun e => value e.1)) ∧
      (chain ≠ [] → (∀ e ∈ chain.tail, e.2 = EDASOperator.OR) →
        r.1 = chain.any (fun e => value e.1)) ∧
      (r.1 = true → leftAssociative value chain = true) := by
  refine ⟨specFold value chain, Internal_traceEval_eq_specFold value chain, ?_, ?_, ?_, ?_⟩
  · intro m fuel hm hfuel
    obtain ⟨t, ht, _⟩ := IsConditionFulfilled_returns value fuel m chain hm
      (lt_of_le_of_lt (mismatch_le_length value _ m) (by simpa using hfuel))
    exact ⟨t, ht⟩
  · intro h
    cases chain with
    | nil => simp [specFold]
    | cons e rest =>
      obtain ⟨c, op⟩ := e
      simp only [specFold, List.all_cons]
      exact specFoldLater_all_AND value rest (value c) h
  · intro hne h
    cases chain with
    | nil => exact absurd rfl hne
    | cons e rest =>
      obtain ⟨c, op⟩ := e
      simp only [specFold, List.any_cons]
      exact specFoldLater_all_OR value rest (value c) h
  · intro h
    cases chain with
    | nil => rfl
    | cons e rest =>
      obtain ⟨c, op⟩ := e
      simp only [leftAssociative]
      apply specFoldLater_true_leftAssociative
      simpa [specFold] using h

theorem operators_AND_OR_leftAssociative_witness :
    ∃ r, IsConditionFulfilled_Internal (traceEval (fun c => decide (c = 2)))
          ([(0, EDASOperator.AND), (1, EDASOperator.OR), (2, EDASOperator.OR)].map wrap) []
          = Except.ok r ∧
      r.1 = [(0, EDASOperator.AND), (1, EDASOperator.OR), (2, EDASOperator.OR)].any
          (fun e => decide (e.1 = 2)) ∧
      r.1 = true := by
  obtain ⟨r, h1, _, _, h4, _⟩ := operators_AND_OR_leftAssociative (fun c => decide (c = 2))
    [(0, EDASOperator.AND), (1, EDASOperator.OR), (2, EDASOperator.OR)]
  have h5 := h4 (by simp) (by simp)
  exact ⟨r, h1, h5, h5.trans (by decide)⟩

/-- C29: when a direction is enabled, has at least one link and has a solver assigned,
`GetNextPathPoint` (forward) and `GetPreviousPathPoint` (backward) return what the
solver's `SelectPathPoint` returns on the component and the whole link list, and leave
the state that call leaves: no `CanRun()` is called, the selection is not tested, and
none from the solver is none from the function. -/
theorem GetNextOrPrevious_with_solver {σ : Type} (env : DASEnv σ) (self : ADASPathPoint)
    (bForward : Bool) (c : Option Nat) (s : σ) (solver : Nat)
    (hmove : self.canMove bForward = true) (hlinks : self.links bForward ≠ [])
    (hsolver : self.solver bForward = some solver) :
    self.GetNextOrPrevious env bForward c s
        = env.SelectPathPoint solver c (self.links bForward) s ∧
      (bForward = true → self.GetNextPathPoint env c s
        = env.SelectPathPoint solver c self.NextPathPoints s) ∧
      (bForward = false → self.GetPreviousPathPoint env c s
        = env.SelectPathPoint solver c self.PreviousPathPoints s) := by
  have key : self.GetNextOrPrevious env bForward c s
      = env.SelectPathPoint solver c (self.links bForward) s := by
    rw [GetNextOrPrevious_eq, hsolver]
    unfold ADASPathPoint.GetLinkedPathPoint
    rw [if_pos ⟨hmove, List.length_pos.mpr hlinks⟩]
  refine ⟨key, ?_, ?_⟩
  · intro hb
    subst hb
    exact key
  · intro hb
    subst hb
    exact key

theorem GetNextOrPrevious_with_solver_witness :
    solverPoint.canMove false = true ∧ solverPoint.links false = [none, some 2, some 1] ∧
      solverPoint.solver false = some 9 ∧
      (lineEnv.CanRunPathPoint 2 ()).1 = false ∧
      (solverPoint.GetPreviousPathPoint solverEnv (some 50) ()).1 = some 2 ∧
      (solverPoint.GetPreviousPathPoint lineEnv (some 50) ()).1 = none ∧
      (endPoint.GetPreviousPathPoint lineEnv (some 50) ()).1 = some 1 :=
  ⟨rfl, rfl, rfl, rfl,
    congrArg Prod.fst
      ((GetNextOrPrevious_with_solver solverEnv solverPoint false (some 50) () 9 rfl
        (by decide) rfl).2.2 rfl),
    congrArg Prod.fst
      ((GetNextOrPrevious_with_solver lineEnv solverPoint false (some 50) () 9 rfl
        (by decide) rfl).2.2 rfl),
    rfl⟩

/-! ## Theorems: initialisation and reset of the coordinator -/

theorem withEvents_UpdateBBKey {σ : Type} (env : DASEnv σ) (c : UDASComponent)
    (key : BBKey) (value : BBValue) :
    (c.UpdateBBKey env key value).withEvents [] = c.withEvents [] :=
  (SameButEvents_UpdateBBKey env c key value).symm

/-- The component after `RefreshBlackboardKeys` differs from the one before in its event
log only. -/
theorem RefreshBlackboardKeys_frame {σ : Type} (env : DASEnv σ) (w : DASWorld σ) :
    UDASComponent.SameButEvents w.comp (UDASComponent.RefreshBlackboardKeys env w).comp ∧
      (UDASComponent.RefreshBlackboardKeys env w).pathPoints = w.pathPoints := by
  refine ⟨?_, rfl⟩
  unfold UDASComponent.SameButEvents UDASComponent.RefreshBlackboardKeys
  dsimp only
  repeat' split
  all_goals simp only [withEvents_UpdateBBKey]

/-- The component after a `SetRunMode` that changes the run mode: the fields the function
assigns, and nothing else but the event log. -/
theorem SetRunMode_frame {σ : Type} (env : DASEnv σ) (w : DASWorld σ) (New : EDASRunMode)
    (h : w.comp.RunMode ≠ New) :
    UDASComponent.SameButEvents
      { w.comp with
        RunMode := New
        ActionPointsQueue :=
          if w.comp.RunMode = EDASRunMode.ExecuteActionsFromSelector ∨
              w.comp.RunMode = EDASRunMode.ExecutePathPoints then []
          else w.comp.ActionPointsQueue
        ActiveActionPoint :=
          if w.comp.RunMode = EDASRunMode.ExecuteActionsFromSelector ∨
              w.comp.RunMode = EDASRunMode.ExecutePathPoints then none
          else w.comp.ActiveActionPoint }
      (UDASComponent.SetRunMode env w New).comp := by
  unfold UDASComponent.SetRunMode
  rw [if_pos h]
  by_cases hm : w.comp.RunMode = EDASRunMode.ExecuteActionsFromSelector ∨
      w.comp.RunMode = EDASRunMode.ExecutePathPoints
  · obtain ⟨s1, _, _, _⟩ := SetActionPoint_spec env
      { w with
        comp := UDASComponent.ClearActionPointsQueue { w.comp with RunMode := New } } none
    simp only [if_pos hm]
    exact SameButEvents_trans (SameButEvents_trans s1 (SameButEvents_UpdateBBKey env _ _ _))
      (SameButEvents_raise _ _)
  · simp only [if_neg hm]
    exact SameButEvents_trans (SameButEvents_UpdateBBKey env _ _ _) (SameButEvents_raise _ _)

/-- What `SetRunMode` keeps: the owner, the initialized flag and the active path point;
an empty queue stays empty and an unset active action point stays unset. -/
theorem SetRunMode_keeps {σ : Type} (env : DASEnv σ) (w : DASWorld σ) (New : EDASRunMode) :
    (UDASComponent.SetRunMode env w New).comp.Owner = w.comp.Owner ∧
      (UDASComponent.SetRunMode env w New).comp.bIsInitialized = w.comp.bIsInitialized ∧
      (UDASComponent.SetRunMode env w New).comp.ActivePathPoint = w.comp.ActivePathPoint ∧
      (w.comp.ActionPointsQueue = [] →
        (UDASComponent.SetRunMode env w New).comp.ActionPointsQueue = []) ∧
      (w.comp.ActiveActionPoint = none →
        (UDASComponent.SetRunMode env w New).comp.ActiveActionPoint = none) := by
  by_cases h : w.comp.RunMode ≠ New
  · have s := SetRunMode_frame env w New h
    refine ⟨(congrArg UDASComponent.Owner s).symm,
      (congrArg UDASComponent.bIsInitialized s).symm,
      (congrArg UDASComponent.ActivePathPoint s).symm, ?_, ?_⟩
    · intro hq
      have q := (congrArg UDASComponent.ActionPointsQueue s).symm
      simp only [UDASComponent.withEvents, hq, ite_self] at q
      exact q
    · intro ha
      have q := (congrArg UDASComponent.ActiveActionPoint s).symm
      simp only [UDASComponent.withEvents, ha, ite_self] at q
      exact q
  · unfold UDASComponent.SetRunMode
    rw [if_neg h]
    exact ⟨rfl, rfl, rfl, fun hq => hq, fun ha => ha⟩

/-- What `SetPathPoint` keeps: the owner and the initialized flag; an empty queue stays
empty and an unset active action point stays unset. -/
theorem SetPathPoint_keeps {σ : Type} (env : DASEnv σ) (w : DASWorld σ) (New : Option Nat) :
    (UDASComponent.SetPathPoint env w New).comp.Owner = w.comp.Owner ∧
      (UDASComponent.SetPathPoint env w New).comp.bIsInitialized = w.comp.bIsInitialized ∧
      (w.comp.ActionPointsQueue = [] →
        (UDASComponent.SetPathPoint env w New).comp.ActionPointsQueue = []) ∧
      (w.comp.ActiveActionPoint = none →
        (UDASComponent.SetPathPoint env w New).comp.ActiveActionPoint = none) := by
  by_cases h : New ≠ w.comp.ActivePathPoint
  · obtain ⟨s, _⟩ := SetPathPoint_spec env w New h
    refine ⟨(congrArg UDASComponent.Owner s).symm,
      (congrArg UDASComponent.bIsInitialized s).symm, ?_, ?_⟩
    · intro hq
      have q := (congrArg UDASComponent.ActionPointsQueue s).symm
      simp only [UDASComponent.withEvents, hq, ite_self] at q
      exact q
    · intro ha
      have q := (congrArg UDASComponent.ActiveActionPoint s).symm
      simp only [UDASComponent.withEvents, ha, ite_self] at q
      exact q
  · unfold UDASComponent.SetPathPoint
    rw [if_neg h]
    exact ⟨rfl, rfl, fun hq => hq, fun ha => ha⟩

theorem SetIsInitialized_eq (c : UDASComponent) (b : Bool) :
    ∃ ev, c.SetIsInitialized b = { c with bIsInitialized := b, events := ev } := by
  unfold UDASComponent.SetIsInitialized
  by_cases h : c.bIsInitialized ≠ b
  · rw [if_pos h]
    exact ⟨_, rfl⟩
  · rw [if_neg h]
    have h2 : c.bIsInitialized = b := not_not.mp h
    exact ⟨c.events, by rw [← h2]⟩

theorem SetPathBehavior_eq (c : UDASComponent) (b : EDASPathBehavior) :
    ∃ ev, c.SetPathBehavior b = { c with PathBehavior := b, events := ev } := by
  unfold UDASComponent.SetPathBehavior
  by_cases h : c.PathBehavior ≠ b
  · rw [if_pos h]
    exact ⟨_, rfl⟩
  · rw [if_neg h]
    have h2 : c.PathBehavior = b := not_not.mp h
    exact ⟨c.events, by rw [← h2]⟩

theorem SetIsInitialized_flag (c : UDASComponent) (b : Bool) :
    (c.SetIsInitialized b).bIsInitialized = b := by
  obtain ⟨ev, h⟩ := SetIsInitialized_eq c b
  rw [h]

/-- `SetIsInitialized` raises `ReceiveInit` and `OnInitialized` on every change of the
flag, in either direction, and on no call that leaves the flag as it is. -/
theorem SetIsInitialized_events (c : UDASComponent) (b : Bool) :
    (c.SetIsInitialized b).events
      = if c.bIsInitialized = b then c.events else c.events ++ [CompEvent.ReceiveInit] := by
  unfold UDASComponent.SetIsInitialized
  by_cases h : c.bIsInitialized = b
  · rw [if_neg (not_not.mpr h), if_pos h]
  · rw [if_pos h, if_neg h]
    rfl

/-- The state `Reset` returns when the component has an owner for whose class the
class-default component is found. -/
theorem Reset_fields {σ : Type} (env : DASEnv σ) (oenv : OwnerEnv σ) (w : DASWorld σ)
    (owner : Nat) (ComponentCDO : UDASComponent) (hown : w.comp.Owner = some owner)
    (hcdo : oenv.FindDefaultComponentByClass owner = some ComponentCDO) :
    ∃ r, UDASComponent.Reset env oenv w = Except.ok r ∧
      r.comp.Owner = w.comp.Owner ∧
      r.comp.bIsInitialized = false ∧
      r.comp.ActionPointsQueue = [] ∧
      r.comp.ActiveActionPoint = none ∧
      r.comp.ActivePathPoint = none ∧
      r.comp.RunMode = ComponentCDO.RunMode ∧
      r.comp.bIsMovingForwardAlongPath = ComponentCDO.bIsMovingForwardAlongPath ∧
      r.comp.bIsReturningToPathPoint = false ∧
      r.comp.bHasNewPathPoint = false ∧
      r.comp.PathBehavior = EDASPathBehavior.Undefined ∧
      r.comp.CurrentGoalLocation = ⟨0, 0, 0⟩ ∧
      r.comp.CurrentGoalRotation = ⟨0, 0, 0⟩ ∧
      r.comp.ActionSelector = none ∧
      r.comp.InitialPathPoint = none := by
  obtain ⟨w3, hw3⟩ : ∃ x, x = UDASComponent.SetActionPoint env
      { w with comp := (w.comp.SetIsInitialized false).ClearActionPointsQueue } none :=
    ⟨_, rfl⟩
  obtain ⟨w4, hw4⟩ : ∃ x, x = UDASComponent.SetPathPoint env w3 none := ⟨_, rfl⟩
  obtain ⟨w5, hw5⟩ : ∃ x, x = UDASComponent.SetRunMode env w4 ComponentCDO.RunMode :=
    ⟨_, rfl⟩
  obtain ⟨c9, hc9⟩ : ∃ x : UDASComponent, x =
      ((({ w5.comp with
            CurrentGoalLocation := ⟨0, 0, 0⟩
            CurrentGoalRotation := ⟨0, 0, 0⟩ } : UDASComponent).SetIsReturningToPathPoint
          false).SetHasNewPathPoint false).SetIsMovingForwardAlongPath
        ComponentCDO.bIsMovingForwardAlongPath := ⟨_, rfl⟩
  have key : UDASComponent.Reset env oenv w =
      Except.ok
        { w5 with
          comp := ({ c9.SetPathBehavior EDASPathBehavior.Undefined with
            ActionSelector := none
            InitialPathPoint := none
            OwnerAIController := none } : UDASComponent).raise CompEvent.ClearDelegates } := by
    rw [hc9, hw5, hw4, hw3]
    unfold UDASComponent.Reset
    simp only [hown, hcdo]
  obtain ⟨ev0, h0⟩ := SetIsInitialized_eq w.comp false
  obtain ⟨s3, _, _, _⟩ := SetActionPoint_spec env
    { w with comp := (w.comp.SetIsInitialized false).ClearActionPointsQueue } none
  rw [← hw3, h0] at s3
  obtain ⟨k4o, k4i, k4q, k4a⟩ := SetPathPoint_keeps env w3 none
  obtain ⟨a4, _, _⟩ := SetPathPoint_always env w3 none
  rw [← hw4] at k4o k4i k4q k4a a4
  obtain ⟨k5o, k5i, k5p, k5q, k5a⟩ := SetRunMode_keeps env w4 ComponentCDO.RunMode
  obtain ⟨r5, _⟩ := SetRunMode_spec env w4 ComponentCDO.RunMode
  rw [← hw5] at k5o k5i k5p k5q k5a r5
  have e3o : w3.comp.Owner = w.comp.Owner := (congrArg UDASComponent.Owner s3).symm
  have e3i : w3.comp.bIsInitialized = false :=
    (congrArg UDASComponent.bIsInitialized s3).symm
  have e3q : w3.comp.ActionPointsQueue = [] :=
    (congrArg UDASComponent.ActionPointsQueue s3).symm
  have e3a : w3.comp.ActiveActionPoint = none :=
    (congrArg UDASComponent.ActiveActionPoint s3).symm
  obtain ⟨ev, hpb⟩ := SetPathBehavior_eq c9 EDASPathBehavior.Undefined
  rw [key, hpb, hc9]
  exact ⟨_, rfl, (k5o.trans k4o).trans e3o, (k5i.trans k4i).trans e3i, k5q (k4q e3q),
    k5a (k4a e3a), k5p.trans a4, r5, rfl, rfl, rfl, rfl, rfl, rfl, rfl, rfl⟩

/-- A call of `Init` on a component that is not initialized and whose owner, behavior
tree and controller pass the tests returns true and leaves the component initialized. -/
theorem Init_succeeds {σ : Type} (env : DASEnv σ) (oenv : OwnerEnv σ) (w : DASWorld σ)
    (owner tree controller : Nat) (hnot : w.comp.bIsInitialized = false)
    (hown : w.comp.Owner = some owner) (hauth : oenv.HasAuthority owner = true)
    (hpawn : oenv.IsPawn owner = true) (hint : oenv.ImplementsDASInterface owner = true)
    (hctl : env.GetAIController (some owner) = some controller)
    (hrun : (oenv.RunBehaviorTree controller tree w.ext).1 = true) :
    (UDASComponent.Init env oenv w (some tree)).1 = true ∧
      (UDASComponent.Init env oenv w (some tree)).2.comp.bIsInitialized = true := by
  unfold UDASComponent.Init
  rw [if_neg (by simp [hnot])]
  simp only [hown, hctl]
  rw [if_neg (by simp [hauth]), if_neg (by simp [hpawn]), if_neg (by simp [hint]),
    if_pos hrun]
  refine ⟨rfl, ?_⟩
  exact SetIsInitialized_flag _ true

/-- C25 fails on the code: `SetIsInitialized` calls `OnRep_IsInitialized` on every change
of the flag, so `Reset` on an initialized component, whose first step is
`SetIsInitialized( false )`, runs the hook `ReceiveInit` and broadcasts `OnInitialized`
while the component becomes uninitialized. On the initialized coordinator of
`lineWorld`, whose log is empty, the log after `Reset` starts with that event. -/
theorem Reset_fires_ReceiveInit :
    lineWorld.comp.bIsInitialized = true ∧ lineWorld.comp.events = [] ∧
      (lineWorld.comp.SetIsInitialized false).events = [CompEvent.ReceiveInit] ∧
      ∃ r, UDASComponent.Reset lineEnv lineOwnerEnv lineWorld = Except.ok r ∧
        r.comp.bIsInitialized = false ∧
        r.comp.events.head? = some CompEvent.ReceiveInit :=
  ⟨rfl, rfl, rfl, _, rfl, rfl, rfl⟩

/-- C26: for a component with an owner for whose class the class-default component is
found, `Reset` returns, and afterwards the component is not initialized, the queue is
empty, the active action point and the active path point are none, the run mode and the
moving-forward flag are those of the class-default component, the returning and
has-new-path-point flags are false, the path behaviour is Undefined, the goal location
and rotation are zero, and the action selector and the initial path point are none. A
call of `Init` on the component while it is initialized returns false and the state
unchanged; a call of `Init` after `Reset`, with an owner that has authority, is a pawn,
implements the interface and has a controller on which the behavior tree starts, returns
true and leaves the component initialized. -/
theorem Reset_restores_defaults {σ : Type} (env : DASEnv σ) (oenv : OwnerEnv σ)
    (w : DASWorld σ) (owner : Nat) (ComponentCDO : UDASComponent)
    (hown : w.comp.Owner = some owner)
    (hcdo : oenv.FindDefaultComponentByClass owner = some ComponentCDO) :
    ∃ r, UDASComponent.Reset env oenv w = Except.ok r ∧
      r.comp.bIsInitialized = false ∧
      r.comp.ActionPointsQueue = [] ∧
      r.comp.ActiveActionPoint = none ∧
      r.comp.ActivePathPoint = none ∧
      r.comp.RunMode = ComponentCDO.RunMode ∧
      r.comp.bIsMovingForwardAlongPath = ComponentCDO.bIsMovingForwardAlongPath ∧
      r.comp.bIsReturningToPathPoint = false ∧
      r.comp.bHasNewPathPoint = false ∧
      r.comp.PathBehavior = EDASPathBehavior.Undefined ∧
      r.comp.CurrentGoalLocation = ⟨0, 0, 0⟩ ∧
      r.comp.CurrentGoalRotation = ⟨0, 0, 0⟩ ∧
      r.comp.ActionSelector = none ∧
      r.comp.InitialPathPoint = none ∧
      (w.comp.bIsInitialized = true →
        ∀ BehaviorTree, UDASComponent.Init env oenv w BehaviorTree = (false, w)) ∧
      (∀ tree controller : Nat, oenv.HasAuthority owner = true → oenv.IsPawn owner = true →
        oenv.ImplementsDASInterface owner = true →
        env.GetAIController (some owner) = some controller →
        (oenv.RunBehaviorTree controller tree r.ext).1 = true →
        (UDASComponent.Init env oenv r (some tree)).1 = true ∧
        (UDASComponent.Init env oenv r (some tree)).2.comp.bIsInitialized = true) := by
  obtain ⟨r, h0, ho, h1, h2, h3, h4, h5, h6, h7, h8, h9, h10, h11, h12, h13⟩ :=
    Reset_fields env oenv w owner ComponentCDO hown hcdo
  refine ⟨r, h0, h1, h2, h3, h4, h5, h6, h7, h8, h9, h10, h11, h12, h13, ?_, ?_⟩
  · intro hinit BehaviorTree
    unfold UDASComponent.Init
    rw [if_pos hinit]
  · intro tree controller hauth hpawn hint hctl hrun
    exact Init_succeeds env oenv r owner tree controller h1 (ho.trans hown) hauth hpawn hint
      hctl hrun

theorem Reset_restores_defaults_witness :
    lineWorld.comp.Owner = some 1 ∧
      lineOwnerEnv.FindDefaultComponentByClass 1 = some classDefault ∧
      lineWorld.comp.bIsInitialized = true ∧
      UDASComponent.Init controllerEnv lineOwnerEnv lineWorld (some 3) = (false, lineWorld) ∧
      ∃ r, UDASComponent.Reset controllerEnv lineOwnerEnv lineWorld = Except.ok r ∧
        r.comp.bIsInitialized = false ∧ r.comp.ActivePathPoint = none ∧
        r.comp.RunMode = EDASRunMode.ExecutePathPoints ∧
        (UDASComponent.Init controllerEnv lineOwnerEnv r (some 3)).1 = true := by
  obtain ⟨r, h0, h1, _, _, h4, h5, _, _, _, _, _, _, _, _, h14, h15⟩ :=
    Reset_restores_defaults controllerEnv lineOwnerEnv lineWorld 1 classDefault rfl rfl
  exact ⟨rfl, rfl, rfl, h14 rfl (some 3), r, h0, h1, h4, h5,
    (h15 3 60 rfl rfl rfl rfl rfl).1⟩

/-! ## Theorems: null instances in a chain -/

theorem filter_isSome_eq_nonNullEntries :
    ∀ chain : List FDASConditionWrapper,
      chain.filter (fun e => e.Instance.isSome) = (nonNullEntries chain).map wrap := by
  intro chain
  induction chain with
  | nil => rfl
  | cons e rest ih =>
    obtain ⟨inst, op⟩ := e
    cases inst with
    | none => simpa [nonNullEntries] using ih
    | some c => simp [nonNullEntries, wrap, ih]

theorem take_succ_filter (l : List FDASConditionWrapper) (i : Nat) (hi : i < l.length) :
    (l.take (i + 1)).filter (fun e => e.Instance.isSome)
      = (l.take i).filter (fun e => e.Instance.isSome) ++
        (if l[i].Instance.isSome = true then [l[i]] else []) := by
  rw [List.take_succ, List.filter_append, List.getElem?_eq_getElem hi]
  by_cases h : l[i].Instance.isSome = true
  · rw [if_pos h]
    simp only [Option.toList, List.filter_cons, List.filter_nil]
    rw [if_pos h]
  · rw [if_neg h]
    simp only [Option.toList, List.filter_cons, List.filter_nil]
    rw [if_neg h]

/-- The loop of `Initialize` run from index `n - 1` down removes the null-instance entries
among the first `n` and keeps the other entries in their order. -/
theorem Initialize_loop_Conditions :
    ∀ (n : Nat) (m : QueryMem), n ≤ m.query.Conditions.length →
      (UDASConditionQuery.Initialize_loop n m).query.Conditions
        = (m.query.Conditions.take n).filter (fun e => e.Instance.isSome) ++
          m.query.Conditions.drop n := by
  intro n
  induction n with
  | zero => intro m _; simp [UDASConditionQuery.Initialize_loop]
  | succ i ih =>
    intro m hn
    have hi : i < m.query.Conditions.length := hn
    unfold UDASConditionQuery.Initialize_loop
    rw [List.getElem?_eq_getElem hi]
    dsimp only
    rw [take_succ_filter _ i hi]
    cases hx : m.query.Conditions[i].Instance with
    | some c =>
      dsimp only
      rw [ih]
      · dsimp only
        rw [if_pos (by rfl : (some c).isSome = true), List.append_assoc,
          List.singleton_append, ← List.drop_eq_getElem_cons hi]
      · exact Nat.le_of_lt hi
    | none =>
      dsimp only
      rw [ih]
      · dsimp only
        rw [if_neg (by simp), List.append_nil, List.eraseIdx_eq_take_drop_succ,
          List.take_left' (List.length_take_of_le (Nat.le_of_lt hi)),
          List.drop_left' (List.length_take_of_le (Nat.le_of_lt hi))]
      · show i ≤ (m.query.Conditions.eraseIdx i).length
        rw [List.length_eraseIdx_of_lt hi]
        omega

/-- The loop of `Uninitialize` run from index `n - 1` down removes the null-instance
entries among the first `n` and keeps the other entries in their order. -/
theorem Uninitialize_loop_Conditions :
    ∀ (n : Nat) (m : QueryMem), n ≤ m.query.Conditions.length →
      (UDASConditionQuery.Uninitialize_loop n m).query.Conditions
        = (m.query.Conditions.take n).filter (fun e => e.Instance.isSome) ++
          m.query.Conditions.drop n := by
  intro n
  induction n with
  | zero => intro m _; simp [UDASConditionQuery.Uninitialize_loop]
  | succ i ih =>
    intro m hn
    have hi : i < m.query.Conditions.length := hn
    unfold UDASConditionQuery.Uninitialize_loop
    rw [List.getElem?_eq_getElem hi]
    dsimp only
    rw [take_succ_filter _ i hi]
    cases hx : m.query.Conditions[i].Instance with
    | some c =>
      dsimp only
      rw [ih]
      · dsimp only
        rw [if_pos (by rfl : (some c).isSome = true), List.append_assoc,
          List.singleton_append, ← List.drop_eq_getElem_cons hi]
      · exact Nat.le_of_lt hi
    | none =>
      dsimp only
      rw [ih]
      · dsimp only
        rw [if_neg (by simp), List.append_nil, List.eraseIdx_eq_take_drop_succ,
          List.take_left' (List.length_take_of_le (Nat.le_of_lt hi)),
          List.drop_left' (List.length_take_of_le (Nat.le_of_lt hi))]
      · show i ≤ (m.query.Conditions.eraseIdx i).length
        rw [List.length_eraseIdx_of_lt hi]
        omega

theorem nonNullEntries_length_le (chain : List FDASConditionWrapper) :
    (nonNullEntries chain).length ≤ chain.length := by
  have h := congrArg List.length (filter_isSome_eq_nonNullEntries chain)
  rw [List.length_map] at h
  rw [← h]
  exact List.length_filter_le _ _

/-- On a query that is not initialized, `Initialize` returns, removes exactly the
null-instance entries of the chain, keeping the others in order, and caches the value of
the fold over the entries left. -/
theorem Initialize_prunes (value : Nat → Bool) (fuel : Nat) (m : QueryMem)
    (h : m.query.bIsInitialized = false) (hfuel : m.query.Conditions.length < fuel) :
    ∃ t, UDASConditionQuery.Initialize value fuel m = Except.ok t ∧
      t.query.Conditions = (nonNullEntries m.query.Conditions).map wrap ∧
      t.query.CachedConditionResult
        = ECachedConditionResult.ofBool (specFold value (nonNullEntries m.query.Conditions)).1 := by
  obtain ⟨m2, hm2⟩ : ∃ x, x = UDASConditionQuery.Initialize_loop m.query.Conditions.length
      { m with query := { m.query with bIsInitialized := true } } := ⟨_, rfl⟩
  have key : UDASConditionQuery.Initialize value fuel m =
      match UDASConditionQuery.IsConditionFulfilled value fuel m2 with
      | Except.error e => Except.error e
      | Except.ok r => Except.ok r.2 := by
    rw [hm2]
    unfold UDASConditionQuery.Initialize
    rw [if_pos h]
  have hcond : m2.query.Conditions = (nonNullEntries m.query.Conditions).map wrap := by
    have hl := Initialize_loop_Conditions m.query.Conditions.length
      { m with query := { m.query with bIsInitialized := true } } (le_refl _)
    rw [hm2]
    refine hl.trans ?_
    show (m.query.Conditions.take m.query.Conditions.length).filter _ ++
      m.query.Conditions.drop m.query.Conditions.length = _
    rw [List.take_length, List.drop_length, List.append_nil]
    exact filter_isSome_eq_nonNullEntries _
  obtain ⟨t, ht, hE, _, hc⟩ := IsConditionFulfilled_returns value fuel m2
    (nonNullEntries m.query.Conditions) hcond
    (lt_of_le_of_lt (mismatch_le_length value _ m2)
      (by
        rw [List.length_map]
        exact lt_of_le_of_lt (nonNullEntries_length_le _) hfuel))
  rw [key, ht]
  exact ⟨t, rfl, hE.1.trans hcond, hc⟩

/-- On an initialized query, `Uninitialize` removes exactly the null-instance entries of
the chain and keeps the others in order. -/
theorem Uninitialize_prunes (m : QueryMem) (h : m.query.bIsInitialized = true) :
    (UDASConditionQuery.Uninitialize m).query.Conditions
      = (nonNullEntries m.query.Conditions).map wrap := by
  have hl := Uninitialize_loop_Conditions m.query.Conditions.length
    { m with query := { m.query with bIsInitialized := false
                                     CachedConditionResult :=
                                       ECachedConditionResult.Undefined } } (le_refl _)
  unfold UDASConditionQuery.Uninitialize
  rw [if_pos h]
  refine hl.trans ?_
  show (m.query.Conditions.take m.query.Conditions.length).filter _ ++
    m.query.Conditions.drop m.query.Conditions.length = _
  rw [List.take_length, List.drop_length, List.append_nil]
  exact filter_isSome_eq_nonNullEntries _

/-- C23 fails on the code: `IsConditionFulfilled_Internal` calls
`condWrapper.Instance->IsConditionFulfilled()` without a test, and only `Initialize` and
`Uninitialize` remove null instances. On a query that was not initialized, with the
chain `[A (AND), null (AND)]` and `A` true, the evaluation dereferences the null
instance, also when it is made through `CanRun` of a point; `Initialize` on the same
query returns and leaves the chain `[A (AND)]`. -/
theorem null_instance_is_dereferenced :
    UDASConditionQuery.IsConditionFulfilled (fun _ => true) 5
        (freshMem [⟨some 0, EDASOperator.AND⟩, ⟨none, EDASOperator.AND⟩])
      = Except.error Fault.nullDereference ∧
    ADASBasePoint.CanRun_Implementation (fun _ => true) 5
        { ConditionQuery :=
            { Instance := some (UDASConditionQuery.construct
                [⟨some 0, EDASOperator.AND⟩, ⟨none, EDASOperator.AND⟩]) }
          conds := fun _ => UDASCondition.construct
          log := [] }
      = Except.error Fault.nullDereference ∧
    ∃ t, UDASConditionQuery.Initialize (fun _ => true) 5
          (freshMem [⟨some 0, EDASOperator.AND⟩, ⟨none, EDASOperator.AND⟩]) = Except.ok t ∧
      t.query.Conditions = [⟨some 0, EDASOperator.AND⟩] :=
  ⟨rfl, rfl, _, rfl, rfl⟩

end DAS
